import Mathlib

/-!
# Preemptible tree RCU (`kernel/rcutree_plugin.h`)

A shallow embedding of the `CONFIG_TREE_PREEMPT_RCU` half of
`linux-stm32f7/kernel/rcutree_plugin.h`, run by one context at a time.

* Memory is a set of total maps: `node` is `rcu_preempt_state.node[]`, `rda` the per-CPU
  `rcu_data`, `task` the task structs.  A pointer is an index, `NULL` is `none`.
* `struct list_head blocked_tasks[4]` is a map from the index to the list of the queued tasks
  (head of the Lean list = `lp->next`).  A task's `rcu_node_entry` is its occurrence in those
  lists; only indices 0 to 3 belong to the array.
* Calls that leave this file (`rcu_report_qs_rnp`, `rcu_report_qs_rsp`, locks, `udelay`,
  `wake_up`, ...) are appended to `trace` in program order; what the callee does afterwards is
  outside the model.  A primitive that sleeps until another context wakes the caller
  (`wait_for_completion`, `wait_event`) is one event, after which the caller goes on.
* What other contexts do to `sync_rcu_preempt_exp_mutex` and `sync_rcu_preempt_exp_count`
  during `synchronize_rcu_expedited` is an input, `Env`.
* Operations that dereference `NULL` or whose loop does not finish return `none`.
* `long` and `int` are 32 bits wide and wrap; `unsigned long` masks are natural numbers.
* Memory barriers and the diagnostics `WARN_ON_ONCE` / `WARN_ONCE` have no effect on the state
  and are left out.
-/

namespace RcuTree

/-! ## Machine words -/

/-- Largest `unsigned long` of the 32-bit target. -/
def ULONG_MAX : Nat := 2 ^ 32 - 1

/-- Signed `long` arithmetic wraps (the kernel is built with wrapping overflow). -/
def wrap_long (x : Int) : Int := (x + 2 ^ 31) % 2 ^ 32 - 2 ^ 31

/-- The C operator `~` on an `unsigned long` (or on the bits of a non-negative `int`). -/
def lnot (m : Nat) : Nat := ULONG_MAX ^^^ m

/-- Modelled from the spec: the "blocked" special-condition flag; the constant is declared in
`include/linux/sched.h`, which is not part of the sources at hand (there: `1 << 0`). -/
def RCU_READ_UNLOCK_BLOCKED : Nat := 1

/-- Modelled from the spec: the "needs quiescent state" special-condition flag, declared in
`include/linux/sched.h` (there: `1 << 1`). -/
def RCU_READ_UNLOCK_NEED_QS : Nat := 2

/-- Modelled from the spec: return flag "a normal grace period was still blocked", declared in
`kernel/rcutree.h` (there: `0x1`). -/
def RCU_OFL_TASKS_NORM_GP : Nat := 1

/-- Modelled from the spec: return flag "an expedited grace period was still blocked", declared
in `kernel/rcutree.h` (there: `0x2`). -/
def RCU_OFL_TASKS_EXP_GP : Nat := 2

/-! ## Data model -/

/-- Calls to code outside `rcutree_plugin.h`, in program order. -/
inductive Event where
  | local_irq_save
  | local_irq_restore
  | spin_lock (rnp : Nat)
  | spin_unlock (rnp : Nat)
  | onofflock_lock
  | onofflock_unlock
  | rcu_report_qs_rsp
  | rcu_report_qs_rnp (mask : Nat) (rnp : Nat)
  | wake_up
  | mutex_trylock (ok : Bool)
  | mutex_unlock
  | udelay (usecs : Nat)
  | init_completion
  | call_rcu
  | wait_for_completion
  | synchronize_sched_expedited
  | wait_event
  | exp_count_inc
  deriving DecidableEq, Repr

/-- The fields of `struct rcu_node` that `rcutree_plugin.h` reads or writes. -/
structure rcu_node where
  gpnum : Int
  qsmask : Nat
  expmask : Nat
  qsmaskinit : Nat
  grpmask : Nat
  parent : Option Nat
  blocked_tasks : Nat → List Nat

/-- The fields of `struct rcu_data` that `rcutree_plugin.h` reads or writes. -/
structure rcu_data where
  gpnum : Int
  passed_quiesc_completed : Int
  passed_quiesc : Bool
  mynode : Nat
  grpmask : Nat

/-- The RCU fields of `struct task_struct`. -/
structure task_struct where
  rcu_read_lock_nesting : Int
  rcu_read_unlock_special : Nat
  rcu_blocked_node : Option Nat

/-- The memory the file works on, together with the context it runs in. -/
structure State where
  /-- Source: `rcu_preempt_state.node[]`; the root is `node[0]`. -/
  node : Nat → rcu_node
  /-- The constant `NUM_RCU_NODES`. -/
  NUM_RCU_NODES : Nat
  /-- Index of `rcu_preempt_state.level[NUM_RCU_LVLS - 1]`, the first leaf. -/
  level_leaf : Nat
  /-- Source: `rcu_preempt_state.rda[]`, the per-CPU `rcu_preempt_data`. -/
  rda : Nat → rcu_data
  task : Nat → task_struct
  /-- The task `current`. -/
  current : Nat
  smp_processor_id : Nat
  in_nmi : Bool
  in_irq : Bool
  sync_rcu_preempt_exp_count : Int
  num_online_cpus : Nat
  rcu_scheduler_active : Bool
  trace : List Event

/-- What other contexts do while `synchronize_rcu_expedited` runs. -/
structure Env where
  /-- Result of the `k`-th call of `mutex_trylock(&sync_rcu_preempt_exp_mutex)`, `k = 0, 1, ...` -/
  mutex_trylock : Nat → Bool
  /-- Value of `sync_rcu_preempt_exp_count` seen by the `k`-th re-read after the snapshot. -/
  exp_count : Nat → Int

/-! ## State helpers -/

def log (s : State) (es : List Event) : State :=
  { s with trace := s.trace ++ es }

def set_node (s : State) (rnp : Nat) (f : rcu_node → rcu_node) : State :=
  { s with node := Function.update s.node rnp (f (s.node rnp)) }

def set_task (s : State) (t : Nat) (f : task_struct → task_struct) : State :=
  { s with task := Function.update s.task t (f (s.task t)) }

def spin_lock_irqsave (s : State) (rnp : Nat) : State :=
  log s [Event.local_irq_save, Event.spin_lock rnp]

def spin_unlock_irqrestore (s : State) (rnp : Nat) : State :=
  log s [Event.spin_unlock rnp, Event.local_irq_restore]

/-- The list `rnp->blocked_tasks[i]`. -/
def blocked (s : State) (rnp i : Nat) : List Nat :=
  (s.node rnp).blocked_tasks i

def list_empty (l : List Nat) : Bool := l.isEmpty

/-- Source: `list_add(&t->rcu_node_entry, &rnp->blocked_tasks[i])`: insert right after the head. -/
def list_add (s : State) (t rnp i : Nat) : State :=
  set_node s rnp (fun n =>
    { n with blocked_tasks := Function.update n.blocked_tasks i (t :: n.blocked_tasks i) })

/-- Source: `list_del(&t->rcu_node_entry)` and `list_del_init(&t->rcu_node_entry)`: unlink the entry
from whatever list it is on. -/
def list_del (s : State) (t : Nat) : State :=
  { s with node := fun rnp =>
      { s.node rnp with
        blocked_tasks := fun i => ((s.node rnp).blocked_tasks i).filter (fun x => x != t) } }

/-- Source: `list_splice_init(&rnp->blocked_tasks[i], &rnp->blocked_tasks[j])`: the entries of list `i`
go to the front of list `j`, list `i` is left empty. -/
def list_splice_init (s : State) (rnp i j : Nat) : State :=
  set_node s rnp (fun n =>
    { n with blocked_tasks :=
        (Function.update (Function.update n.blocked_tasks j (n.blocked_tasks i ++ n.blocked_tasks j))
          i []) })

/-- Modelled from the spec: `rcu_get_root(rsp)`, defined in `kernel/rcutree.c` outside the
sources at hand, returns the root of the node tree; the nodes are numbered from the root, so it
is `&rsp->node[0]`. -/
def rcu_get_root (_s : State) : Nat := 0

/-! ## The operations of `rcutree_plugin.h` -/

/-- Source: `rcu_preempt_qs(cpu)` -/
def rcu_preempt_qs (s : State) (cpu : Nat) : State :=
  { s with rda := (Function.update s.rda cpu
      { s.rda cpu with
        passed_quiesc_completed := wrap_long ((s.rda cpu).gpnum - 1)
        passed_quiesc := true }) }

/-- The phase `(rnp->gpnum + !(rnp->qsmask & rdp->grpmask)) & 0x1` chosen by the
context-switch hook. -/
def switch_phase (s : State) (cpu : Nat) : Nat :=
  let rdp := s.rda cpu
  let rnp := rdp.mynode
  (((s.node rnp).gpnum + (if (s.node rnp).qsmask &&& rdp.grpmask = 0 then 1 else 0)) % 2).toNat

/-- Source: `rcu_preempt_note_context_switch(cpu)` -/
def rcu_preempt_note_context_switch (s : State) (cpu : Nat) : State :=
  let t := s.current
  let s1 :=
    if (s.task t).rcu_read_lock_nesting ≠ 0 ∧
        (s.task t).rcu_read_unlock_special &&& RCU_READ_UNLOCK_BLOCKED = 0 then
      let rdp := s.rda cpu
      let rnp := rdp.mynode
      let s := spin_lock_irqsave s rnp
      let s := set_task s t (fun p =>
        { p with rcu_read_unlock_special := p.rcu_read_unlock_special ||| RCU_READ_UNLOCK_BLOCKED })
      let s := set_task s t (fun p => { p with rcu_blocked_node := some rnp })
      let phase := switch_phase s cpu
      let s := list_add s t rnp phase
      spin_unlock_irqrestore s rnp
    else s
  let s2 := rcu_preempt_qs s1 cpu
  let s3 := log s2 [Event.local_irq_save]
  let s4 := set_task s3 t (fun p =>
    { p with rcu_read_unlock_special := p.rcu_read_unlock_special &&& lnot RCU_READ_UNLOCK_NEED_QS })
  log s4 [Event.local_irq_restore]

/-- Source: `__rcu_read_lock()` -/
def __rcu_read_lock (s : State) : State :=
  set_task s s.current (fun p =>
    { p with rcu_read_lock_nesting := wrap_long (p.rcu_read_lock_nesting + 1) })

/-- Source: `rcu_preempted_readers(rnp)` -/
def rcu_preempted_readers (s : State) (rnp : Nat) : Bool :=
  let phase := ((s.node rnp).gpnum % 2).toNat
  !list_empty (blocked s rnp phase) || !list_empty (blocked s rnp (phase + 2))

/-- Source: `rcu_report_unblock_qs_rnp(rnp, flags)`; the caller holds `rnp->lock`. -/
def rcu_report_unblock_qs_rnp (s : State) (rnp : Nat) : State :=
  if (s.node rnp).qsmask ≠ 0 ∨ rcu_preempted_readers s rnp = true then
    spin_unlock_irqrestore s rnp
  else
    match (s.node rnp).parent with
    | none => log s [Event.rcu_report_qs_rsp]
    | some rnp_p =>
      let mask := (s.node rnp).grpmask
      let s := log s [Event.spin_unlock rnp]
      let s := log s [Event.spin_lock rnp_p]
      log s [Event.rcu_report_qs_rnp mask rnp_p]

/-- Source: `rcu_preempted_readers_exp(rnp)` -/
def rcu_preempted_readers_exp (s : State) (rnp : Nat) : Bool :=
  !list_empty (blocked s rnp 2) || !list_empty (blocked s rnp 3)

/-- Source: `sync_rcu_preempt_exp_done(rnp)` -/
def sync_rcu_preempt_exp_done (s : State) (rnp : Nat) : Bool :=
  !rcu_preempted_readers_exp s rnp && decide ((s.node rnp).expmask = 0)

/-- The `for (;;)` loop of `rcu_report_exp_rnp`; one unit of fuel per pass.  Returns the state
and the node whose lock is held at the `break`. -/
def rcu_report_exp_loop : Nat → State → Nat → Option (State × Nat)
  | 0, _, _ => none
  | fuel + 1, s, rnp =>
    if !sync_rcu_preempt_exp_done s rnp then some (s, rnp)
    else
      match (s.node rnp).parent with
      | none => some (log s [Event.wake_up], rnp)
      | some rnp_p =>
        let mask := (s.node rnp).grpmask
        let s := log s [Event.spin_unlock rnp]
        let s := log s [Event.spin_lock rnp_p]
        let s := set_node s rnp_p (fun n => { n with expmask := n.expmask &&& lnot mask })
        rcu_report_exp_loop fuel s rnp_p

/-- Source: `rcu_report_exp_rnp(rsp, rnp)`.  A walk towards the root of a tree of `NUM_RCU_NODES`
nodes visits at most `NUM_RCU_NODES` nodes. -/
def rcu_report_exp_rnp (s : State) (rnp : Nat) : Option State :=
  let s := spin_lock_irqsave s rnp
  match rcu_report_exp_loop s.NUM_RCU_NODES s rnp with
  | none => none
  | some (s, rnp) => some (spin_unlock_irqrestore s rnp)

/-- Source: `rcu_read_unlock_special(t)`.  With no other context running, the loop that
re-validates `t->rcu_blocked_node` after taking the lock breaks in its first pass. -/
def rcu_read_unlock_special (s : State) (t : Nat) : Option State :=
  if s.in_nmi then some s
  else
    let s := log s [Event.local_irq_save]
    let special := (s.task t).rcu_read_unlock_special
    let s :=
      if special &&& RCU_READ_UNLOCK_NEED_QS ≠ 0 then
        let s := set_task s t (fun p =>
          { p with rcu_read_unlock_special :=
              p.rcu_read_unlock_special &&& lnot RCU_READ_UNLOCK_NEED_QS })
        rcu_preempt_qs s s.smp_processor_id
      else s
    if s.in_irq then some (log s [Event.local_irq_restore])
    else if special &&& RCU_READ_UNLOCK_BLOCKED ≠ 0 then
      let s := set_task s t (fun p =>
        { p with rcu_read_unlock_special :=
            p.rcu_read_unlock_special &&& lnot RCU_READ_UNLOCK_BLOCKED })
      match (s.task t).rcu_blocked_node with
      | none => none
      | some rnp =>
        let s := log s [Event.spin_lock rnp]
        let empty := !rcu_preempted_readers s rnp
        let empty_exp := !rcu_preempted_readers_exp s rnp
        let s := list_del s t
        let s := set_task s t (fun p => { p with rcu_blocked_node := none })
        let s := if empty then spin_unlock_irqrestore s rnp else rcu_report_unblock_qs_rnp s rnp
        if !empty_exp && !rcu_preempted_readers_exp s rnp then rcu_report_exp_rnp s rnp
        else some s
    else some (log s [Event.local_irq_restore])

/-- Source: `__rcu_read_unlock()` -/
def __rcu_read_unlock (s : State) : Option State :=
  let t := s.current
  let s := set_task s t (fun p =>
    { p with rcu_read_lock_nesting := wrap_long (p.rcu_read_lock_nesting - 1) })
  if (s.task t).rcu_read_lock_nesting = 0 ∧ (s.task t).rcu_read_unlock_special ≠ 0 then
    rcu_read_unlock_special s t
  else some s

/-- Body of the `while (!list_empty(lp))` loop of `rcu_preempt_offline_tasks` for the first
entry `tp` of `rnp->blocked_tasks[i]`. -/
def offline_move_one (s : State) (tp i : Nat) : State :=
  let rnp_root := rcu_get_root s
  let s := log s [Event.spin_lock rnp_root]
  let s := list_del s tp
  let s := set_task s tp (fun p => { p with rcu_blocked_node := some rnp_root })
  let s := list_add s tp rnp_root i
  log s [Event.spin_unlock rnp_root]

/-- The loop `while (!list_empty(lp))` of `rcu_preempt_offline_tasks` for list `i`; one unit of
fuel per evaluation of the loop condition. -/
def offline_while : Nat → State → Nat → Nat → Option State
  | 0, _, _, _ => none
  | fuel + 1, s, rnp, i =>
    match blocked s rnp i with
    | [] => some s
    | tp :: _ => offline_while fuel (offline_move_one s tp i) rnp i

/-- The loop `for (i = 0; i < 4; i++)` of `rcu_preempt_offline_tasks`. -/
def offline_for (s : State) (rnp : Nat) : Option State :=
  [0, 1, 2, 3].foldlM (fun s i => offline_while ((blocked s rnp i).length + 1) s rnp i) s

/-- Source: `rcu_preempt_offline_tasks(rsp, rnp, rdp)`: the state afterwards and the return value. -/
def rcu_preempt_offline_tasks (s : State) (rnp : Nat) : Option (State × Nat) :=
  let rnp_root := rcu_get_root s
  if rnp = rnp_root then some (s, 0)
  else
    let retval := 0
    let retval :=
      if rcu_preempted_readers s rnp then retval ||| RCU_OFL_TASKS_NORM_GP else retval
    let retval :=
      if rcu_preempted_readers_exp s rnp then retval ||| RCU_OFL_TASKS_EXP_GP else retval
    match offline_for s rnp with
    | none => none
    | some s => some (s, retval)

/-- Source: `synchronize_rcu()`; `wait_for_completion` returns once the callback has run. -/
def synchronize_rcu (s : State) : State :=
  if !s.rcu_scheduler_active then s
  else log s [Event.init_completion, Event.call_rcu, Event.wait_for_completion]

/-- Source: `sync_rcu_preempt_exp_init(rsp, rnp)` -/
def sync_rcu_preempt_exp_init (s : State) (rnp : Nat) : Option State :=
  let s := log s [Event.spin_lock rnp]
  let s := list_splice_init s rnp 0 2
  let s := list_splice_init s rnp 1 3
  let must_wait := rcu_preempted_readers_exp s rnp
  let s := log s [Event.spin_unlock rnp]
  if !must_wait then rcu_report_exp_rnp s rnp else some s

/-- How the mutex-acquisition loop of `synchronize_rcu_expedited` is left. -/
inductive LoopExit where
  /-- Source: `mutex_trylock` succeeded at the attempt with this index. -/
  | acquired (attempt : Nat)
  /-- Source: `goto mb_ret`: the counter passed the snapshot. -/
  | mb_ret
  /-- Source: `synchronize_rcu(); return;` -/
  | fallback
  deriving DecidableEq, Repr

/-- The loop `while (!mutex_trylock(&sync_rcu_preempt_exp_mutex))` of
`synchronize_rcu_expedited`, entered with the given value of `trycount`. -/
def exp_trylock_loop (env : Env) (snap : Int) (s : State) (trycount : Nat) : LoopExit × State :=
  if env.mutex_trylock trycount then
    (LoopExit.acquired trycount, log s [Event.mutex_trylock true])
  else
    let s := log s [Event.mutex_trylock false]
    if trycount < 10 then
      let s := log s [Event.udelay ((trycount + 1) * s.num_online_cpus)]
      if wrap_long (env.exp_count trycount - snap) > 0 then (LoopExit.mb_ret, s)
      else exp_trylock_loop env snap s (trycount + 1)
    else (LoopExit.fallback, synchronize_rcu s)
termination_by 11 - trycount
decreasing_by omega

/-- The part of `synchronize_rcu_expedited` that runs with the mutex held and the counter not
past the snapshot; `c` is the value of the counter, which only the holder of the mutex
changes.  The iteration macros of `kernel/rcutree.h` visit `node[0 .. level_leaf)` (non-leaf
nodes) and `node[level_leaf .. NUM_RCU_NODES)` (leaves).  `wait_event` on a condition that does
not hold yet sleeps until another context wakes the caller. -/
def exp_grace_period (s : State) (c : Int) : Option State := do
  let s := log s [Event.synchronize_sched_expedited]
  let s := log s [Event.local_irq_save, Event.onofflock_lock]
  let s := (List.range s.level_leaf).foldl (fun s rnp =>
    let s := log s [Event.spin_lock rnp]
    let s := set_node s rnp (fun n => { n with expmask := n.qsmaskinit })
    log s [Event.spin_unlock rnp]) s
  let s ← (List.range' s.level_leaf (s.NUM_RCU_NODES - s.level_leaf)).foldlM
    (fun s rnp => sync_rcu_preempt_exp_init s rnp) s
  let s ← if s.NUM_RCU_NODES > 1 then sync_rcu_preempt_exp_init s (rcu_get_root s) else some s
  let s := log s [Event.onofflock_unlock, Event.local_irq_restore]
  let s := if sync_rcu_preempt_exp_done s (rcu_get_root s) then s else log s [Event.wait_event]
  let s := { s with sync_rcu_preempt_exp_count := wrap_long (c + 1) }
  some (log s [Event.mutex_unlock])

/-- Source: `synchronize_rcu_expedited()` -/
def synchronize_rcu_expedited (env : Env) (s : State) : Option State :=
  let snap := wrap_long (s.sync_rcu_preempt_exp_count + 1)
  match exp_trylock_loop env snap s 0 with
  | (LoopExit.fallback, s) => some s
  | (LoopExit.mb_ret, s) => some s
  | (LoopExit.acquired k, s) =>
    let c := env.exp_count k
    if wrap_long (c - snap) > 0 then some (log s [Event.mutex_unlock])
    else exp_grace_period s c

/-! ## Predicates used in the statements -/

/-- The parent chain of `rnp` ends at a node without parent after at most `fuel` nodes. -/
def reaches_root (s : State) : Nat → Nat → Bool
  | 0, _ => false
  | fuel + 1, rnp =>
    match (s.node rnp).parent with
    | none => true
    | some rnp_p => reaches_root s fuel rnp_p

/-- The task has the flag `RCU_READ_UNLOCK_BLOCKED`. -/
def is_blocked (s : State) (t : Nat) : Prop :=
  (s.task t).rcu_read_unlock_special &&& RCU_READ_UNLOCK_BLOCKED ≠ 0

/-- Every task is on no blocked list, with the flag clear and no node recorded, or on exactly
one of the four lists of exactly one node, once, with the flag set and that node recorded. -/
def well_formed (s : State) : Prop :=
  ∀ t,
    (¬ is_blocked s t ∧ (s.task t).rcu_blocked_node = none ∧
      ∀ rnp i, i < 4 → (blocked s rnp i).count t = 0) ∨
    (∃ rnp i, i < 4 ∧ is_blocked s t ∧ (s.task t).rcu_blocked_node = some rnp ∧
      (blocked s rnp i).count t = 1 ∧
      ∀ rnp' i', i' < 4 → (rnp' ≠ rnp ∨ i' ≠ i) → (blocked s rnp' i').count t = 0)

/-- The event is a quiescent-state report for a normal grace period: to a parent node
(`rcu_report_qs_rnp`) or, at the root, the completion of the grace period
(`rcu_report_qs_rsp`). -/
def is_qs_report : Event → Bool
  | Event.rcu_report_qs_rsp => true
  | Event.rcu_report_qs_rnp _ _ => true
  | _ => false

/-- The state `s'` differs from `s` at most in `expmask` fields and by further trace events,
none of them a quiescent-state report. -/
def exp_only (s s' : State) : Prop :=
  s' = { s with node := s'.node, trace := s'.trace } ∧
  (∀ n, s'.node n = { s.node n with expmask := (s'.node n).expmask }) ∧
  ∃ es, s'.trace = s.trace ++ es ∧ ∀ e ∈ es, is_qs_report e = false

/-- The state of `rcu_read_unlock_special(t)` right after `t->rcu_blocked_node = NULL`, for a
task marked blocked whose `rcu_blocked_node` is `rnp`, outside NMI and hard-IRQ context. -/
def unlock_dequeued (s : State) (t rnp : Nat) : State :=
  let s := log s [Event.local_irq_save]
  let s :=
    if (s.task t).rcu_read_unlock_special &&& RCU_READ_UNLOCK_NEED_QS ≠ 0 then
      let s := set_task s t (fun p =>
        { p with rcu_read_unlock_special :=
            p.rcu_read_unlock_special &&& lnot RCU_READ_UNLOCK_NEED_QS })
      rcu_preempt_qs s s.smp_processor_id
    else s
  let s := set_task s t (fun p =>
    { p with rcu_read_unlock_special :=
        p.rcu_read_unlock_special &&& lnot RCU_READ_UNLOCK_BLOCKED })
  let s := log s [Event.spin_lock rnp]
  let s := list_del s t
  set_task s t (fun p => { p with rcu_blocked_node := none })

/-- The state of `rcu_read_unlock_special(t)` after the `if (empty) ... else ...` statement
that follows the removal of the task from its list. -/
def unlock_reported (s : State) (t rnp : Nat) : State :=
  if !rcu_preempted_readers s rnp then spin_unlock_irqrestore (unlock_dequeued s t rnp) rnp
  else rcu_report_unblock_qs_rnp (unlock_dequeued s t rnp) rnp

/-- Number of entries of the task on the four blocked lists of node `n`. -/
def total_count (s : State) (t n : Nat) : Nat :=
  (blocked s n 0).count t + (blocked s n 1).count t + (blocked s n 2).count t +
    (blocked s n 3).count t

/-- The state of `rcu_read_unlock_special(t)` before the test of `in_irq()`: interrupts are
saved and a requested quiescent state has been recorded. -/
def unlock_need_qs (s : State) (t : Nat) : State :=
  let s := log s [Event.local_irq_save]
  if (s.task t).rcu_read_unlock_special &&& RCU_READ_UNLOCK_NEED_QS ≠ 0 then
    let s := set_task s t (fun p =>
      { p with rcu_read_unlock_special :=
          p.rcu_read_unlock_special &&& lnot RCU_READ_UNLOCK_NEED_QS })
    rcu_preempt_qs s s.smp_processor_id
  else s

/-- The state of `sync_rcu_preempt_exp_init(rsp, rnp)` when it releases `rnp->lock`: lists 0
and 1 have been spliced into lists 2 and 3. -/
def exp_init_spliced (s : State) (rnp : Nat) : State :=
  let s := log s [Event.spin_lock rnp]
  let s := list_splice_init s rnp 0 2
  let s := list_splice_init s rnp 1 3
  log s [Event.spin_unlock rnp]

/-- Every task is linked into at most one of the four blocked lists of at most one node, and at
most once: what a single `rcu_node_entry` per task allows. -/
def entries_unique (s : State) : Prop :=
  ∀ t, (∀ n, total_count s t n = 0) ∨
    ∃ n, total_count s t n = 1 ∧ ∀ n', n' ≠ n → total_count s t n' = 0

/-- The event is an attempt to take `sync_rcu_preempt_exp_mutex`. -/
def is_trylock : Event → Bool
  | Event.mutex_trylock _ => true
  | _ => false

/-! ## Example states -/

/-- A node with nothing outstanding and no parent. -/
def idle_node : rcu_node :=
  { gpnum := 0, qsmask := 0, expmask := 0, qsmaskinit := 3, grpmask := 0, parent := none,
    blocked_tasks := fun _ => [] }

def idle_task : task_struct :=
  { rcu_read_lock_nesting := 0, rcu_read_unlock_special := 0, rcu_blocked_node := none }

/-- Four CPUs under two leaves (nodes 1 and 2) under the root (node 0); nobody is in a
read-side critical section. -/
def tree4 : State :=
  { node := fun rnp =>
      if rnp = 1 then { idle_node with grpmask := 1, parent := some 0 }
      else if rnp = 2 then { idle_node with grpmask := 2, parent := some 0 }
      else idle_node
    NUM_RCU_NODES := 3
    level_leaf := 1
    rda := fun cpu =>
      { gpnum := 0, passed_quiesc_completed := 0, passed_quiesc := false,
        mynode := 1 + cpu / 2, grpmask := 2 ^ (cpu % 2) }
    task := fun _ => idle_task
    current := 0
    smp_processor_id := 0
    in_nmi := false
    in_irq := false
    sync_rcu_preempt_exp_count := 0
    num_online_cpus := 4
    rcu_scheduler_active := true
    trace := [] }

/-- The tree `tree4` while leaf 1 still waits for its CPU 0. -/
def tree4_waiting : State :=
  set_node tree4 1 (fun n => { n with qsmask := 1 })

/-- The tree `tree4` with task 0 (running on CPU 0) inside a read-side critical section. -/
def tree4_reader : State :=
  set_task tree4 0 (fun p => { p with rcu_read_lock_nesting := 1 })

/-- The tree `tree4_waiting` with task 0 (running on CPU 0, which has not reported yet) inside a
read-side critical section. -/
def tree4_waiting_reader : State :=
  set_task tree4_waiting 0 (fun p => { p with rcu_read_lock_nesting := 1 })

/-- Task 0 was preempted on CPU 0 inside a read-side critical section after the CPU had
reported its quiescent state (so it sits on the next-phase list of leaf 1) and has now left the
critical section. -/
def tree4_blocked_next : State :=
  set_task (rcu_preempt_note_context_switch tree4_reader 0) 0
    (fun p => { p with rcu_read_lock_nesting := 0 })

/-- Task 0 was preempted on CPU 0 inside a read-side critical section before the CPU had
reported (so it sits on the current-phase list of leaf 1); since then the CPU has reported
(`qsmask` of leaf 1 is 0) and the task has left the critical section. -/
def tree4_blocked_cur : State :=
  set_node
    (set_task (rcu_preempt_note_context_switch tree4_waiting_reader 0) 0
      (fun p => { p with rcu_read_lock_nesting := 0 }))
    1 (fun n => { n with qsmask := 0 })

/-- Two readers under leaf 1: task 0 was preempted on CPU 0 (queued on list 0) and task 1 on
CPU 1 (queued on list 1), both inside a read-side critical section. -/
def tree4_two_blocked : State :=
  rcu_preempt_note_context_switch
    (set_task { rcu_preempt_note_context_switch tree4_waiting_reader 0 with current := 1 } 1
      (fun p => { p with rcu_read_lock_nesting := 1 }))
    1

/-- An environment in which the mutex is free and the expedited counter, 0 at the snapshot of
`tree4`, reads 1 ever after: one concurrent completion. -/
def env_one_completion : Env :=
  { mutex_trylock := fun _ => true, exp_count := fun _ => 1 }

/-- An environment in which the mutex is free and the expedited counter, 0 at the snapshot of
`tree4`, reads 2 ever after: two concurrent completions. -/
def env_two_completions : Env :=
  { mutex_trylock := fun _ => true, exp_count := fun _ => 2 }

/-- An environment in which the mutex stays taken and the counter stays 0. -/
def env_contended : Env :=
  { mutex_trylock := fun _ => false, exp_count := fun _ => 0 }

/-- The state `tree4_blocked_cur` after the list move of an expedited grace period at leaf 1:
task 0 now sits on list 2 of the leaf. -/
def tree4_exp_blocked : State :=
  exp_init_spliced tree4_blocked_cur 1

/-- The state in which the nesting count of the current task is `c`. -/
def with_nesting (s : State) (c : Int) : State :=
  set_task s s.current (fun p => { p with rcu_read_lock_nesting := c })

/-- The current task calls `__rcu_read_lock()` `n` times. -/
def read_lock_times : Nat → State → State
  | 0, s => s
  | n + 1, s => read_lock_times n (__rcu_read_lock s)

/-- The current task calls `__rcu_read_unlock()` `n` times. -/
def read_unlock_times : Nat → State → Option State
  | 0, s => some s
  | n + 1, s => (__rcu_read_unlock s).bind (read_unlock_times n)

/-- The arguments of the `udelay` calls among the events, in order. -/
def delays : List Event → List Nat
  | [] => []
  | Event.udelay usecs :: es => usecs :: delays es
  | _ :: es => delays es

/-- The parent chain of `rnp`: the node, its parent, and so on, at most `fuel` nodes. -/
def ancestors (s : State) : Nat → Nat → List Nat
  | 0, _ => []
  | fuel + 1, rnp =>
    rnp :: (match (s.node rnp).parent with
      | none => []
      | some rnp_p => ancestors s fuel rnp_p)

/-- The `expmask` of node `p` in `s'` is its `expmask` in `s` with the `grpmask` of node `c`
cleared: `expmask & ~grpmask`, bit by bit over the 32 bits of an `unsigned long`. -/
def exp_cleared (s s' : State) (c p : Nat) : Prop :=
  (s'.node p).expmask = (s.node p).expmask &&& lnot (s.node c).grpmask ∧
  ∀ i, i < 32 →
    (s'.node p).expmask.testBit i =
      ((s.node p).expmask.testBit i && !(s.node c).grpmask.testBit i)

/-! ## `rcu_report_unblock_qs_rnp` together with its callee -/

/-- Modelled from the spec: `rcu_report_qs_rnp(mask, rsp, rnp, flags)`, which
`rcu_report_unblock_qs_rnp` calls and which is defined outside `rcutree_plugin.h`.  The caller
holds `rnp->lock` with interrupts disabled.  A contribution `mask` that is already clear in
`rnp->qsmask` is a no-op.  Otherwise the contribution is cleared; the walk stops if the node
still has outstanding bits in `qsmask` or blocked readers, declares the grace period complete
at the root, and else moves to the parent with the node's own `grpmask`.  One unit of fuel per
level. -/
def rcu_report_qs_rnp : Nat → State → Nat → Nat → Option State
  | 0, _, _, _ => none
  | fuel + 1, s, mask, rnp =>
    if (s.node rnp).qsmask &&& mask = 0 then some (spin_unlock_irqrestore s rnp)
    else
      let s := set_node s rnp (fun n => { n with qsmask := n.qsmask &&& lnot mask })
      if (s.node rnp).qsmask ≠ 0 ∨ rcu_preempted_readers s rnp = true then
        some (spin_unlock_irqrestore s rnp)
      else
        match (s.node rnp).parent with
        | none => some (log s [Event.rcu_report_qs_rsp])
        | some rnp_p =>
          let mask := (s.node rnp).grpmask
          let s := log s [Event.spin_unlock rnp]
          let s := log s [Event.spin_lock rnp_p]
          rcu_report_qs_rnp fuel s mask rnp_p

/-- Modelled from the spec: `report_unblock(node)`, that is `rcu_report_unblock_qs_rnp` of the
source followed, where its last action is the call of `rcu_report_qs_rnp`, by the modelled
callee, which is missing from the source. -/
def report_unblock (s : State) (rnp : Nat) : Option State :=
  let s := rcu_report_unblock_qs_rnp s rnp
  match s.trace.getLast? with
  | some (Event.rcu_report_qs_rnp mask rnp_p) => rcu_report_qs_rnp s.NUM_RCU_NODES s mask rnp_p
  | _ => some s

/-- The tree `tree4` while the root still waits for leaf 1, which itself waits for no CPU and
has no blocked reader. -/
def tree4_leaf_outstanding : State :=
  set_node tree4 0 (fun n => { n with qsmask := 1 })

/-! ## Theorems -/

/-! ### Bit and list facts -/

theorem list_empty_eq_false_iff (l : List Nat) : list_empty l = false ↔ l ≠ [] := by
  cases l <;> simp [list_empty]

theorem list_empty_eq_true_iff (l : List Nat) : list_empty l = true ↔ l = [] := by
  cases l <;> simp [list_empty]

theorem rcu_preempted_readers_eq_true_iff (s : State) (rnp : Nat) :
    rcu_preempted_readers s rnp = true ↔
      blocked s rnp ((s.node rnp).gpnum % 2).toNat ≠ [] ∨
      blocked s rnp (((s.node rnp).gpnum % 2).toNat + 2) ≠ [] := by
  simp [rcu_preempted_readers, list_empty_eq_false_iff]

/-! ### C1 -/

/-- C1: for every node whose `qsmask` is non-zero or whose current-phase blocked lists
(`blocked_tasks[gpnum & 1]`, `blocked_tasks[(gpnum & 1) + 2]`) are non-empty,
`rcu_report_unblock_qs_rnp` only releases the node's lock: the trace grows by the unlock alone
(no report to the parent, no completion) and every other part of the state is unchanged. -/
theorem rcu_report_unblock_qs_rnp_still_blocked (s : State) (rnp : Nat)
    (h : (s.node rnp).qsmask ≠ 0 ∨
      blocked s rnp ((s.node rnp).gpnum % 2).toNat ≠ [] ∨
      blocked s rnp (((s.node rnp).gpnum % 2).toNat + 2) ≠ []) :
    rcu_report_unblock_qs_rnp s rnp =
      { s with trace := s.trace ++ [Event.spin_unlock rnp, Event.local_irq_restore] } := by
  have h' : (s.node rnp).qsmask ≠ 0 ∨ rcu_preempted_readers s rnp = true := by
    rw [rcu_preempted_readers_eq_true_iff]; exact h
  simp only [rcu_report_unblock_qs_rnp, if_pos h', spin_unlock_irqrestore, log]

/-- C1 at leaf 1 of `tree4_waiting`, whose `qsmask` is 1. -/
theorem rcu_report_unblock_qs_rnp_still_blocked_witness :
    (tree4_waiting.node 1).qsmask ≠ 0 ∧
    rcu_report_unblock_qs_rnp tree4_waiting 1 =
      { tree4_waiting with
        trace := tree4_waiting.trace ++ [Event.spin_unlock 1, Event.local_irq_restore] } :=
  ⟨by decide, rcu_report_unblock_qs_rnp_still_blocked tree4_waiting 1 (Or.inl (by decide))⟩

/-! ### The flag bits -/

theorem lnot_need_qs_and_blocked : lnot RCU_READ_UNLOCK_NEED_QS &&& RCU_READ_UNLOCK_BLOCKED = 1 := by
  decide

theorem lnot_blocked_and_blocked : lnot RCU_READ_UNLOCK_BLOCKED &&& RCU_READ_UNLOCK_BLOCKED = 0 := by
  decide

theorem blocked_bit_set (x : Nat) :
    (x ||| RCU_READ_UNLOCK_BLOCKED) &&& RCU_READ_UNLOCK_BLOCKED ≠ 0 := by
  simp [RCU_READ_UNLOCK_BLOCKED]

theorem blocked_bit_clear_need_qs (x : Nat) :
    (x &&& lnot RCU_READ_UNLOCK_NEED_QS) &&& RCU_READ_UNLOCK_BLOCKED =
      x &&& RCU_READ_UNLOCK_BLOCKED := by
  rw [Nat.and_assoc, lnot_need_qs_and_blocked]; rfl

theorem blocked_bit_clear_blocked (x : Nat) :
    (x &&& lnot RCU_READ_UNLOCK_BLOCKED) &&& RCU_READ_UNLOCK_BLOCKED = 0 := by
  rw [Nat.and_assoc, lnot_blocked_and_blocked]; simp

/-! ### C2 -/

/-- The state after `rcu_preempt_note_context_switch` when the current task is in a read-side
critical section and not queued yet. -/
theorem rcu_preempt_note_context_switch_enqueue (s : State) (cpu : Nat)
    (hn : (s.task s.current).rcu_read_lock_nesting ≠ 0)
    (hb : ¬ is_blocked s s.current) :
    rcu_preempt_note_context_switch s cpu =
      { s with
        node := Function.update s.node (s.rda cpu).mynode
          { s.node (s.rda cpu).mynode with
            blocked_tasks := Function.update (s.node (s.rda cpu).mynode).blocked_tasks
              (switch_phase s cpu)
              (s.current :: (s.node (s.rda cpu).mynode).blocked_tasks (switch_phase s cpu)) }
        task := Function.update s.task s.current
          { s.task s.current with
            rcu_read_unlock_special :=
              ((s.task s.current).rcu_read_unlock_special ||| RCU_READ_UNLOCK_BLOCKED) &&&
                lnot RCU_READ_UNLOCK_NEED_QS
            rcu_blocked_node := some (s.rda cpu).mynode }
        rda := Function.update s.rda cpu
          { s.rda cpu with
            passed_quiesc_completed := wrap_long ((s.rda cpu).gpnum - 1)
            passed_quiesc := true }
        trace := s.trace ++
          [Event.local_irq_save, Event.spin_lock (s.rda cpu).mynode,
           Event.spin_unlock (s.rda cpu).mynode, Event.local_irq_restore,
           Event.local_irq_save, Event.local_irq_restore] } := by
  have hb' : (s.task s.current).rcu_read_unlock_special &&& RCU_READ_UNLOCK_BLOCKED = 0 := by
    simpa [is_blocked] using hb
  simp [rcu_preempt_note_context_switch, hn, hb', spin_lock_irqsave, spin_unlock_irqrestore,
    log, set_task, set_node, list_add, rcu_preempt_qs, switch_phase]

/-- After the hook has queued the current task, the task is marked blocked and refers to the
node of the CPU. -/
theorem rcu_preempt_note_context_switch_marks (s : State) (cpu : Nat)
    (hn : (s.task s.current).rcu_read_lock_nesting ≠ 0)
    (hb : ¬ is_blocked s s.current) :
    is_blocked (rcu_preempt_note_context_switch s cpu) s.current ∧
    ((rcu_preempt_note_context_switch s cpu).task s.current).rcu_blocked_node =
      some (s.rda cpu).mynode := by
  rw [rcu_preempt_note_context_switch_enqueue s cpu hn hb]
  constructor
  · simp only [is_blocked, Function.update_same]
    rw [blocked_bit_clear_need_qs]
    exact blocked_bit_set _
  · simp

/-- C2: for the current task with a non-zero nesting count and the BLOCKED flag clear,
`rcu_preempt_note_context_switch(cpu)` sets the flag, records the CPU's node `rdp->mynode`,
and puts the task at the front of that node's `blocked_tasks[phase]`,
`phase = (gpnum + b) & 1` with `b = 0` when the CPU's `grpmask` bit is still in `qsmask` and
`b = 1` otherwise; every other list is unchanged.  With `b = 0` this is the current-phase list
and `rcu_preempted_readers` holds afterwards, with `b = 1` it is the other, next-phase list. -/
theorem rcu_preempt_note_context_switch_queues (s : State) (cpu : Nat)
    (hn : (s.task s.current).rcu_read_lock_nesting ≠ 0)
    (hb : ¬ is_blocked s s.current) :
    is_blocked (rcu_preempt_note_context_switch s cpu) s.current ∧
    ((rcu_preempt_note_context_switch s cpu).task s.current).rcu_blocked_node =
      some (s.rda cpu).mynode ∧
    blocked (rcu_preempt_note_context_switch s cpu) (s.rda cpu).mynode
        (((s.node (s.rda cpu).mynode).gpnum +
          (if (s.node (s.rda cpu).mynode).qsmask &&& (s.rda cpu).grpmask ≠ 0 then 0 else 1)) % 2).toNat =
      s.current :: blocked s (s.rda cpu).mynode
        (((s.node (s.rda cpu).mynode).gpnum +
          (if (s.node (s.rda cpu).mynode).qsmask &&& (s.rda cpu).grpmask ≠ 0 then 0 else 1)) % 2).toNat ∧
    (∀ rnp i, ¬ (rnp = (s.rda cpu).mynode ∧
        i = (((s.node (s.rda cpu).mynode).gpnum +
          (if (s.node (s.rda cpu).mynode).qsmask &&& (s.rda cpu).grpmask ≠ 0 then 0 else 1)) % 2).toNat) →
      blocked (rcu_preempt_note_context_switch s cpu) rnp i = blocked s rnp i) ∧
    ((s.node (s.rda cpu).mynode).qsmask &&& (s.rda cpu).grpmask ≠ 0 →
      s.current ∈ blocked (rcu_preempt_note_context_switch s cpu) (s.rda cpu).mynode
        ((s.node (s.rda cpu).mynode).gpnum % 2).toNat ∧
      rcu_preempted_readers (rcu_preempt_note_context_switch s cpu) (s.rda cpu).mynode = true) ∧
    ((s.node (s.rda cpu).mynode).qsmask &&& (s.rda cpu).grpmask = 0 →
      s.current ∈ blocked (rcu_preempt_note_context_switch s cpu) (s.rda cpu).mynode
        (((s.node (s.rda cpu).mynode).gpnum + 1) % 2).toNat ∧
      (((s.node (s.rda cpu).mynode).gpnum + 1) % 2).toNat ≠
        ((s.node (s.rda cpu).mynode).gpnum % 2).toNat) := by
  rw [rcu_preempt_note_context_switch_enqueue s cpu hn hb]
  have hph : (((s.node (s.rda cpu).mynode).gpnum +
      (if (s.node (s.rda cpu).mynode).qsmask &&& (s.rda cpu).grpmask ≠ 0 then 0 else 1)) % 2).toNat =
      switch_phase s cpu := by
    unfold switch_phase
    by_cases h : (s.node (s.rda cpu).mynode).qsmask &&& (s.rda cpu).grpmask = 0 <;> simp [h]
  rw [hph]
  refine ⟨?_, ?_, ?_, ?_, ?_, ?_⟩
  · simp only [is_blocked, Function.update_same]
    rw [blocked_bit_clear_need_qs]
    exact blocked_bit_set _
  · simp
  · simp [blocked]
  · intro rnp i hne
    by_cases hr : rnp = (s.rda cpu).mynode
    · subst hr
      have hi : i ≠ switch_phase s cpu := fun h => hne ⟨rfl, h⟩
      simp [blocked, Function.update_noteq hi]
    · simp [blocked, Function.update_noteq hr]
  · intro h
    have hp : switch_phase s cpu = ((s.node (s.rda cpu).mynode).gpnum % 2).toNat := by
      simp [switch_phase, h]
    rw [← hp]
    constructor
    · simp [blocked]
    · simp [rcu_preempted_readers, blocked, ← hp, list_empty]
  · intro h
    have hp : switch_phase s cpu = (((s.node (s.rda cpu).mynode).gpnum + 1) % 2).toNat := by
      simp [switch_phase, h]
    rw [← hp]
    constructor
    · simp [blocked]
    · rw [hp]
      omega

/-- C2 on `tree4_waiting_reader`: CPU 0 has not reported, so task 0 lands on list 0 of leaf 1,
the list of the current phase. -/
theorem rcu_preempt_note_context_switch_queues_witness :
    (tree4_waiting_reader.task tree4_waiting_reader.current).rcu_read_lock_nesting ≠ 0 ∧
    ¬ is_blocked tree4_waiting_reader tree4_waiting_reader.current ∧
    is_blocked (rcu_preempt_note_context_switch tree4_waiting_reader 0) 0 ∧
    ((rcu_preempt_note_context_switch tree4_waiting_reader 0).task 0).rcu_blocked_node = some 1 ∧
    blocked (rcu_preempt_note_context_switch tree4_waiting_reader 0) 1 0 = [0] ∧
    rcu_preempted_readers (rcu_preempt_note_context_switch tree4_waiting_reader 0) 1 = true :=
  have h := rcu_preempt_note_context_switch_queues tree4_waiting_reader 0 (by decide)
    (by unfold is_blocked; decide)
  ⟨by decide, by unfold is_blocked; decide, h.1, h.2.1, h.2.2.1, (h.2.2.2.2.1 (by decide)).2⟩

/-! ### The expedited report leaves everything but `expmask` alone -/

theorem exp_only_refl (s : State) : exp_only s s :=
  ⟨rfl, fun _ => rfl, [], by simp, by simp⟩

theorem exp_only_trans {s₁ s₂ s₃ : State} (h₁ : exp_only s₁ s₂) (h₂ : exp_only s₂ s₃) :
    exp_only s₁ s₃ := by
  obtain ⟨e₁, n₁, es₁, t₁, r₁⟩ := h₁
  obtain ⟨e₂, n₂, es₂, t₂, r₂⟩ := h₂
  refine ⟨?_, ?_, es₁ ++ es₂, ?_, ?_⟩
  · rw [e₂, e₁]
  · intro n
    rw [n₂ n, n₁ n]
  · rw [t₂, t₁, List.append_assoc]
  · intro e he
    rcases List.mem_append.mp he with h | h
    · exact r₁ e h
    · exact r₂ e h

theorem exp_only_log (s : State) (es : List Event) (h : ∀ e ∈ es, is_qs_report e = false) :
    exp_only s (log s es) :=
  ⟨rfl, fun _ => rfl, es, rfl, h⟩

theorem exp_only_set_expmask (s : State) (rnp m : Nat) :
    exp_only s (set_node s rnp (fun n => { n with expmask := m })) := by
  refine ⟨rfl, ?_, [], by simp [set_node], by simp⟩
  intro n
  by_cases h : n = rnp
  · subst h; simp [set_node]
  · simp [set_node, Function.update_noteq h]

theorem rcu_report_exp_loop_exp_only :
    ∀ (fuel : Nat) (s : State) (rnp : Nat) (r : State × Nat),
      rcu_report_exp_loop fuel s rnp = some r → exp_only s r.1 := by
  intro fuel
  induction fuel with
  | zero => intro s rnp r h; simp [rcu_report_exp_loop] at h
  | succ fuel ih =>
    intro s rnp r h
    unfold rcu_report_exp_loop at h
    split at h
    · cases h; exact exp_only_refl s
    · split at h
      · cases h; exact exp_only_log s _ (by simp [is_qs_report])
      · rename_i rnp_p _
        refine exp_only_trans ?_ (ih _ _ _ h)
        refine exp_only_trans (exp_only_log s [Event.spin_unlock rnp] (by simp [is_qs_report])) ?_
        refine exp_only_trans (exp_only_log _ [Event.spin_lock rnp_p] (by simp [is_qs_report])) ?_
        exact exp_only_set_expmask _ _ _

theorem rcu_report_exp_rnp_exp_only (s s' : State) (rnp : Nat)
    (h : rcu_report_exp_rnp s rnp = some s') : exp_only s s' := by
  simp only [rcu_report_exp_rnp] at h
  split at h
  · cases h
  · rename_i s₂ rnp₂ hl
    cases h
    refine exp_only_trans (exp_only_log s [Event.local_irq_save, Event.spin_lock rnp]
      (by simp [is_qs_report])) ?_
    refine exp_only_trans (rcu_report_exp_loop_exp_only _ _ _ _ hl) ?_
    exact exp_only_log _ _ (by simp [is_qs_report])

/-! ### The expedited report returns on a tree -/

theorem reaches_root_congr (s s' : State) (h : ∀ n, (s'.node n).parent = (s.node n).parent) :
    ∀ (fuel rnp : Nat), reaches_root s' fuel rnp = reaches_root s fuel rnp := by
  intro fuel
  induction fuel with
  | zero => intro rnp; rfl
  | succ fuel ih =>
    intro rnp
    simp only [reaches_root, h rnp]
    cases (s.node rnp).parent with
    | none => rfl
    | some p => exact ih p

theorem exp_only_parent {s s' : State} (h : exp_only s s') (n : Nat) :
    (s'.node n).parent = (s.node n).parent := by
  rw [h.2.1 n]

theorem rcu_report_exp_loop_returns :
    ∀ (fuel : Nat) (s : State) (rnp : Nat), reaches_root s fuel rnp = true →
      ∃ r, rcu_report_exp_loop fuel s rnp = some r := by
  intro fuel
  induction fuel with
  | zero => intro s rnp h; simp [reaches_root] at h
  | succ fuel ih =>
    intro s rnp h
    unfold rcu_report_exp_loop
    split
    · exact ⟨_, rfl⟩
    · split
      · exact ⟨_, rfl⟩
      · rename_i rnp_p hp
        apply ih
        simp only [reaches_root, hp] at h
        rw [← h]
        apply reaches_root_congr
        intro n
        apply exp_only_parent
        refine exp_only_trans (exp_only_log s [Event.spin_unlock rnp] (by simp [is_qs_report])) ?_
        refine exp_only_trans (exp_only_log _ [Event.spin_lock rnp_p] (by simp [is_qs_report])) ?_
        exact exp_only_set_expmask _ _ _

theorem rcu_report_exp_rnp_returns (s : State) (rnp : Nat)
    (h : reaches_root s s.NUM_RCU_NODES rnp = true) :
    ∃ s', rcu_report_exp_rnp s rnp = some s' := by
  have h' : reaches_root (spin_lock_irqsave s rnp) s.NUM_RCU_NODES rnp = true := by
    rw [← h]; exact reaches_root_congr s (spin_lock_irqsave s rnp) (fun _ => rfl) _ _
  obtain ⟨r, hr⟩ := rcu_report_exp_loop_returns _ _ _ h'
  refine ⟨spin_unlock_irqrestore r.1 r.2, ?_⟩
  unfold rcu_report_exp_rnp
  simp only [spin_lock_irqsave, log] at hr ⊢
  rw [hr]

/-! ### `rcu_read_unlock_special` for a queued task -/

theorem rcu_preempted_readers_congr (s s' : State) (rnp : Nat)
    (h : (s'.node rnp).gpnum = (s.node rnp).gpnum)
    (hl : (s'.node rnp).blocked_tasks = (s.node rnp).blocked_tasks) :
    rcu_preempted_readers s' rnp = rcu_preempted_readers s rnp := by
  simp [rcu_preempted_readers, blocked, h, hl]

theorem rcu_preempted_readers_exp_congr (s s' : State) (rnp : Nat)
    (hl : (s'.node rnp).blocked_tasks = (s.node rnp).blocked_tasks) :
    rcu_preempted_readers_exp s' rnp = rcu_preempted_readers_exp s rnp := by
  simp [rcu_preempted_readers_exp, blocked, hl]

theorem rcu_read_unlock_special_blocked (s : State) (t rnp : Nat)
    (hnmi : s.in_nmi = false) (hirq : s.in_irq = false) (hb : is_blocked s t)
    (hr : (s.task t).rcu_blocked_node = some rnp) :
    rcu_read_unlock_special s t =
      if (!(!rcu_preempted_readers_exp s rnp) &&
          !rcu_preempted_readers_exp (unlock_reported s t rnp) rnp) = true then
        rcu_report_exp_rnp (unlock_reported s t rnp) rnp
      else some (unlock_reported s t rnp) := by
  have hb' : (s.task t).rcu_read_unlock_special &&& RCU_READ_UNLOCK_BLOCKED ≠ 0 := hb
  unfold rcu_read_unlock_special unlock_reported unlock_dequeued
  by_cases hq : (s.task t).rcu_read_unlock_special &&& RCU_READ_UNLOCK_NEED_QS = 0
  · simp [hnmi, hirq, hb', hq, hr, log, set_task, rcu_preempt_qs, rcu_preempted_readers,
      rcu_preempted_readers_exp, blocked]
  · simp [hnmi, hirq, hb', hq, hr, log, set_task, rcu_preempt_qs, rcu_preempted_readers,
      rcu_preempted_readers_exp, blocked]

theorem unlock_dequeued_trace (s : State) (t rnp : Nat) :
    (unlock_dequeued s t rnp).trace = s.trace ++ [Event.local_irq_save, Event.spin_lock rnp] := by
  unfold unlock_dequeued
  by_cases hq : (s.task t).rcu_read_unlock_special &&& RCU_READ_UNLOCK_NEED_QS = 0 <;>
    simp [hq, log, set_task, rcu_preempt_qs, list_del]

theorem unlock_dequeued_node (s : State) (t rnp n : Nat) :
    (unlock_dequeued s t rnp).node n =
      { s.node n with
        blocked_tasks := fun i => ((s.node n).blocked_tasks i).filter (fun x => x != t) } := by
  unfold unlock_dequeued
  by_cases hq : (s.task t).rcu_read_unlock_special &&& RCU_READ_UNLOCK_NEED_QS = 0 <;>
    simp [hq, log, set_task, rcu_preempt_qs, list_del]

theorem unlock_dequeued_blocked (s : State) (t rnp n i : Nat) :
    blocked (unlock_dequeued s t rnp) n i = (blocked s n i).filter (fun x => x != t) := by
  simp [blocked, unlock_dequeued_node]

theorem unlock_dequeued_task_other (s : State) (t rnp t' : Nat) (h : t' ≠ t) :
    (unlock_dequeued s t rnp).task t' = s.task t' := by
  unfold unlock_dequeued
  by_cases hq : (s.task t).rcu_read_unlock_special &&& RCU_READ_UNLOCK_NEED_QS = 0 <;>
    simp [hq, log, set_task, rcu_preempt_qs, list_del, Function.update_noteq h]

theorem unlock_dequeued_task_self (s : State) (t rnp : Nat) :
    ¬ is_blocked (unlock_dequeued s t rnp) t ∧
    ((unlock_dequeued s t rnp).task t).rcu_blocked_node = none ∧
    ((unlock_dequeued s t rnp).task t).rcu_read_lock_nesting =
      (s.task t).rcu_read_lock_nesting := by
  unfold unlock_dequeued is_blocked
  by_cases hq : (s.task t).rcu_read_unlock_special &&& RCU_READ_UNLOCK_NEED_QS = 0 <;>
    simp [hq, log, set_task, rcu_preempt_qs, list_del, blocked_bit_clear_blocked]

theorem unlock_reported_spec (s : State) (t rnp : Nat) :
    ∃ es, unlock_reported s t rnp =
        { unlock_dequeued s t rnp with trace := (unlock_dequeued s t rnp).trace ++ es } ∧
      ((rcu_preempted_readers s rnp = true ∧
          rcu_preempted_readers (unlock_dequeued s t rnp) rnp = false ∧
          (s.node rnp).qsmask = 0) →
        es = match (s.node rnp).parent with
          | none => [Event.rcu_report_qs_rsp]
          | some rnp_p => [Event.spin_unlock rnp, Event.spin_lock rnp_p,
              Event.rcu_report_qs_rnp (s.node rnp).grpmask rnp_p]) ∧
      (¬ (rcu_preempted_readers s rnp = true ∧
          rcu_preempted_readers (unlock_dequeued s t rnp) rnp = false ∧
          (s.node rnp).qsmask = 0) →
        es = [Event.spin_unlock rnp, Event.local_irq_restore]) := by
  have hq : ((unlock_dequeued s t rnp).node rnp).qsmask = (s.node rnp).qsmask := by
    rw [unlock_dequeued_node]
  have hg : ((unlock_dequeued s t rnp).node rnp).grpmask = (s.node rnp).grpmask := by
    rw [unlock_dequeued_node]
  have hp : ((unlock_dequeued s t rnp).node rnp).parent = (s.node rnp).parent := by
    rw [unlock_dequeued_node]
  unfold unlock_reported
  by_cases he : rcu_preempted_readers s rnp = true
  · simp only [he, Bool.not_true, Bool.false_eq_true, if_false]
    unfold rcu_report_unblock_qs_rnp
    by_cases hg' : ((unlock_dequeued s t rnp).node rnp).qsmask ≠ 0 ∨
        rcu_preempted_readers (unlock_dequeued s t rnp) rnp = true
    · rw [if_pos hg']
      refine ⟨_, rfl, ?_, fun _ => rfl⟩
      rintro ⟨-, h1, h2⟩
      rw [hq] at hg'
      rcases hg' with h | h
      · exact absurd h2 h
      · rw [h1] at h; cases h
    · rw [if_neg hg']
      rw [hp, hg]
      cases hpar : (s.node rnp).parent with
      | none =>
        refine ⟨[Event.rcu_report_qs_rsp], rfl, fun _ => rfl, ?_⟩
        intro hc
        exfalso
        apply hc
        rw [hq] at hg'
        refine ⟨trivial, ?_, ?_⟩
        · cases hx : rcu_preempted_readers (unlock_dequeued s t rnp) rnp
          · rfl
          · exact absurd (Or.inr hx) hg'
        · by_contra h0; exact hg' (Or.inl h0)
      | some rnp_p =>
        refine ⟨[Event.spin_unlock rnp, Event.spin_lock rnp_p,
          Event.rcu_report_qs_rnp (s.node rnp).grpmask rnp_p], ?_, fun _ => rfl, ?_⟩
        · simp [log]
        · intro hc
          exfalso
          apply hc
          rw [hq] at hg'
          refine ⟨trivial, ?_, ?_⟩
          · cases hx : rcu_preempted_readers (unlock_dequeued s t rnp) rnp
            · rfl
            · exact absurd (Or.inr hx) hg'
          · by_contra h0; exact hg' (Or.inl h0)
  · have he' : rcu_preempted_readers s rnp = false := by
      cases hx : rcu_preempted_readers s rnp
      · rfl
      · exact absurd hx he
    simp only [he', Bool.not_false, if_true]
    refine ⟨_, rfl, ?_, fun _ => rfl⟩
    rintro ⟨h, -, -⟩
    cases h

theorem exp_only_readers {s s' : State} (h : exp_only s s') (rnp : Nat) :
    rcu_preempted_readers s' rnp = rcu_preempted_readers s rnp := by
  apply rcu_preempted_readers_congr <;> rw [h.2.1 rnp]

/-- For a queued task outside NMI and hard-IRQ context, `rcu_read_unlock_special` returns a
state that differs from `unlock_reported` at most by an expedited report. -/
theorem rcu_read_unlock_special_returns (s : State) (t rnp : Nat)
    (hnmi : s.in_nmi = false) (hirq : s.in_irq = false) (hb : is_blocked s t)
    (hr : (s.task t).rcu_blocked_node = some rnp)
    (htree : reaches_root s s.NUM_RCU_NODES rnp = true) :
    ∃ s', rcu_read_unlock_special s t = some s' ∧ exp_only (unlock_reported s t rnp) s' := by
  rw [rcu_read_unlock_special_blocked s t rnp hnmi hirq hb hr]
  obtain ⟨eu, hu, -, -⟩ := unlock_reported_spec s t rnp
  split
  · have hN : (unlock_reported s t rnp).NUM_RCU_NODES = s.NUM_RCU_NODES := by
      rw [hu]; simp [unlock_dequeued]
      by_cases hq : (s.task t).rcu_read_unlock_special &&& RCU_READ_UNLOCK_NEED_QS = 0 <;>
        simp [hq, log, set_task, rcu_preempt_qs, list_del]
    have hreach : reaches_root (unlock_reported s t rnp)
        (unlock_reported s t rnp).NUM_RCU_NODES rnp = true := by
      rw [hN, ← htree]
      apply reaches_root_congr
      intro n
      rw [hu]
      simp [unlock_dequeued_node]
    obtain ⟨s', hs'⟩ := rcu_report_exp_rnp_returns _ _ hreach
    exact ⟨s', hs', rcu_report_exp_rnp_exp_only _ _ _ hs'⟩
  · exact ⟨_, rfl, exp_only_refl _⟩

/-! ### C3 -/

theorem any_is_qs_report_of_none (es : List Event) (h : ∀ e ∈ es, is_qs_report e = false) :
    es.any is_qs_report = false := by
  rw [List.any_eq_false]
  intro e he
  simp [h e he]

/-- C3 as stated fails on `tree4_blocked_next`: task 0 sits on the next-phase list of leaf 1.
After its removal the leaf has no blocked readers for the current grace period and `qsmask` is
zero, yet the events of the call are lock, unlock and interrupt handling only: nothing is
propagated. -/
theorem rcu_read_unlock_special_report_counterexample :
    (tree4_blocked_next.in_nmi, tree4_blocked_next.in_irq,
      (tree4_blocked_next.task 0).rcu_read_unlock_special &&& RCU_READ_UNLOCK_BLOCKED,
      (tree4_blocked_next.task 0).rcu_blocked_node) = (false, false, 1, some 1) ∧
    (rcu_read_unlock_special tree4_blocked_next 0).map
      (fun s' => (rcu_preempted_readers s' 1, (s'.node 1).qsmask,
        s'.trace.drop tree4_blocked_next.trace.length)) =
    some (false, 0, [Event.local_irq_save, Event.spin_lock 1, Event.spin_unlock 1,
      Event.local_irq_restore]) := by
  decide

/-- C3, amended: in `rcu_read_unlock_special` for a task marked blocked (outside NMI and
hard-IRQ context, on a tree), a normal quiescent-state report is among the events of the call
exactly when the node had blocked readers for the current grace period before the task was
removed and, after the removal, has none and its `qsmask` is zero.  The report then is
`rcu_report_qs_rsp` at the root and `rcu_report_qs_rnp(grpmask, parent)` elsewhere; in every
other case the call takes the node lock, releases it and propagates nothing. -/
theorem rcu_read_unlock_special_reports_qs (s : State) (t rnp : Nat)
    (hnmi : s.in_nmi = false) (hirq : s.in_irq = false) (hb : is_blocked s t)
    (hr : (s.task t).rcu_blocked_node = some rnp)
    (htree : reaches_root s s.NUM_RCU_NODES rnp = true) :
    ∃ s' es, rcu_read_unlock_special s t = some s' ∧ s'.trace = s.trace ++ es ∧
      (es.any is_qs_report = true ↔
        (rcu_preempted_readers s rnp = true ∧ rcu_preempted_readers s' rnp = false ∧
          (s'.node rnp).qsmask = 0)) ∧
      (es.any is_qs_report = true →
        (match (s.node rnp).parent with
          | none => Event.rcu_report_qs_rsp
          | some rnp_p => Event.rcu_report_qs_rnp (s.node rnp).grpmask rnp_p) ∈ es) ∧
      (es.any is_qs_report = false →
        ∃ es', es = [Event.local_irq_save, Event.spin_lock rnp, Event.spin_unlock rnp,
          Event.local_irq_restore] ++ es') := by
  obtain ⟨s', hs', hx⟩ := rcu_read_unlock_special_returns s t rnp hnmi hirq hb hr htree
  obtain ⟨eu, hu, hrep, hnrep⟩ := unlock_reported_spec s t rnp
  have hreaders : rcu_preempted_readers s' rnp =
      rcu_preempted_readers (unlock_dequeued s t rnp) rnp := by
    rw [exp_only_readers hx]
    apply rcu_preempted_readers_congr <;> rw [hu]
  have hqs : (s'.node rnp).qsmask = (s.node rnp).qsmask := by
    rw [hx.2.1 rnp, hu]
    simp [unlock_dequeued_node]
  obtain ⟨-, -, ex, htr, hno⟩ := hx
  have hex : ex.any is_qs_report = false := any_is_qs_report_of_none ex hno
  refine ⟨s', [Event.local_irq_save, Event.spin_lock rnp] ++ eu ++ ex, hs', ?_, ?_⟩
  · rw [htr, hu]
    simp [unlock_dequeued_trace]
  rw [hreaders, hqs]
  by_cases hc : rcu_preempted_readers s rnp = true ∧
      rcu_preempted_readers (unlock_dequeued s t rnp) rnp = false ∧ (s.node rnp).qsmask = 0
  · have heu := hrep hc
    have hany : ([Event.local_irq_save, Event.spin_lock rnp] ++ eu ++ ex).any is_qs_report
        = true := by
      rw [heu]
      cases (s.node rnp).parent <;> simp [is_qs_report]
    refine ⟨⟨fun _ => hc, fun _ => hany⟩, ?_, ?_⟩
    · intro _
      rw [heu]
      cases (s.node rnp).parent <;> simp
    · intro h
      rw [hany] at h
      cases h
  · have heu := hnrep hc
    have hany : ([Event.local_irq_save, Event.spin_lock rnp] ++ eu ++ ex).any is_qs_report
        = false := by
      rw [heu]
      simp [is_qs_report, hex]
    refine ⟨⟨?_, fun h => absurd h hc⟩, ?_, ?_⟩
    · intro h
      rw [hany] at h
      cases h
    · intro h
      rw [hany] at h
      cases h
    · intro _
      exact ⟨ex, by rw [heu]; simp⟩

/-- C3 (amended) on `tree4_blocked_cur`: task 0 is the last reader on the current-phase list
of leaf 1. -/
theorem rcu_read_unlock_special_reports_qs_witness :
    tree4_blocked_cur.in_nmi = false ∧ tree4_blocked_cur.in_irq = false ∧
    is_blocked tree4_blocked_cur 0 ∧
    (tree4_blocked_cur.task 0).rcu_blocked_node = some 1 ∧
    reaches_root tree4_blocked_cur tree4_blocked_cur.NUM_RCU_NODES 1 = true ∧
    ∃ s' es, rcu_read_unlock_special tree4_blocked_cur 0 = some s' ∧
      s'.trace = tree4_blocked_cur.trace ++ es ∧
      (es.any is_qs_report = true ↔
        (rcu_preempted_readers tree4_blocked_cur 1 = true ∧
          rcu_preempted_readers s' 1 = false ∧ (s'.node 1).qsmask = 0)) ∧
      (es.any is_qs_report = true →
        (match (tree4_blocked_cur.node 1).parent with
          | none => Event.rcu_report_qs_rsp
          | some rnp_p => Event.rcu_report_qs_rnp (tree4_blocked_cur.node 1).grpmask rnp_p) ∈ es) ∧
      (es.any is_qs_report = false →
        ∃ es', es = [Event.local_irq_save, Event.spin_lock 1, Event.spin_unlock 1,
          Event.local_irq_restore] ++ es') :=
  ⟨by decide, by decide, by unfold is_blocked; decide, by decide, by decide,
    rcu_read_unlock_special_reports_qs tree4_blocked_cur 0 1 (by decide) (by decide)
      (by unfold is_blocked; decide) (by decide) (by decide)⟩

/-! ### C4 -/

/-- C4: for a task marked blocked whose `rcu_blocked_node` is `rnp`, `rcu_read_unlock_special`
called outside NMI and hard-IRQ context (on a tree) returns; afterwards the task is on no
blocked list, its BLOCKED flag is clear and its blocked-node reference is null, while every
list holds its former entries other than the task, in their former order, and no other task
structure has changed. -/
theorem rcu_read_unlock_special_dequeues (s : State) (t rnp : Nat)
    (hnmi : s.in_nmi = false) (hirq : s.in_irq = false) (hb : is_blocked s t)
    (hr : (s.task t).rcu_blocked_node = some rnp)
    (htree : reaches_root s s.NUM_RCU_NODES rnp = true) :
    ∃ s', rcu_read_unlock_special s t = some s' ∧
      (∀ n i, t ∉ blocked s' n i) ∧
      ¬ is_blocked s' t ∧
      (s'.task t).rcu_blocked_node = none ∧
      (∀ n i, blocked s' n i = (blocked s n i).filter (fun x => x != t)) ∧
      (∀ t', t' ≠ t → s'.task t' = s.task t') := by
  obtain ⟨s', hs', hx⟩ := rcu_read_unlock_special_returns s t rnp hnmi hirq hb hr htree
  obtain ⟨eu, hu, -, -⟩ := unlock_reported_spec s t rnp
  have htask : s'.task = (unlock_dequeued s t rnp).task := by
    rw [hx.1, hu]
  have hlist : ∀ n i, blocked s' n i = (blocked s n i).filter (fun x => x != t) := by
    intro n i
    rw [← unlock_dequeued_blocked s t rnp n i]
    unfold blocked
    rw [hx.2.1 n, hu]
  obtain ⟨h1, h2, -⟩ := unlock_dequeued_task_self s t rnp
  refine ⟨s', hs', ?_, ?_, ?_, hlist, ?_⟩
  · intro n i
    rw [hlist n i]
    simp
  · unfold is_blocked at h1 ⊢
    rw [htask]
    exact h1
  · rw [htask]
    exact h2
  · intro t' ht'
    rw [htask]
    exact unlock_dequeued_task_other s t rnp t' ht'

/-- C4 on `tree4_blocked_cur`, where task 0 is queued on list 0 of leaf 1. -/
theorem rcu_read_unlock_special_dequeues_witness :
    tree4_blocked_cur.in_nmi = false ∧ tree4_blocked_cur.in_irq = false ∧
    is_blocked tree4_blocked_cur 0 ∧
    (tree4_blocked_cur.task 0).rcu_blocked_node = some 1 ∧
    blocked tree4_blocked_cur 1 0 = [0] ∧
    reaches_root tree4_blocked_cur tree4_blocked_cur.NUM_RCU_NODES 1 = true ∧
    ∃ s', rcu_read_unlock_special tree4_blocked_cur 0 = some s' ∧
      (∀ n i, 0 ∉ blocked s' n i) ∧
      ¬ is_blocked s' 0 ∧
      (s'.task 0).rcu_blocked_node = none ∧
      (∀ n i, blocked s' n i = (blocked tree4_blocked_cur n i).filter (fun x => x != 0)) ∧
      (∀ t', t' ≠ 0 → s'.task t' = tree4_blocked_cur.task t') :=
  ⟨by decide, by decide, by unfold is_blocked; decide, by decide, by decide, by decide,
    rcu_read_unlock_special_dequeues tree4_blocked_cur 0 1 (by decide) (by decide)
      (by unfold is_blocked; decide) (by decide) (by decide)⟩

/-! ### Well-formed states, by counting -/

theorem well_formed_iff_total (s : State) :
    well_formed s ↔ ∀ t,
      (¬ is_blocked s t ∧ (s.task t).rcu_blocked_node = none ∧ ∀ n, total_count s t n = 0) ∨
      (∃ n, is_blocked s t ∧ (s.task t).rcu_blocked_node = some n ∧ total_count s t n = 1 ∧
        ∀ n', n' ≠ n → total_count s t n' = 0) := by
  unfold well_formed
  apply forall_congr'
  intro t
  apply or_congr
  · apply and_congr_right; intro _
    apply and_congr_right; intro _
    constructor
    · intro h n
      have h0 := h n 0 (by omega)
      have h1 := h n 1 (by omega)
      have h2 := h n 2 (by omega)
      have h3 := h n 3 (by omega)
      unfold total_count
      omega
    · intro h rnp i hi
      have := h rnp
      unfold total_count at this
      interval_cases i <;> omega
  · constructor
    · rintro ⟨rnp, i, hi, hb, hr, hc, hz⟩
      refine ⟨rnp, hb, hr, ?_, ?_⟩
      · unfold total_count
        interval_cases i
        · have h1 := hz rnp 1 (by omega) (Or.inr (by omega))
          have h2 := hz rnp 2 (by omega) (Or.inr (by omega))
          have h3 := hz rnp 3 (by omega) (Or.inr (by omega))
          omega
        · have h1 := hz rnp 0 (by omega) (Or.inr (by omega))
          have h2 := hz rnp 2 (by omega) (Or.inr (by omega))
          have h3 := hz rnp 3 (by omega) (Or.inr (by omega))
          omega
        · have h1 := hz rnp 0 (by omega) (Or.inr (by omega))
          have h2 := hz rnp 1 (by omega) (Or.inr (by omega))
          have h3 := hz rnp 3 (by omega) (Or.inr (by omega))
          omega
        · have h1 := hz rnp 0 (by omega) (Or.inr (by omega))
          have h2 := hz rnp 1 (by omega) (Or.inr (by omega))
          have h3 := hz rnp 2 (by omega) (Or.inr (by omega))
          omega
      · intro n' hn'
        have h0 := hz n' 0 (by omega) (Or.inl hn')
        have h1 := hz n' 1 (by omega) (Or.inl hn')
        have h2 := hz n' 2 (by omega) (Or.inl hn')
        have h3 := hz n' 3 (by omega) (Or.inl hn')
        unfold total_count
        omega
    · rintro ⟨n, hb, hr, hc, hz⟩
      unfold total_count at hc
      have key : ∃ i, i < 4 ∧ (blocked s n i).count t = 1 ∧
          ∀ i', i' < 4 → i' ≠ i → (blocked s n i').count t = 0 := by
        by_cases c0 : (blocked s n 0).count t = 1
        · exact ⟨0, by omega, c0, fun i' hi' hne => by interval_cases i' <;> omega⟩
        by_cases c1 : (blocked s n 1).count t = 1
        · exact ⟨1, by omega, c1, fun i' hi' hne => by interval_cases i' <;> omega⟩
        by_cases c2 : (blocked s n 2).count t = 1
        · exact ⟨2, by omega, c2, fun i' hi' hne => by interval_cases i' <;> omega⟩
        · exact ⟨3, by omega, by omega, fun i' hi' hne => by interval_cases i' <;> omega⟩
      obtain ⟨i, hi, hci, hzi⟩ := key
      refine ⟨n, i, hi, hb, hr, hci, ?_⟩
      intro rnp' i' hi' hne
      by_cases hn : rnp' = n
      · subst hn
        rcases hne with h | h
        · exact absurd rfl h
        · exact hzi i' hi' h
      · have := hz rnp' hn
        unfold total_count at this
        interval_cases i' <;> omega

theorem total_count_congr (s s' : State) (t n : Nat)
    (h : (s'.node n).blocked_tasks = (s.node n).blocked_tasks) :
    total_count s' t n = total_count s t n := by
  simp [total_count, blocked, h]

theorem total_count_list_add (s : State) (t₀ n₀ i t n : Nat) (hi : i < 4) :
    total_count (list_add s t₀ n₀ i) t n =
      total_count s t n + (if t = t₀ ∧ n = n₀ then 1 else 0) := by
  by_cases hn : n = n₀
  · subst hn
    by_cases ht : t = t₀
    · subst ht
      interval_cases i <;>
        (simp [total_count, blocked, list_add, set_node, Function.update]; try omega)
    · have ht' : ¬ t₀ = t := fun h => ht h.symm
      interval_cases i <;>
        simp [total_count, blocked, list_add, set_node, Function.update, List.count_cons, ht, ht']
  · simp [total_count, blocked, list_add, set_node, Function.update_noteq hn, hn]

theorem count_filter_ne (l : List Nat) (t₀ t : Nat) :
    (l.filter (fun x => x != t₀)).count t = if t = t₀ then 0 else l.count t := by
  by_cases ht : t = t₀
  · subst ht
    simp [List.count_eq_zero]
  · simp only [if_neg ht]
    apply List.count_filter
    simpa using ht

theorem total_count_list_del (s : State) (t₀ t n : Nat) :
    total_count (list_del s t₀) t n = if t = t₀ then 0 else total_count s t n := by
  simp only [total_count, blocked, list_del, count_filter_ne]
  split <;> rfl

theorem total_count_list_splice_init (s : State) (rnp i j t n : Nat)
    (hi : i < 4) (hj : j < 4) (hij : i ≠ j) :
    total_count (list_splice_init s rnp i j) t n = total_count s t n := by
  by_cases hn : n = rnp
  · subst hn
    interval_cases i <;> interval_cases j <;>
      first
      | exact absurd rfl hij
      | (simp [total_count, blocked, list_splice_init, set_node, Function.update]; done)
      | (simp [total_count, blocked, list_splice_init, set_node, Function.update]; omega)
  · simp [total_count, blocked, list_splice_init, set_node, Function.update_noteq hn]

/-- Only the task `t₀` changed, and it ended up consistent. -/
theorem well_formed_update (s s' : State) (t₀ : Nat) (h : well_formed s)
    (hflag : ∀ t, t ≠ t₀ → (is_blocked s' t ↔ is_blocked s t))
    (href : ∀ t, t ≠ t₀ → (s'.task t).rcu_blocked_node = (s.task t).rcu_blocked_node)
    (hcnt : ∀ t, t ≠ t₀ → ∀ n, total_count s' t n = total_count s t n)
    (hself : (¬ is_blocked s' t₀ ∧ (s'.task t₀).rcu_blocked_node = none ∧
        ∀ n, total_count s' t₀ n = 0) ∨
      (∃ n, is_blocked s' t₀ ∧ (s'.task t₀).rcu_blocked_node = some n ∧
        total_count s' t₀ n = 1 ∧ ∀ n', n' ≠ n → total_count s' t₀ n' = 0)) :
    well_formed s' := by
  rw [well_formed_iff_total] at h ⊢
  intro t
  by_cases ht : t = t₀
  · subst ht; exact hself
  · have := h t
    rw [hflag t ht, href t ht]
    simp only [hcnt t ht]
    exact this

/-- Nothing the invariant looks at changed. -/
theorem well_formed_of_same (s s' : State) (h : well_formed s)
    (hflag : ∀ t, is_blocked s' t ↔ is_blocked s t)
    (href : ∀ t, (s'.task t).rcu_blocked_node = (s.task t).rcu_blocked_node)
    (hcnt : ∀ t n, total_count s' t n = total_count s t n) :
    well_formed s' := by
  rw [well_formed_iff_total] at h ⊢
  intro t
  have := h t
  rw [hflag t, href t]
  simp only [hcnt t]
  exact this

/-! ### C5: the four operations keep states well-formed -/

theorem rcu_preempt_note_context_switch_skip (s : State) (cpu : Nat)
    (h : ¬ ((s.task s.current).rcu_read_lock_nesting ≠ 0 ∧ ¬ is_blocked s s.current)) :
    rcu_preempt_note_context_switch s cpu =
      { s with
        task := Function.update s.task s.current
          { s.task s.current with
            rcu_read_unlock_special :=
              (s.task s.current).rcu_read_unlock_special &&& lnot RCU_READ_UNLOCK_NEED_QS }
        rda := Function.update s.rda cpu
          { s.rda cpu with
            passed_quiesc_completed := wrap_long ((s.rda cpu).gpnum - 1)
            passed_quiesc := true }
        trace := s.trace ++ [Event.local_irq_save, Event.local_irq_restore] } := by
  have h' : ¬ ((s.task s.current).rcu_read_lock_nesting ≠ 0 ∧
      (s.task s.current).rcu_read_unlock_special &&& RCU_READ_UNLOCK_BLOCKED = 0) := by
    simpa [is_blocked] using h
  simp only [rcu_preempt_note_context_switch, if_neg h']
  simp [log, set_task, rcu_preempt_qs]

theorem switch_phase_lt (s : State) (cpu : Nat) : switch_phase s cpu < 2 := by
  unfold switch_phase
  simp only
  omega

theorem well_formed_idle {s : State} (h : well_formed s) {t : Nat} (hb : ¬ is_blocked s t) :
    ∀ n, total_count s t n = 0 := by
  rw [well_formed_iff_total] at h
  rcases h t with ⟨-, -, hz⟩ | ⟨n, hb', -⟩
  · exact hz
  · exact absurd hb' hb

theorem well_formed_queued {s : State} (h : well_formed s) {t n : Nat}
    (hq : total_count s t n ≠ 0) :
    is_blocked s t ∧ (s.task t).rcu_blocked_node = some n ∧ total_count s t n = 1 ∧
      ∀ n', n' ≠ n → total_count s t n' = 0 := by
  rw [well_formed_iff_total] at h
  rcases h t with ⟨-, -, hz⟩ | ⟨m, hb, hr, h1, hz⟩
  · exact absurd (hz n) hq
  · by_cases hm : n = m
    · subst hm; exact ⟨hb, hr, h1, hz⟩
    · exact absurd (hz n hm) hq

theorem well_formed_blocked {s : State} (h : well_formed s) {t : Nat} (hb : is_blocked s t) :
    ∃ n, (s.task t).rcu_blocked_node = some n := by
  rcases h t with ⟨hb', -, -⟩ | ⟨n, i, -, -, hr, -, -⟩
  · exact absurd hb hb'
  · exact ⟨n, hr⟩

theorem well_formed_note_context_switch (s : State) (cpu : Nat) (h : well_formed s) :
    well_formed (rcu_preempt_note_context_switch s cpu) := by
  by_cases hc : (s.task s.current).rcu_read_lock_nesting ≠ 0 ∧ ¬ is_blocked s s.current
  · obtain ⟨hn, hb⟩ := hc
    have hcnt : ∀ t n, total_count (rcu_preempt_note_context_switch s cpu) t n =
        total_count s t n + (if t = s.current ∧ n = (s.rda cpu).mynode then 1 else 0) := by
      intro t n
      rw [← total_count_list_add s s.current (s.rda cpu).mynode (switch_phase s cpu) t n
        (by have := switch_phase_lt s cpu; omega)]
      apply total_count_congr
      rw [rcu_preempt_note_context_switch_enqueue s cpu hn hb]
      simp [list_add, set_node]
    have hq := rcu_preempt_note_context_switch_marks s cpu hn hb
    have hz := well_formed_idle h hb
    apply well_formed_update s _ s.current h
    · intro t ht
      unfold is_blocked
      rw [rcu_preempt_note_context_switch_enqueue s cpu hn hb]
      simp [Function.update_noteq ht]
    · intro t ht
      rw [rcu_preempt_note_context_switch_enqueue s cpu hn hb]
      simp [Function.update_noteq ht]
    · intro t ht n
      rw [hcnt]
      simp [ht]
    · right
      refine ⟨(s.rda cpu).mynode, hq.1, hq.2, ?_, ?_⟩
      · rw [hcnt, hz]; simp
      · intro n' hn'
        rw [hcnt, hz]; simp [hn']
  · rw [rcu_preempt_note_context_switch_skip s cpu hc]
    apply well_formed_of_same s _ h
    · intro t
      unfold is_blocked
      by_cases ht : t = s.current
      · subst ht; simp [blocked_bit_clear_need_qs]
      · simp [Function.update_noteq ht]
    · intro t
      by_cases ht : t = s.current
      · subst ht; simp
      · simp [Function.update_noteq ht]
    · intro t n
      exact total_count_congr _ _ _ _ rfl

theorem exp_only_task {s s' : State} (h : exp_only s s') : s'.task = s.task := by
  rw [h.1]

theorem well_formed_exp_only {s s' : State} (h : exp_only s s') (hw : well_formed s) :
    well_formed s' := by
  apply well_formed_of_same s s' hw
  · intro t; unfold is_blocked; rw [exp_only_task h]
  · intro t; rw [exp_only_task h]
  · intro t n
    apply total_count_congr
    rw [h.2.1 n]

theorem rcu_read_unlock_special_nmi (s : State) (t : Nat) (h : s.in_nmi = true) :
    rcu_read_unlock_special s t = some s := by
  simp [rcu_read_unlock_special, h]

theorem rcu_read_unlock_special_plain (s : State) (t : Nat) (hnmi : s.in_nmi = false)
    (h : s.in_irq = true ∨ ¬ is_blocked s t) :
    rcu_read_unlock_special s t = some (log (unlock_need_qs s t) [Event.local_irq_restore]) := by
  unfold rcu_read_unlock_special unlock_need_qs
  rcases h with h | h
  · by_cases hq : (s.task t).rcu_read_unlock_special &&& RCU_READ_UNLOCK_NEED_QS = 0 <;>
      simp [hnmi, h, hq, log, set_task, rcu_preempt_qs]
  · have h' : (s.task t).rcu_read_unlock_special &&& RCU_READ_UNLOCK_BLOCKED = 0 := by
      simpa [is_blocked] using h
    by_cases hq : (s.task t).rcu_read_unlock_special &&& RCU_READ_UNLOCK_NEED_QS = 0 <;>
      by_cases hi : s.in_irq = true <;>
      simp [hnmi, h', hi, hq, log, set_task, rcu_preempt_qs]

theorem well_formed_unlock_need_qs (s : State) (t : Nat) (h : well_formed s) :
    well_formed (log (unlock_need_qs s t) [Event.local_irq_restore]) := by
  apply well_formed_of_same s _ h
  · intro t'
    unfold is_blocked unlock_need_qs
    by_cases hq : (s.task t).rcu_read_unlock_special &&& RCU_READ_UNLOCK_NEED_QS = 0
    · simp [hq, log]
    · by_cases ht : t' = t
      · subst ht
        simp [hq, log, set_task, rcu_preempt_qs, blocked_bit_clear_need_qs]
      · simp [hq, log, set_task, rcu_preempt_qs, Function.update_noteq ht]
  · intro t'
    unfold unlock_need_qs
    by_cases hq : (s.task t).rcu_read_unlock_special &&& RCU_READ_UNLOCK_NEED_QS = 0
    · simp [hq, log]
    · by_cases ht : t' = t
      · subst ht
        simp [hq, log, set_task, rcu_preempt_qs]
      · simp [hq, log, set_task, rcu_preempt_qs, Function.update_noteq ht]
  · intro t' n
    apply total_count_congr
    unfold unlock_need_qs
    by_cases hq : (s.task t).rcu_read_unlock_special &&& RCU_READ_UNLOCK_NEED_QS = 0 <;>
      simp [hq, log, set_task, rcu_preempt_qs]

theorem well_formed_unlock_dequeued (s : State) (t rnp : Nat) (h : well_formed s) :
    well_formed (unlock_dequeued s t rnp) := by
  have hcnt : ∀ t' n, total_count (unlock_dequeued s t rnp) t' n =
      if t' = t then 0 else total_count s t' n := by
    intro t' n
    rw [← total_count_list_del]
    apply total_count_congr
    rw [unlock_dequeued_node]
    simp [list_del]
  obtain ⟨h1, h2, -⟩ := unlock_dequeued_task_self s t rnp
  apply well_formed_update s _ t h
  · intro t' ht'
    unfold is_blocked
    rw [unlock_dequeued_task_other s t rnp t' ht']
  · intro t' ht'
    rw [unlock_dequeued_task_other s t rnp t' ht']
  · intro t' ht' n
    rw [hcnt]; simp [ht']
  · left
    exact ⟨h1, h2, fun n => by rw [hcnt]; simp⟩

theorem well_formed_read_unlock_special (s : State) (t : Nat) (s' : State)
    (h : well_formed s) (hs : rcu_read_unlock_special s t = some s') : well_formed s' := by
  by_cases hnmi : s.in_nmi = true
  · rw [rcu_read_unlock_special_nmi s t hnmi] at hs
    cases hs; exact h
  · have hnmi' : s.in_nmi = false := by simpa using hnmi
    by_cases hp : s.in_irq = true ∨ ¬ is_blocked s t
    · rw [rcu_read_unlock_special_plain s t hnmi' hp] at hs
      cases hs
      exact well_formed_unlock_need_qs s t h
    · have hirq : s.in_irq = false := by
        cases hx : s.in_irq
        · rfl
        · exact absurd (Or.inl hx) hp
      have hb : is_blocked s t := by
        by_contra hb; exact hp (Or.inr hb)
      obtain ⟨rnp, hr⟩ := well_formed_blocked h hb
      rw [rcu_read_unlock_special_blocked s t rnp hnmi' hirq hb hr] at hs
      obtain ⟨eu, hu, -, -⟩ := unlock_reported_spec s t rnp
      have hwu : well_formed (unlock_reported s t rnp) := by
        apply well_formed_of_same _ _ (well_formed_unlock_dequeued s t rnp h)
        · intro t'; unfold is_blocked; rw [hu]
        · intro t'; rw [hu]
        · intro t' n; apply total_count_congr; rw [hu]
      split at hs
      · exact well_formed_exp_only (rcu_report_exp_rnp_exp_only _ _ _ hs) hwu
      · cases hs; exact hwu

theorem rcu_read_unlock_special_total (s : State) (t : Nat) (h : well_formed s)
    (htree : ∀ rnp, reaches_root s s.NUM_RCU_NODES rnp = true) :
    ∃ s', rcu_read_unlock_special s t = some s' := by
  by_cases hnmi : s.in_nmi = true
  · exact ⟨_, rcu_read_unlock_special_nmi s t hnmi⟩
  · have hnmi' : s.in_nmi = false := by simpa using hnmi
    by_cases hp : s.in_irq = true ∨ ¬ is_blocked s t
    · exact ⟨_, rcu_read_unlock_special_plain s t hnmi' hp⟩
    · have hirq : s.in_irq = false := by
        cases hx : s.in_irq
        · rfl
        · exact absurd (Or.inl hx) hp
      have hb : is_blocked s t := by
        by_contra hb; exact hp (Or.inr hb)
      obtain ⟨rnp, hr⟩ := well_formed_blocked h hb
      obtain ⟨s', hs', -⟩ :=
        rcu_read_unlock_special_returns s t rnp hnmi' hirq hb hr (htree rnp)
      exact ⟨s', hs'⟩

theorem sync_rcu_preempt_exp_init_eq (s : State) (rnp : Nat) :
    sync_rcu_preempt_exp_init s rnp =
      if (!rcu_preempted_readers_exp (exp_init_spliced s rnp) rnp) = true then
        rcu_report_exp_rnp (exp_init_spliced s rnp) rnp
      else some (exp_init_spliced s rnp) := by
  simp [sync_rcu_preempt_exp_init, exp_init_spliced, rcu_preempted_readers_exp, blocked, log]

theorem total_count_exp_init_spliced (s : State) (rnp t n : Nat) :
    total_count (exp_init_spliced s rnp) t n = total_count s t n := by
  show total_count
    (list_splice_init (list_splice_init (log s [Event.spin_lock rnp]) rnp 0 2) rnp 1 3) t n = _
  rw [total_count_list_splice_init _ rnp 1 3 t n (by omega) (by omega) (by omega),
    total_count_list_splice_init _ rnp 0 2 t n (by omega) (by omega) (by omega)]
  rfl

theorem well_formed_exp_init_spliced (s : State) (rnp : Nat) (h : well_formed s) :
    well_formed (exp_init_spliced s rnp) := by
  apply well_formed_of_same s _ h
  · intro t; rfl
  · intro t; rfl
  · intro t n; exact total_count_exp_init_spliced s rnp t n

theorem well_formed_sync_rcu_preempt_exp_init (s : State) (rnp : Nat) (s' : State)
    (h : well_formed s) (hs : sync_rcu_preempt_exp_init s rnp = some s') : well_formed s' := by
  rw [sync_rcu_preempt_exp_init_eq] at hs
  split at hs
  · exact well_formed_exp_only (rcu_report_exp_rnp_exp_only _ _ _ hs)
      (well_formed_exp_init_spliced s rnp h)
  · cases hs
    exact well_formed_exp_init_spliced s rnp h

theorem exp_init_spliced_parent (s : State) (rnp n : Nat) :
    ((exp_init_spliced s rnp).node n).parent = (s.node n).parent := by
  by_cases hn : n = rnp
  · subst hn
    simp [exp_init_spliced, list_splice_init, set_node, log]
  · simp [exp_init_spliced, list_splice_init, set_node, log, Function.update_noteq hn]

theorem sync_rcu_preempt_exp_init_total (s : State) (rnp : Nat)
    (htree : reaches_root s s.NUM_RCU_NODES rnp = true) :
    ∃ s', sync_rcu_preempt_exp_init s rnp = some s' := by
  rw [sync_rcu_preempt_exp_init_eq]
  split
  · apply rcu_report_exp_rnp_returns
    have hN : (exp_init_spliced s rnp).NUM_RCU_NODES = s.NUM_RCU_NODES := rfl
    rw [hN, ← htree]
    exact reaches_root_congr _ _ (exp_init_spliced_parent s rnp) _ _
  · exact ⟨_, rfl⟩

/-! ### Moving one task to the root -/

theorem offline_move_one_blocked (s : State) (tp i n j : Nat) :
    blocked (offline_move_one s tp i) n j =
      if n = 0 ∧ j = i then tp :: (blocked s 0 i).filter (fun x => x != tp)
      else (blocked s n j).filter (fun x => x != tp) := by
  by_cases hn : n = 0
  · subst hn
    by_cases hj : j = i
    · subst hj
      simp [offline_move_one, blocked, rcu_get_root, log, list_add, set_node, set_task, list_del]
    · simp [offline_move_one, blocked, rcu_get_root, log, list_add, set_node, set_task, list_del,
        Function.update_noteq hj, hj]
  · simp [offline_move_one, blocked, rcu_get_root, log, list_add, set_node, set_task, list_del,
      Function.update_noteq hn, hn]

theorem offline_move_one_task (s : State) (tp i t : Nat) :
    (offline_move_one s tp i).task t =
      if t = tp then { s.task tp with rcu_blocked_node := some 0 } else s.task t := by
  by_cases ht : t = tp
  · subst ht
    simp [offline_move_one, rcu_get_root, log, list_add, set_node, set_task, list_del]
  · simp [offline_move_one, rcu_get_root, log, list_add, set_node, set_task, list_del,
      Function.update_noteq ht, ht]

theorem offline_move_one_total (s : State) (tp i t n : Nat) (hi : i < 4) :
    total_count (offline_move_one s tp i) t n =
      (if t = tp then 0 else total_count s t n) + (if t = tp ∧ n = 0 then 1 else 0) := by
  rw [← total_count_list_del, ← total_count_list_add (list_del s tp) tp 0 i t n hi]
  apply total_count_congr
  simp [offline_move_one, rcu_get_root, log, list_add, set_node, set_task, list_del]

theorem offline_move_one_parent (s : State) (tp i n : Nat) :
    ((offline_move_one s tp i).node n).parent = (s.node n).parent := by
  by_cases hn : n = 0
  · subst hn
    simp [offline_move_one, rcu_get_root, log, list_add, set_node, set_task, list_del]
  · simp [offline_move_one, rcu_get_root, log, list_add, set_node, set_task, list_del,
      Function.update_noteq hn]

theorem total_count_ne_zero_of_mem (s : State) (t n i : Nat) (hi : i < 4)
    (h : t ∈ blocked s n i) : total_count s t n ≠ 0 := by
  have : 0 < (blocked s n i).count t := List.count_pos_iff.mpr h
  unfold total_count
  interval_cases i <;> omega

theorem well_formed_offline_move_one (s : State) (tp i rnp : Nat) (hi : i < 4)
    (hq : tp ∈ blocked s rnp i) (h : well_formed s) :
    well_formed (offline_move_one s tp i) := by
  obtain ⟨hb, -, -, -⟩ := well_formed_queued h (total_count_ne_zero_of_mem s tp rnp i hi hq)
  apply well_formed_update s _ tp h
  · intro t ht
    unfold is_blocked
    rw [offline_move_one_task]; simp [ht]
  · intro t ht
    rw [offline_move_one_task]; simp [ht]
  · intro t ht n
    rw [offline_move_one_total s tp i t n hi]; simp [ht]
  · right
    refine ⟨0, ?_, ?_, ?_, ?_⟩
    · unfold is_blocked at hb ⊢
      rw [offline_move_one_task]; simpa using hb
    · rw [offline_move_one_task]; simp
    · rw [offline_move_one_total s tp i tp 0 hi]; simp
    · intro n' hn'
      rw [offline_move_one_total s tp i tp n' hi]; simp [hn']

theorem entries_unique_of_well_formed {s : State} (h : well_formed s) : entries_unique s := by
  rw [well_formed_iff_total] at h
  intro t
  rcases h t with ⟨-, -, hz⟩ | ⟨n, -, -, h1, hz⟩
  · exact Or.inl hz
  · exact Or.inr ⟨n, h1, hz⟩

theorem entries_unique_offline_move_one (s : State) (tp i : Nat) (hi : i < 4)
    (h : entries_unique s) : entries_unique (offline_move_one s tp i) := by
  intro t
  by_cases ht : t = tp
  · subst ht
    right
    refine ⟨0, ?_, ?_⟩
    · rw [offline_move_one_total s t i t 0 hi]; simp
    · intro n' hn'
      rw [offline_move_one_total s t i t n' hi]; simp [hn']
  · have := h t
    simp only [offline_move_one_total s tp i t _ hi, if_neg ht, ht, false_and, if_false,
      Nat.add_zero]
    exact this

/-- With unique entries, a task found on list `i` of node `n` is there once and nowhere
else. -/
theorem entries_unique_mem {s : State} (h : entries_unique s) {t n i : Nat} (hi : i < 4)
    (hm : t ∈ blocked s n i) :
    (blocked s n i).count t = 1 ∧
      ∀ n' j, j < 4 → ¬ (n' = n ∧ j = i) → t ∉ blocked s n' j := by
  have hpos : 0 < (blocked s n i).count t := List.count_pos_iff.mpr hm
  have hne := total_count_ne_zero_of_mem s t n i hi hm
  rcases h t with hz | ⟨m, h1, hz⟩
  · exact absurd (hz n) hne
  · have hmn : n = m := by
      by_contra hc; exact hne (hz n hc)
    subst hmn
    constructor
    · unfold total_count at h1
      interval_cases i <;> omega
    · intro n' j hj hnj
      rw [← List.count_eq_zero]
      by_cases hn' : n' = n
      · subst hn'
        have hji : j ≠ i := fun hc => hnj ⟨rfl, hc⟩
        unfold total_count at h1
        interval_cases i <;> interval_cases j <;> first | exact absurd rfl hji | omega
      · have := hz n' hn'
        unfold total_count at this
        interval_cases j <;> omega

/-! ### The `while` loop of `rcu_preempt_offline_tasks` -/

theorem filter_ne_of_not_mem (l : List Nat) (t : Nat) (h : t ∉ l) :
    l.filter (fun x => x != t) = l := by
  rw [List.filter_eq_self]
  intro a ha
  have : a ≠ t := fun hc => h (hc ▸ ha)
  simpa using this

theorem offline_while_nil (fuel : Nat) (s : State) (rnp i : Nat) (h : blocked s rnp i = []) :
    offline_while (fuel + 1) s rnp i = some s := by
  simp only [offline_while, h]

theorem offline_while_cons (fuel : Nat) (s : State) (rnp i tp : Nat) (rest : List Nat)
    (h : blocked s rnp i = tp :: rest) :
    offline_while (fuel + 1) s rnp i = offline_while fuel (offline_move_one s tp i) rnp i := by
  simp only [offline_while, h]

theorem offline_while_returns :
    ∀ (fuel : Nat) (s : State) (rnp i : Nat), rnp ≠ 0 → (blocked s rnp i).length < fuel →
      ∃ s', offline_while fuel s rnp i = some s' := by
  intro fuel
  induction fuel with
  | zero => intro s rnp i _ h; omega
  | succ fuel ih =>
    intro s rnp i hr hf
    cases hL : blocked s rnp i with
    | nil => exact ⟨s, offline_while_nil fuel s rnp i hL⟩
    | cons tp rest =>
      rw [offline_while_cons fuel s rnp i tp rest hL]
      apply ih _ rnp i hr
      rw [offline_move_one_blocked, if_neg (fun h => hr h.1), hL]
      have h1 : ((tp :: rest).filter (fun x => x != tp)).length ≤ rest.length := by
        simp only [List.filter_cons, bne_self_eq_false, Bool.false_eq_true, if_false]
        exact List.length_filter_le _ _
      simp only [hL, List.length_cons] at hf
      omega

theorem offline_while_well_formed :
    ∀ (fuel : Nat) (s : State) (rnp i : Nat) (s' : State), i < 4 → well_formed s →
      offline_while fuel s rnp i = some s' → well_formed s' := by
  intro fuel
  induction fuel with
  | zero => intro s rnp i s' _ _ h; simp [offline_while] at h
  | succ fuel ih =>
    intro s rnp i s' hi hw h
    cases hL : blocked s rnp i with
    | nil =>
      rw [offline_while_nil fuel s rnp i hL] at h
      cases h; exact hw
    | cons tp rest =>
      rw [offline_while_cons fuel s rnp i tp rest hL] at h
      refine ih _ rnp i s' hi ?_ h
      exact well_formed_offline_move_one s tp i rnp hi (by rw [hL]; simp) hw

theorem offline_while_spec :
    ∀ (fuel : Nat) (s : State) (rnp i : Nat), rnp ≠ 0 → i < 4 → entries_unique s →
      (blocked s rnp i).length < fuel →
      ∃ s', offline_while fuel s rnp i = some s' ∧ entries_unique s' ∧
        blocked s' rnp i = [] ∧
        blocked s' 0 i = (blocked s rnp i).reverse ++ blocked s 0 i ∧
        (∀ n j, j < 4 → ¬ (n = rnp ∧ j = i) → ¬ (n = 0 ∧ j = i) →
          blocked s' n j = blocked s n j) ∧
        (∀ t, t ∈ blocked s rnp i →
          s'.task t = { s.task t with rcu_blocked_node := some 0 }) ∧
        (∀ t, t ∉ blocked s rnp i → s'.task t = s.task t) := by
  intro fuel
  induction fuel with
  | zero => intro s rnp i _ _ _ h; omega
  | succ fuel ih =>
    intro s rnp i hr hi hu hf
    cases hL : blocked s rnp i with
    | nil =>
      refine ⟨s, offline_while_nil fuel s rnp i hL, hu, hL, ?_, ?_, ?_, ?_⟩
      · simp
      · intro n j _ _ _; rfl
      · intro t ht; simp at ht
      · intro t _; rfl
    | cons tp rest =>
      have hm : tp ∈ blocked s rnp i := by rw [hL]; simp
      obtain ⟨hc1, hother⟩ := entries_unique_mem hu hi hm
      have hrest : tp ∉ rest := by
        rw [hL, List.count_cons_self] at hc1
        rw [← List.count_eq_zero]
        omega
      have hb1 : blocked (offline_move_one s tp i) rnp i = rest := by
        rw [offline_move_one_blocked, if_neg (fun h => hr h.1), hL]
        simp only [List.filter_cons, bne_self_eq_false, Bool.false_eq_true, if_false]
        exact filter_ne_of_not_mem rest tp hrest
      have hb0 : blocked (offline_move_one s tp i) 0 i = tp :: blocked s 0 i := by
        rw [offline_move_one_blocked, if_pos ⟨rfl, rfl⟩]
        rw [filter_ne_of_not_mem _ tp (hother 0 i hi (fun h => hr h.1.symm))]
      have hbo : ∀ n j, j < 4 → ¬ (n = rnp ∧ j = i) → ¬ (n = 0 ∧ j = i) →
          blocked (offline_move_one s tp i) n j = blocked s n j := by
        intro n j hj h1 h2
        rw [offline_move_one_blocked, if_neg h2]
        exact filter_ne_of_not_mem _ tp (hother n j hj h1)
      obtain ⟨s', hs', hu', he, h0, ho, ht1, ht2⟩ :=
        ih (offline_move_one s tp i) rnp i hr hi
          (entries_unique_offline_move_one s tp i hi hu)
          (by rw [hb1]; simp only [hL, List.length_cons] at hf; omega)
      refine ⟨s', ?_, hu', he, ?_, ?_, ?_, ?_⟩
      · rw [offline_while_cons fuel s rnp i tp rest hL]; exact hs'
      · rw [h0, hb1, hb0]; simp
      · intro n j hj h1 h2
        rw [ho n j hj h1 h2, hbo n j hj h1 h2]
      · intro t ht
        by_cases htr : t ∈ rest
        · have hne : t ≠ tp := fun hc => hrest (hc ▸ htr)
          rw [ht1 t (by rw [hb1]; exact htr), offline_move_one_task, if_neg hne]
        · have hte : t = tp := by
            rcases List.mem_cons.mp ht with h | h
            · exact h
            · exact absurd h htr
          subst hte
          rw [ht2 t (by rw [hb1]; exact htr), offline_move_one_task, if_pos rfl]
      · intro t ht
        have hne : t ≠ tp := fun hc => ht (by rw [hc]; simp)
        have htr : t ∉ rest := fun hc => ht (List.mem_cons_of_mem _ hc)
        rw [ht2 t (by rw [hb1]; exact htr), offline_move_one_task, if_neg hne]

/-! ### The `for` loop of `rcu_preempt_offline_tasks` -/

theorem offline_lists_returns :
    ∀ (is : List Nat) (s : State) (rnp : Nat), rnp ≠ 0 →
      ∃ s', is.foldlM
        (fun s i => offline_while ((blocked s rnp i).length + 1) s rnp i) s = some s' := by
  intro is
  induction is with
  | nil => intro s rnp _; exact ⟨s, rfl⟩
  | cons i is ih =>
    intro s rnp hr
    obtain ⟨s₁, h₁⟩ := offline_while_returns ((blocked s rnp i).length + 1) s rnp i hr
      (by omega)
    obtain ⟨s', h'⟩ := ih s₁ rnp hr
    refine ⟨s', ?_⟩
    simp only [List.foldlM_cons, h₁]
    exact h'

theorem offline_lists_well_formed :
    ∀ (is : List Nat) (s : State) (rnp : Nat) (s' : State), (∀ i ∈ is, i < 4) →
      well_formed s →
      is.foldlM (fun s i => offline_while ((blocked s rnp i).length + 1) s rnp i) s = some s' →
      well_formed s' := by
  intro is
  induction is with
  | nil =>
    intro s rnp s' _ hw h
    cases h; exact hw
  | cons i is ih =>
    intro s rnp s' hi hw h
    simp only [List.foldlM_cons] at h
    cases h₁ : offline_while ((blocked s rnp i).length + 1) s rnp i with
    | none => rw [h₁] at h; cases h
    | some s₁ =>
      rw [h₁] at h
      refine ih s₁ rnp s' (fun j hj => hi j (List.mem_cons_of_mem _ hj)) ?_ h
      exact offline_while_well_formed _ s rnp i s₁ (hi i (by simp)) hw h₁

theorem offline_lists_spec :
    ∀ (is : List Nat) (s : State) (rnp : Nat), rnp ≠ 0 → (∀ i ∈ is, i < 4) → is.Nodup →
      entries_unique s →
      ∃ s', is.foldlM
          (fun s i => offline_while ((blocked s rnp i).length + 1) s rnp i) s = some s' ∧
        entries_unique s' ∧
        (∀ i ∈ is, blocked s' rnp i = [] ∧
          blocked s' 0 i = (blocked s rnp i).reverse ++ blocked s 0 i) ∧
        (∀ n j, j < 4 → ¬ ((n = rnp ∨ n = 0) ∧ j ∈ is) → blocked s' n j = blocked s n j) ∧
        (∀ t, (∃ i ∈ is, t ∈ blocked s rnp i) →
          s'.task t = { s.task t with rcu_blocked_node := some 0 }) ∧
        (∀ t, (¬ ∃ i ∈ is, t ∈ blocked s rnp i) → s'.task t = s.task t) := by
  intro is
  induction is with
  | nil =>
    intro s rnp _ _ _ hu
    refine ⟨s, rfl, hu, ?_, ?_, ?_, ?_⟩
    · intro i hi; simp at hi
    · intro n j _ _; rfl
    · rintro t ⟨i, hi, -⟩; simp at hi
    · intro t _; rfl
  | cons i is ih =>
    intro s rnp hr hlt hnd hu
    have hi : i < 4 := hlt i (by simp)
    have hnotin : i ∉ is := (List.nodup_cons.mp hnd).1
    obtain ⟨s₁, h₁, hu₁, he₁, h0₁, ho₁, ht₁, hn₁⟩ :=
      offline_while_spec ((blocked s rnp i).length + 1) s rnp i hr hi hu (by omega)
    obtain ⟨s', h', hu', hl', ho', ht', hn'⟩ :=
      ih s₁ rnp hr (fun j hj => hlt j (List.mem_cons_of_mem _ hj)) (List.nodup_cons.mp hnd).2 hu₁
    have hsame : ∀ j, j ∈ is → blocked s₁ rnp j = blocked s rnp j ∧
        blocked s₁ 0 j = blocked s 0 j := by
      intro j hj
      have hji : j ≠ i := fun hc => hnotin (hc ▸ hj)
      have hj4 : j < 4 := hlt j (List.mem_cons_of_mem _ hj)
      exact ⟨ho₁ rnp j hj4 (fun h => hji h.2) (fun h => hji h.2),
        ho₁ 0 j hj4 (fun h => hji h.2) (fun h => hji h.2)⟩
    refine ⟨s', ?_, hu', ?_, ?_, ?_, ?_⟩
    · simp only [List.foldlM_cons, h₁]
      exact h'
    · intro j hj
      rcases List.mem_cons.mp hj with hji | hjs
      · subst hji
        rw [ho' rnp j hi (fun h => hnotin h.2), ho' 0 j hi (fun h => hnotin h.2)]
        exact ⟨he₁, h0₁⟩
      · obtain ⟨ha, hb⟩ := hl' j hjs
        obtain ⟨hc, hd⟩ := hsame j hjs
        rw [hc, hd] at hb
        exact ⟨ha, hb⟩
    · intro n j hj hnot
      have h1 : ¬ ((n = rnp ∨ n = 0) ∧ j ∈ is) :=
        fun h => hnot ⟨h.1, List.mem_cons_of_mem _ h.2⟩
      rw [ho' n j hj h1]
      apply ho₁ n j hj
      · intro h; exact hnot ⟨Or.inl h.1, by rw [h.2]; simp⟩
      · intro h; exact hnot ⟨Or.inr h.1, by rw [h.2]; simp⟩
    · rintro t ⟨j, hj, htj⟩
      rcases List.mem_cons.mp hj with hji | hjs
      · subst hji
        have hno : ¬ ∃ k ∈ is, t ∈ blocked s₁ rnp k := by
          rintro ⟨k, hk, htk⟩
          rw [(hsame k hk).1] at htk
          have hk4 : k < 4 := hlt k (List.mem_cons_of_mem _ hk)
          have hkj : k ≠ j := fun hc => hnotin (hc ▸ hk)
          exact (entries_unique_mem hu hi htj).2 rnp k hk4 (fun h => hkj h.2) htk
        rw [hn' t hno, ht₁ t htj]
      · have htj₁ : t ∈ blocked s₁ rnp j := by rw [(hsame j hjs).1]; exact htj
        have hj4 : j < 4 := hlt j (List.mem_cons_of_mem _ hjs)
        have hji : i ≠ j := fun hc => hnotin (hc ▸ hjs)
        have hti : t ∉ blocked s rnp i :=
          (entries_unique_mem hu hj4 htj).2 rnp i hi (fun h => hji h.2)
        rw [ht' t ⟨j, hjs, htj₁⟩, hn₁ t hti]
    · intro t hno
      have hti : t ∉ blocked s rnp i := fun h => hno ⟨i, by simp, h⟩
      have hno' : ¬ ∃ k ∈ is, t ∈ blocked s₁ rnp k := by
        rintro ⟨k, hk, htk⟩
        rw [(hsame k hk).1] at htk
        exact hno ⟨k, List.mem_cons_of_mem _ hk, htk⟩
      rw [hn' t hno', hn₁ t hti]

theorem rcu_preempt_offline_tasks_well_formed (s : State) (rnp : Nat) (r : State × Nat)
    (h : well_formed s) (hr : rcu_preempt_offline_tasks s rnp = some r) : well_formed r.1 := by
  unfold rcu_preempt_offline_tasks at hr
  simp only [rcu_get_root] at hr
  split at hr
  · cases hr; exact h
  · cases hf : offline_for s rnp with
    | none => rw [hf] at hr; cases hr
    | some s₁ =>
      rw [hf] at hr
      cases hr
      exact offline_lists_well_formed [0, 1, 2, 3] s rnp s₁ (by decide) h hf

theorem rcu_preempt_offline_tasks_total (s : State) (rnp : Nat) :
    ∃ r, rcu_preempt_offline_tasks s rnp = some r := by
  unfold rcu_preempt_offline_tasks
  simp only [rcu_get_root]
  split
  · exact ⟨_, rfl⟩
  · rename_i hr
    obtain ⟨s', hs'⟩ := offline_lists_returns [0, 1, 2, 3] s rnp hr
    have : offline_for s rnp = some s' := hs'
    rw [this]
    exact ⟨_, rfl⟩

theorem well_formed_tree4 : well_formed tree4 := by
  intro t
  left
  refine ⟨by simp [is_blocked, tree4, idle_task], rfl, ?_⟩
  intro rnp i _
  have : blocked tree4 rnp i = [] := by
    unfold blocked tree4
    simp only
    split
    · rfl
    · split <;> rfl
  rw [this]; rfl

theorem well_formed_set_node_masks (s : State) (rnp : Nat) (f : rcu_node → rcu_node)
    (hf : ∀ n, (f n).blocked_tasks = n.blocked_tasks) (h : well_formed s) :
    well_formed (set_node s rnp f) := by
  apply well_formed_of_same s _ h
  · intro t; rfl
  · intro t; rfl
  · intro t n
    apply total_count_congr
    by_cases hn : n = rnp
    · subst hn; simp [set_node, hf]
    · simp [set_node, Function.update_noteq hn]

theorem well_formed_set_nesting (s : State) (t : Nat) (c : Int) (h : well_formed s) :
    well_formed (set_task s t (fun p => { p with rcu_read_lock_nesting := c })) := by
  apply well_formed_of_same s _ h
  · intro t'
    unfold is_blocked
    by_cases ht : t' = t
    · subst ht; simp [set_task]
    · simp [set_task, Function.update_noteq ht]
  · intro t'
    by_cases ht : t' = t
    · subst ht; simp [set_task]
    · simp [set_task, Function.update_noteq ht]
  · intro t' n
    exact total_count_congr _ _ _ _ rfl

theorem well_formed_tree4_blocked_cur : well_formed tree4_blocked_cur := by
  unfold tree4_blocked_cur
  refine well_formed_set_node_masks _ 1 (fun n => { n with qsmask := 0 }) (fun _ => rfl) ?_
  apply well_formed_set_nesting
  apply well_formed_note_context_switch
  unfold tree4_waiting_reader
  apply well_formed_set_nesting
  unfold tree4_waiting
  exact well_formed_set_node_masks _ 1 (fun n => { n with qsmask := 1 }) (fun _ => rfl)
    well_formed_tree4

/-- C5: from a well-formed state, each of `rcu_preempt_note_context_switch`,
`rcu_read_unlock_special`, `sync_rcu_preempt_exp_init` and `rcu_preempt_offline_tasks` yields
a well-formed state, so that no task is on two lists or on the lists of two nodes.  The
operations return: the hook and the migration always, the other two whenever the parent
chains of the tree end at a root. -/
theorem well_formed_preserved (s : State) (h : well_formed s) :
    (∀ cpu, well_formed (rcu_preempt_note_context_switch s cpu)) ∧
    (∀ t s', rcu_read_unlock_special s t = some s' → well_formed s') ∧
    (∀ rnp s', sync_rcu_preempt_exp_init s rnp = some s' → well_formed s') ∧
    (∀ rnp s' ret, rcu_preempt_offline_tasks s rnp = some (s', ret) → well_formed s') ∧
    (∀ rnp, ∃ r, rcu_preempt_offline_tasks s rnp = some r) ∧
    ((∀ rnp, reaches_root s s.NUM_RCU_NODES rnp = true) →
      (∀ t, ∃ s', rcu_read_unlock_special s t = some s') ∧
      (∀ rnp, ∃ s', sync_rcu_preempt_exp_init s rnp = some s')) :=
  ⟨fun cpu => well_formed_note_context_switch s cpu h,
    fun t s' hs => well_formed_read_unlock_special s t s' h hs,
    fun rnp s' hs => well_formed_sync_rcu_preempt_exp_init s rnp s' h hs,
    fun rnp _ _ hs => rcu_preempt_offline_tasks_well_formed s rnp _ h hs,
    fun rnp => rcu_preempt_offline_tasks_total s rnp,
    fun htree => ⟨fun t => rcu_read_unlock_special_total s t h htree,
      fun rnp => sync_rcu_preempt_exp_init_total s rnp (htree rnp)⟩⟩

/-- C5 on `tree4_blocked_cur`, where task 0 is queued on leaf 1. -/
theorem well_formed_preserved_witness :
    well_formed tree4_blocked_cur ∧
    (∀ cpu, well_formed (rcu_preempt_note_context_switch tree4_blocked_cur cpu)) ∧
    (∀ t s', rcu_read_unlock_special tree4_blocked_cur t = some s' → well_formed s') ∧
    (∀ rnp s', sync_rcu_preempt_exp_init tree4_blocked_cur rnp = some s' → well_formed s') ∧
    (∀ rnp s' ret, rcu_preempt_offline_tasks tree4_blocked_cur rnp = some (s', ret) →
      well_formed s') ∧
    (∀ rnp, ∃ r, rcu_preempt_offline_tasks tree4_blocked_cur rnp = some r) ∧
    ((∀ rnp, reaches_root tree4_blocked_cur tree4_blocked_cur.NUM_RCU_NODES rnp = true) →
      (∀ t, ∃ s', rcu_read_unlock_special tree4_blocked_cur t = some s') ∧
      (∀ rnp, ∃ s', sync_rcu_preempt_exp_init tree4_blocked_cur rnp = some s')) :=
  ⟨well_formed_tree4_blocked_cur, well_formed_preserved tree4_blocked_cur
    well_formed_tree4_blocked_cur⟩

/-! ### C6 -/

/-- C6: for a node with `qsmask == 0` whose current-phase blocked lists are empty,
`rcu_report_unblock_qs_rnp` calls `rcu_report_qs_rsp` (completion of the grace period) and
nothing else when the node has no parent; otherwise it drops the node's lock, takes the
parent's lock and calls `rcu_report_qs_rnp` with exactly the node's `grpmask` on the parent,
without declaring completion.  Nothing but the trace changes. -/
theorem rcu_report_unblock_qs_rnp_reports (s : State) (rnp : Nat)
    (hq : (s.node rnp).qsmask = 0)
    (h0 : blocked s rnp ((s.node rnp).gpnum % 2).toNat = [])
    (h2 : blocked s rnp (((s.node rnp).gpnum % 2).toNat + 2) = []) :
    rcu_report_unblock_qs_rnp s rnp =
      match (s.node rnp).parent with
      | none => { s with trace := s.trace ++ [Event.rcu_report_qs_rsp] }
      | some rnp_p =>
        { s with trace := s.trace ++ [Event.spin_unlock rnp, Event.spin_lock rnp_p,
            Event.rcu_report_qs_rnp (s.node rnp).grpmask rnp_p] } := by
  have hr : ¬ ((s.node rnp).qsmask ≠ 0 ∨ rcu_preempted_readers s rnp = true) := by
    rw [rcu_preempted_readers_eq_true_iff]
    simp [hq, h0, h2]
  simp only [rcu_report_unblock_qs_rnp, if_neg hr]
  cases (s.node rnp).parent <;> simp [log]

/-- C6 at leaf 1 of `tree4`: the leaf reports its `grpmask` 1 to the root, node 0. -/
theorem rcu_report_unblock_qs_rnp_reports_witness :
    (tree4.node 1).qsmask = 0 ∧
    blocked tree4 1 ((tree4.node 1).gpnum % 2).toNat = [] ∧
    blocked tree4 1 (((tree4.node 1).gpnum % 2).toNat + 2) = [] ∧
    rcu_report_unblock_qs_rnp tree4 1 =
      { tree4 with trace := tree4.trace ++ [Event.spin_unlock 1, Event.spin_lock 0,
          Event.rcu_report_qs_rnp 1 0] } :=
  ⟨by decide, by decide, by decide,
    rcu_report_unblock_qs_rnp_reports tree4 1 (by decide) (by decide) (by decide)⟩

/-! ### C7 -/

theorem offline_for_spec (s : State) (rnp : Nat) (hr : rnp ≠ 0) (hu : entries_unique s) :
    ∃ s', offline_for s rnp = some s' ∧
      (∀ i, i < 4 → blocked s' rnp i = []) ∧
      (∀ i, i < 4 → blocked s' 0 i = (blocked s rnp i).reverse ++ blocked s 0 i) ∧
      (∀ n i, i < 4 → n ≠ rnp → n ≠ 0 → blocked s' n i = blocked s n i) ∧
      (∀ t i, i < 4 → t ∈ blocked s rnp i →
        s'.task t = { s.task t with rcu_blocked_node := some 0 }) ∧
      (∀ t, (∀ i, i < 4 → t ∉ blocked s rnp i) → s'.task t = s.task t) := by
  obtain ⟨s', hs', -, hl, ho, ht, hn⟩ :=
    offline_lists_spec [0, 1, 2, 3] s rnp hr (by decide) (by decide) hu
  have hmem : ∀ i, i < 4 → i ∈ [0, 1, 2, 3] := by
    intro i hi; interval_cases i <;> simp
  have hlt : ∀ i, i ∈ [0, 1, 2, 3] → i < 4 := by decide
  refine ⟨s', hs', fun i hi => (hl i (hmem i hi)).1, fun i hi => (hl i (hmem i hi)).2, ?_, ?_, ?_⟩
  · intro n i hi h1 h2
    apply ho n i hi
    rintro ⟨h | h, -⟩
    · exact h1 h
    · exact h2 h
  · intro t i hi hm
    exact ht t ⟨i, hmem i hi, hm⟩
  · intro t hno
    apply hn t
    rintro ⟨i, hi, hm⟩
    exact hno i (hlt i hi) hm

theorem rcu_preempt_offline_tasks_nonroot (s : State) (rnp : Nat) (hr : rnp ≠ 0) :
    rcu_preempt_offline_tasks s rnp =
      (offline_for s rnp).map (fun s' => (s',
        (if rcu_preempted_readers_exp s rnp = true then
          (if rcu_preempted_readers s rnp = true then 0 ||| RCU_OFL_TASKS_NORM_GP else 0) |||
            RCU_OFL_TASKS_EXP_GP
        else (if rcu_preempted_readers s rnp = true then 0 ||| RCU_OFL_TASKS_NORM_GP else 0)))) := by
  unfold rcu_preempt_offline_tasks
  simp only [rcu_get_root, if_neg hr]
  cases offline_for s rnp <;> rfl

/-- C7: for a node other than the root (and blocked lists that hold each task at most once),
`rcu_preempt_offline_tasks` returns; afterwards the four lists of the node are empty, the
root's list `i` holds the entries that were on the node's list `i` (last one first) followed
by its own previous entries, every moved task has the root as blocked node, tasks that were
not on the node's lists are untouched, and the lists of all other nodes are unchanged. -/
theorem rcu_preempt_offline_tasks_moves (s : State) (rnp : Nat)
    (hr : rnp ≠ rcu_get_root s) (hu : entries_unique s) :
    ∃ s' ret, rcu_preempt_offline_tasks s rnp = some (s', ret) ∧
      (∀ i, i < 4 → blocked s' rnp i = []) ∧
      (∀ i, i < 4 → blocked s' (rcu_get_root s) i =
        (blocked s rnp i).reverse ++ blocked s (rcu_get_root s) i) ∧
      (∀ t i, i < 4 → t ∈ blocked s rnp i →
        (s'.task t).rcu_blocked_node = some (rcu_get_root s)) ∧
      (∀ t, (∀ i, i < 4 → t ∉ blocked s rnp i) → s'.task t = s.task t) ∧
      (∀ n i, i < 4 → n ≠ rnp → n ≠ rcu_get_root s → blocked s' n i = blocked s n i) := by
  simp only [rcu_get_root] at hr ⊢
  obtain ⟨s', hs', he, h0, ho, ht, hn⟩ := offline_for_spec s rnp hr hu
  rw [rcu_preempt_offline_tasks_nonroot s rnp hr, hs']
  refine ⟨s', _, rfl, he, h0, ?_, hn, ho⟩
  intro t i hi hm
  rw [ht t i hi hm]

theorem well_formed_tree4_two_blocked : well_formed tree4_two_blocked := by
  unfold tree4_two_blocked
  apply well_formed_note_context_switch
  apply well_formed_set_nesting
  apply well_formed_of_same (rcu_preempt_note_context_switch tree4_waiting_reader 0)
  · apply well_formed_note_context_switch
    unfold tree4_waiting_reader
    apply well_formed_set_nesting
    unfold tree4_waiting
    exact well_formed_set_node_masks _ 1 (fun n => { n with qsmask := 1 }) (fun _ => rfl)
      well_formed_tree4
  · intro t; rfl
  · intro t; rfl
  · intro t n; rfl

/-- C7 on `tree4_two_blocked`: leaf 1 goes offline with task 0 on its list 0 and task 1 on its
list 1. -/
theorem rcu_preempt_offline_tasks_moves_witness :
    1 ≠ rcu_get_root tree4_two_blocked ∧ entries_unique tree4_two_blocked ∧
    blocked tree4_two_blocked 1 0 = [0] ∧ blocked tree4_two_blocked 1 1 = [1] ∧
    ∃ s' ret, rcu_preempt_offline_tasks tree4_two_blocked 1 = some (s', ret) ∧
      (∀ i, i < 4 → blocked s' 1 i = []) ∧
      (∀ i, i < 4 → blocked s' (rcu_get_root tree4_two_blocked) i =
        (blocked tree4_two_blocked 1 i).reverse ++
          blocked tree4_two_blocked (rcu_get_root tree4_two_blocked) i) ∧
      (∀ t i, i < 4 → t ∈ blocked tree4_two_blocked 1 i →
        (s'.task t).rcu_blocked_node = some (rcu_get_root tree4_two_blocked)) ∧
      (∀ t, (∀ i, i < 4 → t ∉ blocked tree4_two_blocked 1 i) →
        s'.task t = tree4_two_blocked.task t) ∧
      (∀ n i, i < 4 → n ≠ 1 → n ≠ rcu_get_root tree4_two_blocked →
        blocked s' n i = blocked tree4_two_blocked n i) :=
  ⟨by decide, entries_unique_of_well_formed well_formed_tree4_two_blocked, by decide, by decide,
    rcu_preempt_offline_tasks_moves tree4_two_blocked 1 (by decide)
      (entries_unique_of_well_formed well_formed_tree4_two_blocked)⟩

/-! ### C8 -/

/-- C8: on a node other than the root `rcu_preempt_offline_tasks` returns a value in which
`RCU_OFL_TASKS_NORM_GP` is set exactly when the node had blocked readers for the current grace
period before the migration (`rcu_preempted_readers`), `RCU_OFL_TASKS_EXP_GP` is set exactly
when `blocked_tasks[2]` or `blocked_tasks[3]` was non-empty before the migration, and no other
bit is set; on the root it returns 0 and leaves the state as it was. -/
theorem rcu_preempt_offline_tasks_retval (s : State) (rnp : Nat)
    (hr : rnp ≠ rcu_get_root s) :
    (∃ s' ret, rcu_preempt_offline_tasks s rnp = some (s', ret) ∧
      (ret &&& RCU_OFL_TASKS_NORM_GP ≠ 0 ↔ rcu_preempted_readers s rnp = true) ∧
      (ret &&& RCU_OFL_TASKS_EXP_GP ≠ 0 ↔ (blocked s rnp 2 ≠ [] ∨ blocked s rnp 3 ≠ [])) ∧
      ret &&& lnot (RCU_OFL_TASKS_NORM_GP ||| RCU_OFL_TASKS_EXP_GP) = 0) ∧
    rcu_preempt_offline_tasks s (rcu_get_root s) = some (s, 0) := by
  simp only [rcu_get_root] at hr ⊢
  constructor
  · obtain ⟨s', hs'⟩ := offline_lists_returns [0, 1, 2, 3] s rnp hr
    have hfor : offline_for s rnp = some s' := hs'
    rw [rcu_preempt_offline_tasks_nonroot s rnp hr, hfor]
    refine ⟨s', _, rfl, ?_⟩
    have hexp : (blocked s rnp 2 ≠ [] ∨ blocked s rnp 3 ≠ []) ↔
        rcu_preempted_readers_exp s rnp = true := by
      simp [rcu_preempted_readers_exp, list_empty_eq_false_iff]
    rw [hexp]
    cases rcu_preempted_readers s rnp <;> cases rcu_preempted_readers_exp s rnp <;> decide
  · simp [rcu_preempt_offline_tasks, rcu_get_root]

/-- C8 on `tree4_two_blocked`, leaf 1. -/
theorem rcu_preempt_offline_tasks_retval_witness :
    1 ≠ rcu_get_root tree4_two_blocked ∧
    (∃ s' ret, rcu_preempt_offline_tasks tree4_two_blocked 1 = some (s', ret) ∧
      (ret &&& RCU_OFL_TASKS_NORM_GP ≠ 0 ↔ rcu_preempted_readers tree4_two_blocked 1 = true) ∧
      (ret &&& RCU_OFL_TASKS_EXP_GP ≠ 0 ↔
        (blocked tree4_two_blocked 1 2 ≠ [] ∨ blocked tree4_two_blocked 1 3 ≠ [])) ∧
      ret &&& lnot (RCU_OFL_TASKS_NORM_GP ||| RCU_OFL_TASKS_EXP_GP) = 0) ∧
    rcu_preempt_offline_tasks tree4_two_blocked (rcu_get_root tree4_two_blocked) =
      some (tree4_two_blocked, 0) :=
  ⟨by decide, rcu_preempt_offline_tasks_retval tree4_two_blocked 1 (by decide)⟩

/-! ### The mutex-acquisition loop of `synchronize_rcu_expedited` -/

theorem exp_trylock_loop_acquired (env : Env) (snap : Int) (s : State) (k : Nat)
    (h : env.mutex_trylock k = true) :
    exp_trylock_loop env snap s k =
      (LoopExit.acquired k, log s [Event.mutex_trylock true]) := by
  rw [exp_trylock_loop, if_pos h]

theorem exp_trylock_loop_mb_ret (env : Env) (snap : Int) (s : State) (k : Nat)
    (h : env.mutex_trylock k = false) (hk : k < 10)
    (hc : wrap_long (env.exp_count k - snap) > 0) :
    exp_trylock_loop env snap s k =
      (LoopExit.mb_ret,
        log s [Event.mutex_trylock false, Event.udelay ((k + 1) * s.num_online_cpus)]) := by
  rw [exp_trylock_loop]
  simp [h, hk, hc, log]

theorem exp_trylock_loop_retry (env : Env) (snap : Int) (s : State) (k : Nat)
    (h : env.mutex_trylock k = false) (hk : k < 10)
    (hc : wrap_long (env.exp_count k - snap) ≤ 0) :
    exp_trylock_loop env snap s k =
      exp_trylock_loop env snap
        (log s [Event.mutex_trylock false, Event.udelay ((k + 1) * s.num_online_cpus)])
        (k + 1) := by
  rw [exp_trylock_loop]
  have hc' : ¬ wrap_long (env.exp_count k - snap) > 0 := by omega
  simp [h, hk, hc', log]

theorem exp_trylock_loop_fallback (env : Env) (snap : Int) (s : State) (k : Nat)
    (h : env.mutex_trylock k = false) (hk : 10 ≤ k) :
    exp_trylock_loop env snap s k =
      (LoopExit.fallback, synchronize_rcu (log s [Event.mutex_trylock false])) := by
  rw [exp_trylock_loop]
  have hk' : ¬ k < 10 := by omega
  simp [h, hk']

theorem synchronize_rcu_expedited_first_try (env : Env) (s : State)
    (h : env.mutex_trylock 0 = true) :
    synchronize_rcu_expedited env s =
      if wrap_long (env.exp_count 0 - wrap_long (s.sync_rcu_preempt_exp_count + 1)) > 0 then
        some (log (log s [Event.mutex_trylock true]) [Event.mutex_unlock])
      else exp_grace_period (log s [Event.mutex_trylock true]) (env.exp_count 0) := by
  simp only [synchronize_rcu_expedited, exp_trylock_loop_acquired env _ s 0 h]

theorem wrap_long_two_ahead (K : Int) :
    wrap_long (wrap_long (K + 2) - wrap_long (K + 1)) = 1 := by
  unfold wrap_long
  omega

/-! ### C9 -/

/-- C9 as stated fails on `tree4` with `env_one_completion`: the snapshot is taken at counter
0, the mutex is acquired at once and the re-check reads 1; the caller nevertheless runs
`synchronize_sched_expedited`, re-initialises the root's `expmask` and increments the
counter (to 2). -/
theorem synchronize_rcu_expedited_counterexample :
    tree4.sync_rcu_preempt_exp_count = 0 ∧ env_one_completion.exp_count 0 = 0 + 1 ∧
    (synchronize_rcu_expedited env_one_completion tree4).map
      (fun s' => (s'.sync_rcu_preempt_exp_count, s'.trace.take 3)) =
    some (2, [Event.mutex_trylock true, Event.synchronize_sched_expedited,
      Event.local_irq_save]) := by
  rw [synchronize_rcu_expedited_first_try env_one_completion tree4 rfl]
  decide

/-- C9, amended: if `synchronize_rcu_expedited` takes its snapshot when the counter is `K` and
the counter reads `K + 2` at the caller's next check (after the first failed `mutex_trylock`
and its delay, or right after acquiring the mutex), the call returns at once: besides the
attempt on the mutex it only delays (`goto mb_ret`) or releases the mutex
(`goto unlock_mb_ret`); `synchronize_sched_expedited` is not called, no `expmask` and no
blocked list is touched and the counter is not incremented. -/
theorem synchronize_rcu_expedited_others_done (env : Env) (s : State) (K : Int)
    (hK : s.sync_rcu_preempt_exp_count = K)
    (hc : env.exp_count 0 = wrap_long (K + 2)) :
    ∃ es, synchronize_rcu_expedited env s = some { s with trace := s.trace ++ es } ∧
      (es = [Event.mutex_trylock true, Event.mutex_unlock] ∨
        es = [Event.mutex_trylock false, Event.udelay s.num_online_cpus]) ∧
      Event.synchronize_sched_expedited ∉ es := by
  have hpast : wrap_long (env.exp_count 0 - wrap_long (s.sync_rcu_preempt_exp_count + 1)) > 0 := by
    rw [hc, hK, wrap_long_two_ahead]
    decide
  cases ht : env.mutex_trylock 0 with
  | true =>
    refine ⟨[Event.mutex_trylock true, Event.mutex_unlock], ?_, Or.inl rfl, by simp⟩
    rw [synchronize_rcu_expedited_first_try env s ht, if_pos hpast]
    simp [log]
  | false =>
    refine ⟨[Event.mutex_trylock false, Event.udelay s.num_online_cpus], ?_, Or.inr rfl,
      by simp⟩
    simp only [synchronize_rcu_expedited,
      exp_trylock_loop_mb_ret env _ s 0 ht (by omega) hpast]
    simp [log]

/-- C9 (amended) on `tree4` with `env_two_completions`: snapshot at 0, the re-check reads 2. -/
theorem synchronize_rcu_expedited_others_done_witness :
    tree4.sync_rcu_preempt_exp_count = 0 ∧
    env_two_completions.exp_count 0 = wrap_long (0 + 2) ∧
    ∃ es, synchronize_rcu_expedited env_two_completions tree4 =
        some { tree4 with trace := tree4.trace ++ es } ∧
      (es = [Event.mutex_trylock true, Event.mutex_unlock] ∨
        es = [Event.mutex_trylock false, Event.udelay tree4.num_online_cpus]) ∧
      Event.synchronize_sched_expedited ∉ es :=
  ⟨rfl, by decide,
    synchronize_rcu_expedited_others_done env_two_completions tree4 0 rfl (by decide)⟩

/-! ### C10 -/

theorem synchronize_rcu_trace (s : State) :
    ∃ es, synchronize_rcu s = { s with trace := s.trace ++ es } ∧
      es.countP is_trylock = 0 ∧
      Event.mutex_trylock true ∉ es ∧ Event.mutex_unlock ∉ es ∧
      Event.synchronize_sched_expedited ∉ es := by
  unfold synchronize_rcu
  by_cases h : s.rcu_scheduler_active = true
  · exact ⟨[Event.init_completion, Event.call_rcu, Event.wait_for_completion],
      by simp [h, log], by simp [is_trylock], by simp, by simp, by simp⟩
  · have h' : (!s.rcu_scheduler_active) = true := by simpa using h
    exact ⟨[], by rw [if_pos h', List.append_nil], by simp, by simp, by simp, by simp⟩

theorem synchronize_rcu_after (s : State) (L : List Event)
    (h1 : Event.mutex_trylock true ∉ L) (h2 : Event.mutex_unlock ∉ L)
    (h3 : Event.synchronize_sched_expedited ∉ L) :
    ∃ es, synchronize_rcu { s with trace := s.trace ++ L } = { s with trace := s.trace ++ es } ∧
      Event.mutex_trylock true ∉ es ∧ Event.mutex_unlock ∉ es ∧
      Event.synchronize_sched_expedited ∉ es := by
  obtain ⟨es, hes, -, e1, e2, e3⟩ := synchronize_rcu_trace { s with trace := s.trace ++ L }
  refine ⟨L ++ es, ?_, ?_, ?_, ?_⟩
  · rw [hes]; simp
  · simp [h1, e1]
  · simp [h2, e2]
  · simp [h3, e3]

/-- From `trycount = k ≤ 10` the loop makes at most `11 - k` attempts on the mutex. -/
theorem exp_trylock_loop_attempts (env : Env) (snap : Int) :
    ∀ (m k : Nat) (s : State), k + m = 10 →
      ∃ es, (exp_trylock_loop env snap s k).2.trace = s.trace ++ es ∧
        es.countP is_trylock ≤ m + 1 := by
  intro m
  induction m with
  | zero =>
    intro k s hk
    cases ht : env.mutex_trylock k with
    | true =>
      rw [exp_trylock_loop_acquired env snap s k ht]
      exact ⟨[Event.mutex_trylock true], rfl, by simp [is_trylock]⟩
    | false =>
      rw [exp_trylock_loop_fallback env snap s k ht (by omega)]
      obtain ⟨es, hes, hcount, -⟩ := synchronize_rcu_trace (log s [Event.mutex_trylock false])
      refine ⟨Event.mutex_trylock false :: es, ?_, ?_⟩
      · simp only [hes]; simp [log]
      · simp [List.countP_cons, is_trylock, hcount]
  | succ m ih =>
    intro k s hk
    cases ht : env.mutex_trylock k with
    | true =>
      rw [exp_trylock_loop_acquired env snap s k ht]
      exact ⟨[Event.mutex_trylock true], rfl, by simp [is_trylock]⟩
    | false =>
      by_cases hc : wrap_long (env.exp_count k - snap) > 0
      · rw [exp_trylock_loop_mb_ret env snap s k ht (by omega) hc]
        exact ⟨_, rfl, by simp [List.countP_cons, is_trylock]⟩
      · rw [exp_trylock_loop_retry env snap s k ht (by omega) (by omega)]
        obtain ⟨es, hes, hcount⟩ := ih (k + 1)
          (log s [Event.mutex_trylock false, Event.udelay ((k + 1) * s.num_online_cpus)])
          (by omega)
        refine ⟨[Event.mutex_trylock false, Event.udelay ((k + 1) * s.num_online_cpus)] ++ es,
          ?_, ?_⟩
        · rw [hes]; simp [log]
        · simp [List.countP_cons, is_trylock]
          omega

/-- C10: the mutex-acquisition loop of `synchronize_rcu_expedited` makes at most 11 attempts,
whatever the other contexts do.  If the first 11 attempts fail and none of the 10 re-checks
sees the counter past the snapshot, the caller delays `1 * n`, ..., `10 * n` microseconds
(`n = num_online_cpus()`) after the first 10 failures and on the 11th failure calls
`synchronize_rcu()` once and returns: the mutex was neither acquired nor released,
`synchronize_sched_expedited` was not called and `sync_rcu_preempt_exp_count` is unchanged. -/
theorem synchronize_rcu_expedited_fallback (env : Env) (s : State)
    (hfail : ∀ k, k ≤ 10 → env.mutex_trylock k = false)
    (hcnt : ∀ k, k < 10 →
      wrap_long (env.exp_count k - wrap_long (s.sync_rcu_preempt_exp_count + 1)) ≤ 0) :
    (∀ (env' : Env) (snap : Int), ∃ es,
      (exp_trylock_loop env' snap s 0).2.trace = s.trace ++ es ∧ es.countP is_trylock ≤ 11) ∧
    synchronize_rcu_expedited env s =
      some (synchronize_rcu { s with trace := s.trace ++
        [Event.mutex_trylock false, Event.udelay (1 * s.num_online_cpus),
         Event.mutex_trylock false, Event.udelay (2 * s.num_online_cpus),
         Event.mutex_trylock false, Event.udelay (3 * s.num_online_cpus),
         Event.mutex_trylock false, Event.udelay (4 * s.num_online_cpus),
         Event.mutex_trylock false, Event.udelay (5 * s.num_online_cpus),
         Event.mutex_trylock false, Event.udelay (6 * s.num_online_cpus),
         Event.mutex_trylock false, Event.udelay (7 * s.num_online_cpus),
         Event.mutex_trylock false, Event.udelay (8 * s.num_online_cpus),
         Event.mutex_trylock false, Event.udelay (9 * s.num_online_cpus),
         Event.mutex_trylock false, Event.udelay (10 * s.num_online_cpus),
         Event.mutex_trylock false] }) ∧
    ∃ s' es, synchronize_rcu_expedited env s = some s' ∧
      s' = { s with trace := s.trace ++ es } ∧
      Event.mutex_trylock true ∉ es ∧ Event.mutex_unlock ∉ es ∧
      Event.synchronize_sched_expedited ∉ es ∧
      s'.sync_rcu_preempt_exp_count = s.sync_rcu_preempt_exp_count := by
  have hrun : synchronize_rcu_expedited env s =
      some (synchronize_rcu { s with trace := s.trace ++
        [Event.mutex_trylock false, Event.udelay (1 * s.num_online_cpus),
         Event.mutex_trylock false, Event.udelay (2 * s.num_online_cpus),
         Event.mutex_trylock false, Event.udelay (3 * s.num_online_cpus),
         Event.mutex_trylock false, Event.udelay (4 * s.num_online_cpus),
         Event.mutex_trylock false, Event.udelay (5 * s.num_online_cpus),
         Event.mutex_trylock false, Event.udelay (6 * s.num_online_cpus),
         Event.mutex_trylock false, Event.udelay (7 * s.num_online_cpus),
         Event.mutex_trylock false, Event.udelay (8 * s.num_online_cpus),
         Event.mutex_trylock false, Event.udelay (9 * s.num_online_cpus),
         Event.mutex_trylock false, Event.udelay (10 * s.num_online_cpus),
         Event.mutex_trylock false] }) := by
    simp only [synchronize_rcu_expedited]
    rw [exp_trylock_loop_retry env _ _ 0 (hfail 0 (by omega)) (by omega) (hcnt 0 (by omega)),
      exp_trylock_loop_retry env _ _ 1 (hfail 1 (by omega)) (by omega) (hcnt 1 (by omega)),
      exp_trylock_loop_retry env _ _ 2 (hfail 2 (by omega)) (by omega) (hcnt 2 (by omega)),
      exp_trylock_loop_retry env _ _ 3 (hfail 3 (by omega)) (by omega) (hcnt 3 (by omega)),
      exp_trylock_loop_retry env _ _ 4 (hfail 4 (by omega)) (by omega) (hcnt 4 (by omega)),
      exp_trylock_loop_retry env _ _ 5 (hfail 5 (by omega)) (by omega) (hcnt 5 (by omega)),
      exp_trylock_loop_retry env _ _ 6 (hfail 6 (by omega)) (by omega) (hcnt 6 (by omega)),
      exp_trylock_loop_retry env _ _ 7 (hfail 7 (by omega)) (by omega) (hcnt 7 (by omega)),
      exp_trylock_loop_retry env _ _ 8 (hfail 8 (by omega)) (by omega) (hcnt 8 (by omega)),
      exp_trylock_loop_retry env _ _ 9 (hfail 9 (by omega)) (by omega) (hcnt 9 (by omega)),
      exp_trylock_loop_fallback env _ _ 10 (hfail 10 (by omega)) (by omega)]
    simp [log]
  refine ⟨fun env' snap => exp_trylock_loop_attempts env' snap 10 0 s (by omega), hrun, ?_⟩
  obtain ⟨es, hes, h1, h2, h3⟩ := synchronize_rcu_after s
        [Event.mutex_trylock false, Event.udelay (1 * s.num_online_cpus),
         Event.mutex_trylock false, Event.udelay (2 * s.num_online_cpus),
         Event.mutex_trylock false, Event.udelay (3 * s.num_online_cpus),
         Event.mutex_trylock false, Event.udelay (4 * s.num_online_cpus),
         Event.mutex_trylock false, Event.udelay (5 * s.num_online_cpus),
         Event.mutex_trylock false, Event.udelay (6 * s.num_online_cpus),
         Event.mutex_trylock false, Event.udelay (7 * s.num_online_cpus),
         Event.mutex_trylock false, Event.udelay (8 * s.num_online_cpus),
         Event.mutex_trylock false, Event.udelay (9 * s.num_online_cpus),
         Event.mutex_trylock false, Event.udelay (10 * s.num_online_cpus),
         Event.mutex_trylock false] (by simp) (by simp) (by simp)
  exact ⟨_, es, hrun, hes, h1, h2, h3, by rw [hes]⟩

/-- C10 on `tree4` with `env_contended`: eleven failed attempts, ten delays, then the
fallback. -/
theorem synchronize_rcu_expedited_fallback_witness :
    (∀ k, k ≤ 10 → env_contended.mutex_trylock k = false) ∧
    (∀ k, k < 10 →
      wrap_long (env_contended.exp_count k -
        wrap_long (tree4.sync_rcu_preempt_exp_count + 1)) ≤ 0) ∧
    synchronize_rcu_expedited env_contended tree4 =
      some (synchronize_rcu { tree4 with trace := tree4.trace ++
        [Event.mutex_trylock false, Event.udelay (1 * tree4.num_online_cpus),
         Event.mutex_trylock false, Event.udelay (2 * tree4.num_online_cpus),
         Event.mutex_trylock false, Event.udelay (3 * tree4.num_online_cpus),
         Event.mutex_trylock false, Event.udelay (4 * tree4.num_online_cpus),
         Event.mutex_trylock false, Event.udelay (5 * tree4.num_online_cpus),
         Event.mutex_trylock false, Event.udelay (6 * tree4.num_online_cpus),
         Event.mutex_trylock false, Event.udelay (7 * tree4.num_online_cpus),
         Event.mutex_trylock false, Event.udelay (8 * tree4.num_online_cpus),
         Event.mutex_trylock false, Event.udelay (9 * tree4.num_online_cpus),
         Event.mutex_trylock false, Event.udelay (10 * tree4.num_online_cpus),
         Event.mutex_trylock false] }) ∧
    ∃ s' es, synchronize_rcu_expedited env_contended tree4 = some s' ∧
      s' = { tree4 with trace := tree4.trace ++ es } ∧
      Event.mutex_trylock true ∉ es ∧ Event.mutex_unlock ∉ es ∧
      Event.synchronize_sched_expedited ∉ es ∧
      s'.sync_rcu_preempt_exp_count = tree4.sync_rcu_preempt_exp_count :=
  ⟨fun _ _ => rfl, fun _ _ => (by decide : wrap_long ((0 : Int) - wrap_long (0 + 1)) ≤ 0),
    (synchronize_rcu_expedited_fallback env_contended tree4 (fun _ _ => rfl)
      (fun _ _ => (by decide : wrap_long ((0 : Int) - wrap_long (0 + 1)) ≤ 0))).2⟩

/-! ### C11 -/

theorem rcu_report_exp_rnp_trace (s s' : State) (rnp : Nat)
    (h : rcu_report_exp_rnp s rnp = some s') :
    ∃ es, s'.trace = s.trace ++ Event.local_irq_save :: Event.spin_lock rnp :: es := by
  simp only [rcu_report_exp_rnp] at h
  split at h
  · cases h
  · rename_i s₂ rnp₂ hl
    cases h
    obtain ⟨-, -, es, hes, -⟩ := rcu_report_exp_loop_exp_only _ _ _ _ hl
    refine ⟨es ++ [Event.spin_unlock rnp₂, Event.local_irq_restore], ?_⟩
    simp only [spin_unlock_irqrestore, log, spin_lock_irqsave] at hes ⊢
    rw [hes]
    simp

theorem exp_init_spliced_blocked (s : State) (rnp : Nat) :
    blocked (exp_init_spliced s rnp) rnp 0 = [] ∧
    blocked (exp_init_spliced s rnp) rnp 1 = [] ∧
    blocked (exp_init_spliced s rnp) rnp 2 = blocked s rnp 0 ++ blocked s rnp 2 ∧
    blocked (exp_init_spliced s rnp) rnp 3 = blocked s rnp 1 ++ blocked s rnp 3 ∧
    (∀ n i, n ≠ rnp → blocked (exp_init_spliced s rnp) n i = blocked s n i) ∧
    (exp_init_spliced s rnp).task = s.task ∧
    (exp_init_spliced s rnp).trace = s.trace ++ [Event.spin_lock rnp, Event.spin_unlock rnp] := by
  refine ⟨?_, ?_, ?_, ?_, ?_, rfl, ?_⟩
  · simp [exp_init_spliced, list_splice_init, set_node, log, blocked, Function.update]
  · simp [exp_init_spliced, list_splice_init, set_node, log, blocked, Function.update]
  · simp [exp_init_spliced, list_splice_init, set_node, log, blocked, Function.update]
  · simp [exp_init_spliced, list_splice_init, set_node, log, blocked, Function.update]
  · intro n i hn
    simp [exp_init_spliced, list_splice_init, set_node, log, blocked, Function.update_noteq hn]
  · simp [exp_init_spliced, list_splice_init, set_node, log]

theorem exp_only_blocked {s s' : State} (h : exp_only s s') (n i : Nat) :
    blocked s' n i = blocked s n i := by
  unfold blocked
  rw [h.2.1 n]

theorem exp_only_total_count {s s' : State} (h : exp_only s s') (t n : Nat) :
    total_count s' t n = total_count s t n := by
  apply total_count_congr
  rw [h.2.1 n]

/-- C11: on a tree, `sync_rcu_preempt_exp_init` returns; afterwards lists 0 and 1 of the node
are empty, list 2 holds the former entries of list 0 followed by its own, list 3 those of list
1 followed by its own, every task is queued on the node as often as before, and the other
nodes and the tasks are unchanged.  After the lock and unlock of the node, the events of the
call are those of `rcu_report_exp_rnp` on the node when lists 2 and 3 are both empty after the
move, and there are no further events otherwise. -/
theorem sync_rcu_preempt_exp_init_moves (s : State) (rnp : Nat)
    (htree : reaches_root s s.NUM_RCU_NODES rnp = true) :
    ∃ s' es, sync_rcu_preempt_exp_init s rnp = some s' ∧
      s'.trace = s.trace ++ [Event.spin_lock rnp, Event.spin_unlock rnp] ++ es ∧
      blocked s' rnp 0 = [] ∧ blocked s' rnp 1 = [] ∧
      blocked s' rnp 2 = blocked s rnp 0 ++ blocked s rnp 2 ∧
      blocked s' rnp 3 = blocked s rnp 1 ++ blocked s rnp 3 ∧
      (∀ t, total_count s' t rnp = total_count s t rnp) ∧
      (∀ n i, n ≠ rnp → blocked s' n i = blocked s n i) ∧
      s'.task = s.task ∧
      ((blocked s' rnp 2 = [] ∧ blocked s' rnp 3 = []) →
        rcu_report_exp_rnp (exp_init_spliced s rnp) rnp = some s' ∧
        ∃ es', es = Event.local_irq_save :: Event.spin_lock rnp :: es') ∧
      (¬ (blocked s' rnp 2 = [] ∧ blocked s' rnp 3 = []) →
        es = [] ∧ s' = exp_init_spliced s rnp) := by
  obtain ⟨h0, h1, h2, h3, hother, htask, htrace⟩ := exp_init_spliced_blocked s rnp
  have hempty : (rcu_preempted_readers_exp (exp_init_spliced s rnp) rnp = false) ↔
      (blocked (exp_init_spliced s rnp) rnp 2 = [] ∧
        blocked (exp_init_spliced s rnp) rnp 3 = []) := by
    simp [rcu_preempted_readers_exp, list_empty_eq_true_iff]
  by_cases hc : rcu_preempted_readers_exp (exp_init_spliced s rnp) rnp = false
  · obtain ⟨s', hs'⟩ := sync_rcu_preempt_exp_init_total s rnp htree
    have hcall : rcu_report_exp_rnp (exp_init_spliced s rnp) rnp = some s' := by
      rw [sync_rcu_preempt_exp_init_eq, hc] at hs'
      simpa using hs'
    have hx := rcu_report_exp_rnp_exp_only _ _ _ hcall
    obtain ⟨es, hes⟩ := rcu_report_exp_rnp_trace _ _ _ hcall
    have hb : ∀ n i, blocked s' n i = blocked (exp_init_spliced s rnp) n i :=
      fun n i => exp_only_blocked hx n i
    refine ⟨s', Event.local_irq_save :: Event.spin_lock rnp :: es, hs', ?_, ?_, ?_, ?_, ?_, ?_,
      ?_, ?_, ?_, ?_⟩
    · rw [hes, htrace]
    · rw [hb, h0]
    · rw [hb, h1]
    · rw [hb, h2]
    · rw [hb, h3]
    · intro t
      rw [exp_only_total_count hx, total_count_exp_init_spliced]
    · intro n i hn
      rw [hb, hother n i hn]
    · rw [exp_only_task hx, htask]
    · intro _
      exact ⟨hcall, es, rfl⟩
    · intro hne
      exfalso
      apply hne
      rw [hb, hb]
      exact hempty.mp hc
  · have hs' : sync_rcu_preempt_exp_init s rnp = some (exp_init_spliced s rnp) := by
      rw [sync_rcu_preempt_exp_init_eq]
      have : rcu_preempted_readers_exp (exp_init_spliced s rnp) rnp = true := by
        simpa using hc
      simp [this]
    refine ⟨_, [], hs', ?_, h0, h1, h2, h3, ?_, hother, htask, ?_, ?_⟩
    · rw [htrace]; simp
    · intro t
      exact total_count_exp_init_spliced s rnp t rnp
    · intro he
      exact absurd (hempty.mpr he) hc
    · intro _
      exact ⟨rfl, rfl⟩

/-- C11 on `tree4_two_blocked`, leaf 1: task 0 goes from list 0 to list 2 and task 1 from list
1 to list 3. -/
theorem sync_rcu_preempt_exp_init_moves_witness :
    reaches_root tree4_two_blocked tree4_two_blocked.NUM_RCU_NODES 1 = true ∧
    blocked tree4_two_blocked 1 0 = [0] ∧ blocked tree4_two_blocked 1 1 = [1] ∧
    ∃ s' es, sync_rcu_preempt_exp_init tree4_two_blocked 1 = some s' ∧
      s'.trace = tree4_two_blocked.trace ++ [Event.spin_lock 1, Event.spin_unlock 1] ++ es ∧
      blocked s' 1 0 = [] ∧ blocked s' 1 1 = [] ∧
      blocked s' 1 2 = blocked tree4_two_blocked 1 0 ++ blocked tree4_two_blocked 1 2 ∧
      blocked s' 1 3 = blocked tree4_two_blocked 1 1 ++ blocked tree4_two_blocked 1 3 ∧
      (∀ t, total_count s' t 1 = total_count tree4_two_blocked t 1) ∧
      (∀ n i, n ≠ 1 → blocked s' n i = blocked tree4_two_blocked n i) ∧
      s'.task = tree4_two_blocked.task ∧
      ((blocked s' 1 2 = [] ∧ blocked s' 1 3 = []) →
        rcu_report_exp_rnp (exp_init_spliced tree4_two_blocked 1) 1 = some s' ∧
        ∃ es', es = Event.local_irq_save :: Event.spin_lock 1 :: es') ∧
      (¬ (blocked s' 1 2 = [] ∧ blocked s' 1 3 = []) →
        es = [] ∧ s' = exp_init_spliced tree4_two_blocked 1) :=
  ⟨by decide, by decide, by decide,
    sync_rcu_preempt_exp_init_moves tree4_two_blocked 1 (by decide)⟩

/-! ### C12 -/

theorem rcu_preempted_readers_exp_eq_false_iff (s : State) (rnp : Nat) :
    rcu_preempted_readers_exp s rnp = false ↔ (blocked s rnp 2 = [] ∧ blocked s rnp 3 = []) := by
  simp [rcu_preempted_readers_exp, list_empty_eq_true_iff]

theorem rcu_preempted_readers_exp_eq_true_iff (s : State) (rnp : Nat) :
    rcu_preempted_readers_exp s rnp = true ↔ (blocked s rnp 2 ≠ [] ∨ blocked s rnp 3 ≠ []) := by
  simp [rcu_preempted_readers_exp, list_empty_eq_false_iff]

theorem unlock_reported_blocked (s : State) (t rnp n i : Nat) :
    blocked (unlock_reported s t rnp) n i = (blocked s n i).filter (fun x => x != t) := by
  obtain ⟨eu, hu, -, -⟩ := unlock_reported_spec s t rnp
  rw [← unlock_dequeued_blocked s t rnp n i]
  unfold blocked
  rw [hu]

/-- C12: in `rcu_read_unlock_special` for a task marked blocked (outside NMI and hard-IRQ
context, on a tree), after the statement that handles the normal grace period the events of
the call are those of `rcu_report_exp_rnp` on the task's node when `blocked_tasks[2]` and
`blocked_tasks[3]` of the node were not both empty before the task was removed and are both
empty afterwards; otherwise there are no further events.  The condition mentions the expedited
lists only, whatever was reported for the normal grace period. -/
theorem rcu_read_unlock_special_reports_exp (s : State) (t rnp : Nat)
    (hnmi : s.in_nmi = false) (hirq : s.in_irq = false) (hb : is_blocked s t)
    (hr : (s.task t).rcu_blocked_node = some rnp)
    (htree : reaches_root s s.NUM_RCU_NODES rnp = true) :
    ∃ s' es, rcu_read_unlock_special s t = some s' ∧
      s'.trace = (unlock_reported s t rnp).trace ++ es ∧
      (∀ i, blocked s' rnp i = (blocked s rnp i).filter (fun x => x != t)) ∧
      (((blocked s rnp 2 ≠ [] ∨ blocked s rnp 3 ≠ []) ∧
          blocked s' rnp 2 = [] ∧ blocked s' rnp 3 = []) →
        rcu_report_exp_rnp (unlock_reported s t rnp) rnp = some s' ∧
        ∃ es', es = Event.local_irq_save :: Event.spin_lock rnp :: es') ∧
      (¬ ((blocked s rnp 2 ≠ [] ∨ blocked s rnp 3 ≠ []) ∧
          blocked s' rnp 2 = [] ∧ blocked s' rnp 3 = []) →
        es = [] ∧ s' = unlock_reported s t rnp) := by
  obtain ⟨s', hs', hx⟩ := rcu_read_unlock_special_returns s t rnp hnmi hirq hb hr htree
  have hlist : ∀ i, blocked s' rnp i = (blocked s rnp i).filter (fun x => x != t) := by
    intro i
    rw [exp_only_blocked hx, unlock_reported_blocked]
  have hlu : ∀ i, blocked (unlock_reported s t rnp) rnp i = blocked s' rnp i := by
    intro i
    rw [exp_only_blocked hx]
  have hclosed := rcu_read_unlock_special_blocked s t rnp hnmi hirq hb hr
  rw [hs'] at hclosed
  by_cases hc : (blocked s rnp 2 ≠ [] ∨ blocked s rnp 3 ≠ []) ∧
      blocked s' rnp 2 = [] ∧ blocked s' rnp 3 = []
  · have h1 : rcu_preempted_readers_exp s rnp = true :=
      (rcu_preempted_readers_exp_eq_true_iff s rnp).mpr hc.1
    have h2 : rcu_preempted_readers_exp (unlock_reported s t rnp) rnp = false := by
      rw [rcu_preempted_readers_exp_eq_false_iff, hlu, hlu]
      exact hc.2
    have hcall : rcu_report_exp_rnp (unlock_reported s t rnp) rnp = some s' := by
      rw [h1, h2] at hclosed
      simpa using hclosed.symm
    obtain ⟨es, hes⟩ := rcu_report_exp_rnp_trace _ _ _ hcall
    refine ⟨s', Event.local_irq_save :: Event.spin_lock rnp :: es, hs', hes, hlist, ?_, ?_⟩
    · intro _
      exact ⟨hcall, es, rfl⟩
    · intro hne
      exact absurd hc hne
  · have hcond : ¬ ((!(!rcu_preempted_readers_exp s rnp) &&
        !rcu_preempted_readers_exp (unlock_reported s t rnp) rnp) = true) := by
      intro h
      apply hc
      simp only [Bool.not_not, Bool.and_eq_true, Bool.not_eq_true'] at h
      refine ⟨(rcu_preempted_readers_exp_eq_true_iff s rnp).mp h.1, ?_⟩
      have := (rcu_preempted_readers_exp_eq_false_iff _ rnp).mp h.2
      rw [hlu, hlu] at this
      exact this
    rw [if_neg hcond] at hclosed
    have heq : s' = unlock_reported s t rnp := by
      cases hclosed; rfl
    refine ⟨s', [], hs', ?_, hlist, ?_, ?_⟩
    · rw [heq]; simp
    · intro h
      exact absurd h hc
    · intro _
      exact ⟨rfl, heq⟩

/-- C12 on `tree4_exp_blocked`: task 0 is the only entry of the expedited lists of leaf 1. -/
theorem rcu_read_unlock_special_reports_exp_witness :
    tree4_exp_blocked.in_nmi = false ∧ tree4_exp_blocked.in_irq = false ∧
    is_blocked tree4_exp_blocked 0 ∧
    (tree4_exp_blocked.task 0).rcu_blocked_node = some 1 ∧
    reaches_root tree4_exp_blocked tree4_exp_blocked.NUM_RCU_NODES 1 = true ∧
    blocked tree4_exp_blocked 1 2 = [0] ∧ blocked tree4_exp_blocked 1 3 = [] ∧
    ∃ s' es, rcu_read_unlock_special tree4_exp_blocked 0 = some s' ∧
      s'.trace = (unlock_reported tree4_exp_blocked 0 1).trace ++ es ∧
      (∀ i, blocked s' 1 i = (blocked tree4_exp_blocked 1 i).filter (fun x => x != 0)) ∧
      (((blocked tree4_exp_blocked 1 2 ≠ [] ∨ blocked tree4_exp_blocked 1 3 ≠ []) ∧
          blocked s' 1 2 = [] ∧ blocked s' 1 3 = []) →
        rcu_report_exp_rnp (unlock_reported tree4_exp_blocked 0 1) 1 = some s' ∧
        ∃ es', es = Event.local_irq_save :: Event.spin_lock 1 :: es') ∧
      (¬ ((blocked tree4_exp_blocked 1 2 ≠ [] ∨ blocked tree4_exp_blocked 1 3 ≠ []) ∧
          blocked s' 1 2 = [] ∧ blocked s' 1 3 = []) →
        es = [] ∧ s' = unlock_reported tree4_exp_blocked 0 1) :=
  ⟨by decide, by decide, by unfold is_blocked; decide, by decide, by decide, by decide,
    by decide,
    rcu_read_unlock_special_reports_exp tree4_exp_blocked 0 1 (by decide) (by decide)
      (by unfold is_blocked; decide) (by decide) (by decide)⟩

/-! ### C16 -/

theorem exp_init_spliced_readers (s : State) (rnp n : Nat) :
    rcu_preempted_readers (exp_init_spliced s rnp) n = rcu_preempted_readers s n := by
  obtain ⟨h0, h1, h2, h3, hother, -, -⟩ := exp_init_spliced_blocked s rnp
  have hg : ((exp_init_spliced s rnp).node n).gpnum = (s.node n).gpnum := by
    by_cases hn : n = rnp
    · subst hn
      simp [exp_init_spliced, list_splice_init, set_node, log]
    · simp [exp_init_spliced, list_splice_init, set_node, log, Function.update_noteq hn]
  by_cases hn : n = rnp
  · subst hn
    have hp : ((s.node n).gpnum % 2).toNat = 0 ∨ ((s.node n).gpnum % 2).toNat = 1 := by omega
    rcases hp with hp | hp
    · simp only [rcu_preempted_readers, hg, hp, Nat.reduceAdd, h0, h2]
      cases blocked s n 0 <;> simp [list_empty]
    · simp only [rcu_preempted_readers, hg, hp, Nat.reduceAdd, h1, h3]
      cases blocked s n 1 <;> simp [list_empty]
  · simp only [rcu_preempted_readers, hg, hother n _ hn]

/-- C16: for every node `n` and every value of `gpnum`, `rcu_preempted_readers(n)` has the same
value before `sync_rcu_preempt_exp_init(rsp, rnp)`, right after its two `list_splice_init`
calls (list 0 into 2, list 1 into 3) and when the call returns, which it does on a tree. -/
theorem sync_rcu_preempt_exp_init_keeps_readers (s : State) (rnp : Nat)
    (htree : reaches_root s s.NUM_RCU_NODES rnp = true) :
    (∀ n, rcu_preempted_readers (list_splice_init (list_splice_init s rnp 0 2) rnp 1 3) n =
      rcu_preempted_readers s n) ∧
    ∃ s', sync_rcu_preempt_exp_init s rnp = some s' ∧
      ∀ n, rcu_preempted_readers s' n = rcu_preempted_readers s n := by
  constructor
  · intro n
    rw [← exp_init_spliced_readers s rnp n]
    apply rcu_preempted_readers_congr <;> rfl
  · obtain ⟨s', hs'⟩ := sync_rcu_preempt_exp_init_total s rnp htree
    refine ⟨s', hs', ?_⟩
    intro n
    rw [← exp_init_spliced_readers s rnp n]
    rw [sync_rcu_preempt_exp_init_eq] at hs'
    split at hs'
    · exact exp_only_readers (rcu_report_exp_rnp_exp_only _ _ _ hs') n
    · cases hs'; rfl

/-- C16 on `tree4_two_blocked`, leaf 1, whose current-phase list 0 holds task 0. -/
theorem sync_rcu_preempt_exp_init_keeps_readers_witness :
    reaches_root tree4_two_blocked tree4_two_blocked.NUM_RCU_NODES 1 = true ∧
    rcu_preempted_readers tree4_two_blocked 1 = true ∧
    (∀ n, rcu_preempted_readers
        (list_splice_init (list_splice_init tree4_two_blocked 1 0 2) 1 1 3) n =
      rcu_preempted_readers tree4_two_blocked n) ∧
    ∃ s', sync_rcu_preempt_exp_init tree4_two_blocked 1 = some s' ∧
      ∀ n, rcu_preempted_readers s' n = rcu_preempted_readers tree4_two_blocked n :=
  ⟨by decide, by decide,
    sync_rcu_preempt_exp_init_keeps_readers tree4_two_blocked 1 (by decide)⟩

/-! ### C14 -/

theorem wrap_long_of_range (x : Int) (h1 : -2 ^ 31 ≤ x) (h2 : x < 2 ^ 31) : wrap_long x = x := by
  unfold wrap_long
  omega

theorem with_nesting_self (s : State) (c : Int)
    (h : (s.task s.current).rcu_read_lock_nesting = c) : with_nesting s c = s := by
  subst h
  simp [with_nesting, set_task]

theorem with_nesting_twice (s : State) (a b : Int) :
    with_nesting (with_nesting s a) b = with_nesting s b := by
  simp [with_nesting, set_task]

theorem rcu_read_lock_with_nesting (s : State) (a : Int)
    (h1 : -2 ^ 31 ≤ a + 1) (h2 : a + 1 < 2 ^ 31) :
    __rcu_read_lock (with_nesting s a) = with_nesting s (a + 1) := by
  simp [__rcu_read_lock, with_nesting, set_task, wrap_long_of_range (a + 1) h1 h2]

theorem rcu_read_unlock_with_nesting (s : State) (a : Int)
    (h1 : -2 ^ 31 ≤ a - 1) (h2 : a - 1 < 2 ^ 31) :
    __rcu_read_unlock (with_nesting s a) =
      if a - 1 = 0 ∧ (s.task s.current).rcu_read_unlock_special ≠ 0 then
        rcu_read_unlock_special (with_nesting s (a - 1)) s.current
      else some (with_nesting s (a - 1)) := by
  simp [__rcu_read_unlock, with_nesting, set_task, wrap_long_of_range (a - 1) h1 h2]

theorem read_lock_times_with_nesting (s : State) :
    ∀ (k : Nat) (a : Int), -2 ^ 31 ≤ a → a + k < 2 ^ 31 →
      read_lock_times k (with_nesting s a) = with_nesting s (a + k) := by
  intro k
  induction k with
  | zero => intro a _ _; simp [read_lock_times]
  | succ k ih =>
    intro a h1 h2
    simp only [read_lock_times]
    rw [rcu_read_lock_with_nesting s a (by omega) (by push_cast at h2; omega),
      ih (a + 1) (by omega) (by push_cast at h2 ⊢; omega)]
    congr 1
    push_cast
    ring

theorem read_unlock_times_plain (s : State) :
    ∀ (k : Nat) (a : Int), 1 ≤ a → a + k < 2 ^ 31 →
      read_unlock_times k (with_nesting s (a + k)) = some (with_nesting s a) := by
  intro k
  induction k with
  | zero => intro a _ _; simp [read_unlock_times]
  | succ k ih =>
    intro a h1 h2
    simp only [read_unlock_times]
    rw [rcu_read_unlock_with_nesting s _ (by push_cast at h2 ⊢; omega)
      (by push_cast at h2 ⊢; omega)]
    have hne : ¬ (a + ((k + 1 : Nat) : Int) - 1 = 0 ∧
        (s.task s.current).rcu_read_unlock_special ≠ 0) := by
      intro h
      have := h.1
      push_cast at this
      omega
    rw [if_neg hne]
    have he : a + ((k + 1 : Nat) : Int) - 1 = a + (k : Int) := by push_cast; ring
    rw [he]
    exact ih a h1 (by push_cast at h2 ⊢; omega)

theorem read_unlock_times_succ (k : Nat) :
    ∀ s : State, read_unlock_times (k + 1) s = (read_unlock_times k s).bind __rcu_read_unlock := by
  induction k with
  | zero =>
    intro s
    simp [read_unlock_times]
  | succ k ih =>
    intro s
    show (__rcu_read_unlock s).bind (read_unlock_times (k + 1)) =
      ((__rcu_read_unlock s).bind (read_unlock_times k)).bind __rcu_read_unlock
    cases __rcu_read_unlock s with
    | none => rfl
    | some s₁ => exact ih s₁

theorem rcu_read_unlock_special_null (s : State) (t : Nat)
    (hnmi : s.in_nmi = false) (hirq : s.in_irq = false) (hb : is_blocked s t)
    (hr : (s.task t).rcu_blocked_node = none) :
    rcu_read_unlock_special s t = none := by
  have hb' : (s.task t).rcu_read_unlock_special &&& RCU_READ_UNLOCK_BLOCKED ≠ 0 := hb
  unfold rcu_read_unlock_special
  by_cases hq : (s.task t).rcu_read_unlock_special &&& RCU_READ_UNLOCK_NEED_QS = 0 <;>
    simp [hnmi, hirq, hb', hq, hr, log, set_task, rcu_preempt_qs]

theorem unlock_need_qs_nesting (s : State) (t t' : Nat) :
    ((unlock_need_qs s t).task t').rcu_read_lock_nesting =
      (s.task t').rcu_read_lock_nesting := by
  unfold unlock_need_qs
  by_cases hq : (s.task t).rcu_read_unlock_special &&& RCU_READ_UNLOCK_NEED_QS = 0
  · simp [hq, log]
  · by_cases ht : t' = t
    · subst ht
      simp [hq, log, set_task, rcu_preempt_qs]
    · simp [hq, log, set_task, rcu_preempt_qs, Function.update_noteq ht]

/-- The slow path leaves every nesting count alone. -/
theorem rcu_read_unlock_special_nesting (s : State) (t : Nat) (s' : State)
    (hs : rcu_read_unlock_special s t = some s') (t' : Nat) :
    (s'.task t').rcu_read_lock_nesting = (s.task t').rcu_read_lock_nesting := by
  by_cases hnmi : s.in_nmi = true
  · rw [rcu_read_unlock_special_nmi s t hnmi] at hs
    cases hs; rfl
  · have hnmi' : s.in_nmi = false := by simpa using hnmi
    by_cases hp : s.in_irq = true ∨ ¬ is_blocked s t
    · rw [rcu_read_unlock_special_plain s t hnmi' hp] at hs
      cases hs
      exact unlock_need_qs_nesting s t t'
    · have hirq : s.in_irq = false := by
        cases hx : s.in_irq
        · rfl
        · exact absurd (Or.inl hx) hp
      have hb : is_blocked s t := by
        by_contra hb; exact hp (Or.inr hb)
      cases hr : (s.task t).rcu_blocked_node with
      | none =>
        rw [rcu_read_unlock_special_null s t hnmi' hirq hb hr] at hs
        cases hs
      | some rnp =>
        rw [rcu_read_unlock_special_blocked s t rnp hnmi' hirq hb hr] at hs
        obtain ⟨eu, hu, -, -⟩ := unlock_reported_spec s t rnp
        have htask : s'.task = (unlock_dequeued s t rnp).task := by
          split at hs
          · rw [exp_only_task (rcu_report_exp_rnp_exp_only _ _ _ hs), hu]
          · cases hs; rw [hu]
        rw [htask]
        by_cases ht : t' = t
        · subst ht
          exact (unlock_dequeued_task_self s t' rnp).2.2
        · rw [unlock_dequeued_task_other s t rnp t' ht]

theorem read_lock_unlock_nested (s : State) (c : Int) (n : Nat)
    (hc : (s.task s.current).rcu_read_lock_nesting = c) (h0 : 1 ≤ c) (hov : c + n < 2 ^ 31) :
    read_unlock_times n (read_lock_times n s) = some s := by
  have hl := read_lock_times_with_nesting s n c (by omega) hov
  rw [with_nesting_self s c hc] at hl
  rw [hl, read_unlock_times_plain s n c h0 hov, with_nesting_self s c hc]

theorem read_lock_unlock_outermost (s : State) (n : Nat)
    (hc : (s.task s.current).rcu_read_lock_nesting = 0) (hn : 1 ≤ n)
    (hov : (0 : Int) + n < 2 ^ 31) :
    read_unlock_times n (read_lock_times n s) =
      if (s.task s.current).rcu_read_unlock_special ≠ 0 then
        rcu_read_unlock_special s s.current
      else some s := by
  have hl := read_lock_times_with_nesting s n 0 (by omega) hov
  rw [with_nesting_self s 0 hc] at hl
  rw [hl]
  obtain ⟨k, rfl⟩ : ∃ k, n = k + 1 := ⟨n - 1, by omega⟩
  rw [read_unlock_times_succ]
  have he : (0 : Int) + ((k + 1 : Nat) : Int) = 1 + (k : Int) := by push_cast; ring
  rw [he, read_unlock_times_plain s k 1 (by omega) (by rw [he] at hov; exact hov)]
  show __rcu_read_unlock (with_nesting s 1) = _
  rw [rcu_read_unlock_with_nesting s 1 (by omega) (by omega)]
  simp [with_nesting_self s 0 hc]

/-- C14: let the current task have nesting count `c ≥ 0` and let `n ≥ 1` with `c + n` below
`2 ^ 31`.  Each of `n` calls of `__rcu_read_lock` adds one to the count and changes nothing
else.  Of the `n` calls of `__rcu_read_unlock` that follow, every one that leaves the count
above zero only subtracts one.  When `c > 0` that is all of them and the state is back where it
was.  When `c = 0` the last call brings the count to zero and is `rcu_read_unlock_special` on
the original state if the special flags are non-zero, and nothing more if they are zero.
Whenever the calls return, the count is `c` again, and they return on well-formed states over
a tree.  In general an exit from count `a` subtracts one and then runs
`rcu_read_unlock_special` exactly when `a - 1 = 0` and the special flags are non-zero. -/
theorem read_lock_unlock_balanced (s : State) (c : Int) (n : Nat)
    (hc : (s.task s.current).rcu_read_lock_nesting = c) (h0 : 0 ≤ c) (hn : 1 ≤ n)
    (hov : c + n < 2 ^ 31) :
    (∀ k, k ≤ n → read_lock_times k s = with_nesting s (c + k)) ∧
    (∀ j, j < n → (0 < c ∨ j + 1 < n) →
      read_unlock_times (j + 1) (read_lock_times n s) =
        some (with_nesting s (c + n - (j + 1 : Nat)))) ∧
    (0 < c → read_unlock_times n (read_lock_times n s) = some s) ∧
    (c = 0 → read_unlock_times n (read_lock_times n s) =
      if (s.task s.current).rcu_read_unlock_special ≠ 0 then
        rcu_read_unlock_special s s.current
      else some s) ∧
    (∀ s', read_unlock_times n (read_lock_times n s) = some s' →
      (s'.task s.current).rcu_read_lock_nesting = c) ∧
    (well_formed s → (∀ rnp, reaches_root s s.NUM_RCU_NODES rnp = true) →
      ∃ s', read_unlock_times n (read_lock_times n s) = some s') ∧
    (∀ a : Int, -2 ^ 31 ≤ a - 1 → a - 1 < 2 ^ 31 →
      __rcu_read_unlock (with_nesting s a) =
        if a - 1 = 0 ∧ (s.task s.current).rcu_read_unlock_special ≠ 0 then
          rcu_read_unlock_special (with_nesting s (a - 1)) s.current
        else some (with_nesting s (a - 1))) := by
  have hlock : ∀ k, k ≤ n → read_lock_times k s = with_nesting s (c + k) := by
    intro k hk
    have := read_lock_times_with_nesting s k c (by omega)
      (by have : (k : Int) ≤ n := by exact_mod_cast hk
          omega)
    rw [with_nesting_self s c hc] at this
    exact this
  have hpos : 0 < c → read_unlock_times n (read_lock_times n s) = some s :=
    fun h => read_lock_unlock_nested s c n hc (by omega) hov
  have hzero : c = 0 → read_unlock_times n (read_lock_times n s) =
      if (s.task s.current).rcu_read_unlock_special ≠ 0 then
        rcu_read_unlock_special s s.current
      else some s := by
    intro h
    subst h
    exact read_lock_unlock_outermost s n hc hn hov
  refine ⟨hlock, ?_, hpos, hzero, ?_, ?_, fun a h1 h2 => rcu_read_unlock_with_nesting s a h1 h2⟩
  · intro j hj hcase
    rw [hlock n (le_refl n)]
    have hj' : ((j + 1 : Nat) : Int) ≤ n := by exact_mod_cast hj
    have ha : 1 ≤ c + n - (j + 1 : Nat) := by
      rcases hcase with h | h
      · omega
      · have : ((j + 1 : Nat) : Int) < n := by exact_mod_cast h
        omega
    have he : c + (n : Int) = (c + n - (j + 1 : Nat)) + ((j + 1 : Nat) : Int) := by ring
    have hplain := read_unlock_times_plain s (j + 1) _ ha (by rw [← he]; exact hov)
    rw [← he] at hplain
    exact hplain
  · intro s' hs'
    rcases lt_or_eq_of_le h0 with h | h
    · rw [hpos h] at hs'
      cases hs'
      exact hc
    · rw [hzero h.symm] at hs'
      split at hs'
      · rw [rcu_read_unlock_special_nesting s s.current s' hs' s.current]
        exact hc
      · cases hs'
        exact hc
  · intro hw htree
    rcases lt_or_eq_of_le h0 with h | h
    · exact ⟨s, hpos h⟩
    · rw [hzero h.symm]
      split
      · exact rcu_read_unlock_special_total s s.current hw htree
      · exact ⟨s, rfl⟩

/-- C14 on `tree4_blocked_next` with two nested critical sections: the current task 0 has
count 0 and the BLOCKED flag. -/
theorem read_lock_unlock_balanced_witness :
    (tree4_blocked_next.task tree4_blocked_next.current).rcu_read_lock_nesting = 0 ∧
    (0 : Int) ≤ 0 ∧ 1 ≤ 2 ∧ (0 : Int) + (2 : Nat) < 2 ^ 31 ∧
    (tree4_blocked_next.task tree4_blocked_next.current).rcu_read_unlock_special ≠ 0 ∧
    (∀ k, k ≤ 2 → read_lock_times k tree4_blocked_next =
      with_nesting tree4_blocked_next (0 + k)) ∧
    (∀ j, j < 2 → ((0 : Int) < 0 ∨ j + 1 < 2) →
      read_unlock_times (j + 1) (read_lock_times 2 tree4_blocked_next) =
        some (with_nesting tree4_blocked_next (0 + (2 : Nat) - (j + 1 : Nat)))) ∧
    ((0 : Int) < 0 →
      read_unlock_times 2 (read_lock_times 2 tree4_blocked_next) = some tree4_blocked_next) ∧
    ((0 : Int) = 0 → read_unlock_times 2 (read_lock_times 2 tree4_blocked_next) =
      if (tree4_blocked_next.task tree4_blocked_next.current).rcu_read_unlock_special ≠ 0 then
        rcu_read_unlock_special tree4_blocked_next tree4_blocked_next.current
      else some tree4_blocked_next) ∧
    (∀ s', read_unlock_times 2 (read_lock_times 2 tree4_blocked_next) = some s' →
      (s'.task tree4_blocked_next.current).rcu_read_lock_nesting = 0) ∧
    (well_formed tree4_blocked_next →
      (∀ rnp, reaches_root tree4_blocked_next tree4_blocked_next.NUM_RCU_NODES rnp = true) →
      ∃ s', read_unlock_times 2 (read_lock_times 2 tree4_blocked_next) = some s') ∧
    (∀ a : Int, -2 ^ 31 ≤ a - 1 → a - 1 < 2 ^ 31 →
      __rcu_read_unlock (with_nesting tree4_blocked_next a) =
        if a - 1 = 0 ∧
            (tree4_blocked_next.task tree4_blocked_next.current).rcu_read_unlock_special ≠ 0 then
          rcu_read_unlock_special (with_nesting tree4_blocked_next (a - 1))
            tree4_blocked_next.current
        else some (with_nesting tree4_blocked_next (a - 1))) :=
  ⟨by decide, le_refl 0, by decide, by norm_num, by decide,
    read_lock_unlock_balanced tree4_blocked_next 0 2 (by decide) (le_refl 0) (by decide)
      (by norm_num)⟩

/-! ### C17 -/

theorem delays_append (es₁ es₂ : List Event) : delays (es₁ ++ es₂) = delays es₁ ++ delays es₂ := by
  induction es₁ with
  | nil => rfl
  | cons e es ih => cases e <;> simp [delays, ih]

theorem synchronize_rcu_delays (s : State) :
    ∃ es, (synchronize_rcu s).trace = s.trace ++ es ∧ delays es = [] := by
  unfold synchronize_rcu
  by_cases h : s.rcu_scheduler_active = true
  · exact ⟨[Event.init_completion, Event.call_rcu, Event.wait_for_completion],
      by simp [h, log], rfl⟩
  · have h' : (!s.rcu_scheduler_active) = true := by simpa using h
    exact ⟨[], by rw [if_pos h', List.append_nil], rfl⟩

/-- From `trycount = k ≤ 10` on, the `j`-th delay of the loop is `(k + j) * num_online_cpus()`
microseconds, and there are at most `10 - k` delays. -/
theorem exp_trylock_loop_delays_from (env : Env) (snap : Int) :
    ∀ (m k : Nat) (s : State), k + m = 10 →
      ∃ es j, (exp_trylock_loop env snap s k).2.trace = s.trace ++ es ∧ j ≤ m ∧
        delays es = (List.range j).map (fun i => (k + i + 1) * s.num_online_cpus) := by
  intro m
  induction m with
  | zero =>
    intro k s hk
    cases ht : env.mutex_trylock k with
    | true =>
      rw [exp_trylock_loop_acquired env snap s k ht]
      exact ⟨[Event.mutex_trylock true], 0, rfl, le_refl 0, rfl⟩
    | false =>
      rw [exp_trylock_loop_fallback env snap s k ht (by omega)]
      obtain ⟨es, hes, hd⟩ := synchronize_rcu_delays (log s [Event.mutex_trylock false])
      refine ⟨Event.mutex_trylock false :: es, 0, ?_, le_refl 0, ?_⟩
      · simp only [hes]; simp [log]
      · simp [delays, hd]
  | succ m ih =>
    intro k s hk
    cases ht : env.mutex_trylock k with
    | true =>
      rw [exp_trylock_loop_acquired env snap s k ht]
      exact ⟨[Event.mutex_trylock true], 0, rfl, Nat.zero_le _, rfl⟩
    | false =>
      by_cases hc : wrap_long (env.exp_count k - snap) > 0
      · rw [exp_trylock_loop_mb_ret env snap s k ht (by omega) hc]
        exact ⟨_, 1, rfl, by omega, by simp [delays, List.range_succ]⟩
      · rw [exp_trylock_loop_retry env snap s k ht (by omega) (by omega)]
        obtain ⟨es, j, hes, hj, hd⟩ := ih (k + 1)
          (log s [Event.mutex_trylock false, Event.udelay ((k + 1) * s.num_online_cpus)])
          (by omega)
        refine ⟨[Event.mutex_trylock false, Event.udelay ((k + 1) * s.num_online_cpus)] ++ es,
          j + 1, ?_, by omega, ?_⟩
        · rw [hes]; simp [log]
        · rw [delays_append, hd]
          simp only [delays, log, List.range_succ_eq_map, List.map_cons, List.map_map,
            List.cons_append, List.nil_append, Nat.add_zero]
          congr 1
          apply List.map_congr_left
          intro i _
          simp only [Function.comp]
          congr 1
          omega

theorem spin_events_succ (n k m : Nat) :
    (List.range (m + 1)).flatMap (fun i =>
        [Event.mutex_trylock false, Event.udelay ((k + i + 1) * n)]) =
      Event.mutex_trylock false :: Event.udelay ((k + 1) * n) ::
        (List.range m).flatMap (fun i =>
          [Event.mutex_trylock false, Event.udelay ((k + 1 + i + 1) * n)]) := by
  rw [List.range_succ_eq_map, List.flatMap_cons, List.flatMap_map]
  have hf : (fun a => [Event.mutex_trylock false, Event.udelay ((k + Nat.succ a + 1) * n)]) =
      (fun i => [Event.mutex_trylock false, Event.udelay ((k + 1 + i + 1) * n)]) := by
    funext a
    have : k + Nat.succ a + 1 = k + 1 + a + 1 := by omega
    rw [this]
  rw [hf]
  rfl

theorem spin_events_delays (n : Nat) :
    ∀ (m : Nat) (k : Nat), delays ((List.range m).flatMap (fun i =>
        [Event.mutex_trylock false, Event.udelay ((k + i + 1) * n)])) =
      (List.range m).map (fun i => (k + i + 1) * n) := by
  intro m
  induction m with
  | zero => intro k; rfl
  | succ m ih =>
    intro k
    rw [spin_events_succ, List.range_succ_eq_map, List.map_cons, List.map_map]
    simp only [delays, ih (k + 1)]
    congr 1
    apply List.map_congr_left
    intro i _
    simp only [Function.comp]
    congr 1
    omega

theorem synchronize_rcu_events (s : State) :
    (synchronize_rcu s).trace = s.trace ++
      (if s.rcu_scheduler_active then
        [Event.init_completion, Event.call_rcu, Event.wait_for_completion] else []) := by
  unfold synchronize_rcu
  cases s.rcu_scheduler_active <;> simp [log]

/-- From `trycount = k ≤ 10` the loop makes `m` failed attempts each followed by its delay, the
`i`-th of them `(k + i) * num_online_cpus()` microseconds, and then leaves in one of its three
ways; `m` and the way out are fixed by what the other contexts do. -/
theorem exp_trylock_loop_spin (env : Env) (snap : Int) :
    ∀ (j k : Nat) (s : State), k + j = 10 →
      ∃ m tail, k + m ≤ 10 ∧
        (exp_trylock_loop env snap s k).2.trace =
          s.trace ++ (List.range m).flatMap (fun i =>
            [Event.mutex_trylock false, Event.udelay ((k + i + 1) * s.num_online_cpus)]) ++
            tail ∧
        (∀ i, i < m → env.mutex_trylock (k + i) = false) ∧
        (∀ i, i + 1 < m → wrap_long (env.exp_count (k + i) - snap) ≤ 0) ∧
        (((exp_trylock_loop env snap s k).1 = LoopExit.acquired (k + m) ∧
            env.mutex_trylock (k + m) = true ∧
            (∀ i, i < m → wrap_long (env.exp_count (k + i) - snap) ≤ 0) ∧
            tail = [Event.mutex_trylock true]) ∨
         ((exp_trylock_loop env snap s k).1 = LoopExit.mb_ret ∧
            (∃ i, m = i + 1 ∧ wrap_long (env.exp_count (k + i) - snap) > 0) ∧
            tail = []) ∨
         ((exp_trylock_loop env snap s k).1 = LoopExit.fallback ∧ k + m = 10 ∧
            env.mutex_trylock 10 = false ∧
            (∀ i, i < m → wrap_long (env.exp_count (k + i) - snap) ≤ 0) ∧
            tail = Event.mutex_trylock false ::
              (if s.rcu_scheduler_active then
                [Event.init_completion, Event.call_rcu, Event.wait_for_completion]
              else []))) := by
  have hacq : ∀ (k : Nat) (s : State), k ≤ 10 → env.mutex_trylock k = true →
      ∃ m tail, k + m ≤ 10 ∧
        (exp_trylock_loop env snap s k).2.trace =
          s.trace ++ (List.range m).flatMap (fun i =>
            [Event.mutex_trylock false, Event.udelay ((k + i + 1) * s.num_online_cpus)]) ++
            tail ∧
        (∀ i, i < m → env.mutex_trylock (k + i) = false) ∧
        (∀ i, i + 1 < m → wrap_long (env.exp_count (k + i) - snap) ≤ 0) ∧
        (((exp_trylock_loop env snap s k).1 = LoopExit.acquired (k + m) ∧
            env.mutex_trylock (k + m) = true ∧
            (∀ i, i < m → wrap_long (env.exp_count (k + i) - snap) ≤ 0) ∧
            tail = [Event.mutex_trylock true]) ∨
         ((exp_trylock_loop env snap s k).1 = LoopExit.mb_ret ∧
            (∃ i, m = i + 1 ∧ wrap_long (env.exp_count (k + i) - snap) > 0) ∧
            tail = []) ∨
         ((exp_trylock_loop env snap s k).1 = LoopExit.fallback ∧ k + m = 10 ∧
            env.mutex_trylock 10 = false ∧
            (∀ i, i < m → wrap_long (env.exp_count (k + i) - snap) ≤ 0) ∧
            tail = Event.mutex_trylock false ::
              (if s.rcu_scheduler_active then
                [Event.init_completion, Event.call_rcu, Event.wait_for_completion]
              else []))) := by
    intro k s hk ht
    rw [exp_trylock_loop_acquired env snap s k ht]
    refine ⟨0, [Event.mutex_trylock true], by omega, by simp [log], ?_, ?_, Or.inl ⟨rfl, ht, ?_, rfl⟩⟩
    · intro i hi; omega
    · intro i hi; omega
    · intro i hi; omega
  intro j
  induction j with
  | zero =>
    intro k s hk
    cases ht : env.mutex_trylock k with
    | true => exact hacq k s (by omega) ht
    | false =>
      have hk10 : k = 10 := by omega
      rw [exp_trylock_loop_fallback env snap s k ht (by omega)]
      refine ⟨0, Event.mutex_trylock false ::
          (if s.rcu_scheduler_active then
            [Event.init_completion, Event.call_rcu, Event.wait_for_completion]
          else []), by omega, ?_, ?_, ?_, Or.inr (Or.inr ⟨rfl, by omega, ?_, ?_, rfl⟩)⟩
      · rw [synchronize_rcu_events]
        simp [log]
      · intro i hi; omega
      · intro i hi; omega
      · rw [← hk10]; exact ht
      · intro i hi; omega
  | succ j ih =>
    intro k s hk
    cases ht : env.mutex_trylock k with
    | true => exact hacq k s (by omega) ht
    | false =>
      by_cases hc : wrap_long (env.exp_count k - snap) > 0
      · rw [exp_trylock_loop_mb_ret env snap s k ht (by omega) hc]
        refine ⟨1, [], by omega, ?_, ?_, ?_, Or.inr (Or.inl ⟨rfl, ⟨0, rfl, hc⟩, rfl⟩)⟩
        · simp [log, List.range_succ]
        · intro i hi
          have : i = 0 := by omega
          subst this
          exact ht
        · intro i hi; omega
      · have hc' : wrap_long (env.exp_count k - snap) ≤ 0 := by omega
        rw [exp_trylock_loop_retry env snap s k ht (by omega) hc']
        obtain ⟨m, tail, hm, htr, hfail, hcnt, hexit⟩ := ih (k + 1)
          (log s [Event.mutex_trylock false, Event.udelay ((k + 1) * s.num_online_cpus)])
          (by omega)
        have hshift : ∀ (P : Nat → Prop), (∀ i, i < m → P (k + 1 + i)) → P k →
            ∀ i, i < m + 1 → P (k + i) := by
          intro P h h0 i hi
          cases i with
          | zero => exact h0
          | succ i =>
            have e : k + (i + 1) = k + 1 + i := by omega
            rw [e]
            exact h i (by omega)
        refine ⟨m + 1, tail, by omega, ?_, ?_, ?_, ?_⟩
        · rw [htr, spin_events_succ]
          simp [log]
        · exact hshift (fun x => env.mutex_trylock x = false) hfail ht
        · intro i hi
          cases i with
          | zero => exact hc'
          | succ i =>
            have e : k + (i + 1) = k + 1 + i := by omega
            rw [e]
            exact hcnt i (by omega)
        · have e : k + (m + 1) = k + 1 + m := by omega
          rcases hexit with ⟨h1, h2, h3, h4⟩ | ⟨h1, ⟨i, h2, h3⟩, h4⟩ | ⟨h1, h2, h3, h4, h5⟩
          · refine Or.inl ⟨?_, ?_, ?_, h4⟩
            · rw [e]; exact h1
            · rw [e]; exact h2
            · exact hshift (fun x => wrap_long (env.exp_count x - snap) ≤ 0) h3 hc'
          · refine Or.inr (Or.inl ⟨h1, ⟨i + 1, by omega, ?_⟩, h4⟩)
            have e' : k + (i + 1) = k + 1 + i := by omega
            rw [e']; exact h3
          · refine Or.inr (Or.inr ⟨h1, by omega, h3, ?_, h5⟩)
            exact hshift (fun x => wrap_long (env.exp_count x - snap) ≤ 0) h4 hc'

/-- C17, amended: while `synchronize_rcu_expedited` spins on the contended mutex its backoff is
linear, whatever the other contexts do.  The events of the loop are `m ≤ 10` failed attempts
on the mutex, the `i`-th of them (`i = 1, 2, ...`) followed at once by a delay of
`i * num_online_cpus()` microseconds, and then the way out: the successful attempt, nothing
(the counter read after the last delay is past the snapshot), or the eleventh failed attempt
and `synchronize_rcu`.  As long as the attempts fail and the counter is not past the snapshot
the caller goes on spinning, up to the tenth delay.  So the delays are exactly
`num_online_cpus(), 2 * num_online_cpus(), ...`, each the one before it plus
`num_online_cpus()`. -/
theorem exp_trylock_loop_backoff_linear (env : Env) (snap : Int) (s : State) :
    ∃ m tail es,
      m ≤ 10 ∧
      es = (List.range m).flatMap (fun i =>
        [Event.mutex_trylock false, Event.udelay ((i + 1) * s.num_online_cpus)]) ++ tail ∧
      (exp_trylock_loop env snap s 0).2.trace = s.trace ++ es ∧
      (∀ i, i < m → env.mutex_trylock i = false) ∧
      (∀ i, i + 1 < m → wrap_long (env.exp_count i - snap) ≤ 0) ∧
      (((exp_trylock_loop env snap s 0).1 = LoopExit.acquired m ∧
          env.mutex_trylock m = true ∧
          (∀ i, i < m → wrap_long (env.exp_count i - snap) ≤ 0) ∧
          tail = [Event.mutex_trylock true]) ∨
       ((exp_trylock_loop env snap s 0).1 = LoopExit.mb_ret ∧
          (∃ i, m = i + 1 ∧ wrap_long (env.exp_count i - snap) > 0) ∧
          tail = []) ∨
       ((exp_trylock_loop env snap s 0).1 = LoopExit.fallback ∧ m = 10 ∧
          env.mutex_trylock 10 = false ∧
          (∀ i, i < m → wrap_long (env.exp_count i - snap) ≤ 0) ∧
          tail = Event.mutex_trylock false ::
            (if s.rcu_scheduler_active then
              [Event.init_completion, Event.call_rcu, Event.wait_for_completion]
            else []))) ∧
      (∀ i, i < 10 → (∀ j, j ≤ i → env.mutex_trylock j = false) →
        (∀ j, j < i → wrap_long (env.exp_count j - snap) ≤ 0) → i < m) ∧
      delays es = (List.range m).map (fun i => (i + 1) * s.num_online_cpus) ∧
      (∀ i, i + 1 < m →
        (delays es)[i + 1]? = ((delays es)[i]?).map (fun d => d + s.num_online_cpus)) := by
  obtain ⟨m, tail, hm, htr, hfail, hcnt, hexit⟩ := exp_trylock_loop_spin env snap 10 0 s (by omega)
  simp only [Nat.zero_add] at hm htr hfail hcnt hexit
  have htail : delays tail = [] := by
    rcases hexit with ⟨-, -, -, h⟩ | ⟨-, -, h⟩ | ⟨-, -, -, -, h⟩
    · rw [h]; rfl
    · rw [h]; rfl
    · rw [h]
      cases s.rcu_scheduler_active <;> rfl
  have hd : delays ((List.range m).flatMap (fun i =>
      [Event.mutex_trylock false, Event.udelay ((i + 1) * s.num_online_cpus)]) ++ tail) =
      (List.range m).map (fun i => (i + 1) * s.num_online_cpus) := by
    have h := spin_events_delays s.num_online_cpus m 0
    simp only [Nat.zero_add] at h
    rw [delays_append, htail, List.append_nil, h]
  refine ⟨m, tail, _, hm, rfl, ?_, hfail, hcnt, hexit, ?_, hd, ?_⟩
  · rw [htr, List.append_assoc]
  · intro i hi hf hc
    by_contra hlt
    have hle : m ≤ i := by omega
    rcases hexit with ⟨-, h, -, -⟩ | ⟨-, ⟨i', h1, h2⟩, -⟩ | ⟨-, h, -, -, -⟩
    · rw [hf m hle] at h
      cases h
    · have := hc i' (by omega)
      omega
    · omega
  · intro i hi
    rw [hd]
    simp only [List.getElem?_map, List.getElem?_range hi,
      List.getElem?_range (show i < m by omega), Option.map_some']
    congr 1
    ring

theorem exp_trylock_loop_contended (env : Env) (snap : Int) (s : State)
    (hfail : ∀ k, k ≤ 10 → env.mutex_trylock k = false)
    (hcnt : ∀ k, k < 10 → wrap_long (env.exp_count k - snap) ≤ 0) :
    exp_trylock_loop env snap s 0 =
      (LoopExit.fallback, synchronize_rcu { s with trace := s.trace ++
        [Event.mutex_trylock false, Event.udelay (1 * s.num_online_cpus),
         Event.mutex_trylock false, Event.udelay (2 * s.num_online_cpus),
         Event.mutex_trylock false, Event.udelay (3 * s.num_online_cpus),
         Event.mutex_trylock false, Event.udelay (4 * s.num_online_cpus),
         Event.mutex_trylock false, Event.udelay (5 * s.num_online_cpus),
         Event.mutex_trylock false, Event.udelay (6 * s.num_online_cpus),
         Event.mutex_trylock false, Event.udelay (7 * s.num_online_cpus),
         Event.mutex_trylock false, Event.udelay (8 * s.num_online_cpus),
         Event.mutex_trylock false, Event.udelay (9 * s.num_online_cpus),
         Event.mutex_trylock false, Event.udelay (10 * s.num_online_cpus),
         Event.mutex_trylock false] }) := by
  rw [exp_trylock_loop_retry env _ _ 0 (hfail 0 (by omega)) (by omega) (hcnt 0 (by omega)),
    exp_trylock_loop_retry env _ _ 1 (hfail 1 (by omega)) (by omega) (hcnt 1 (by omega)),
    exp_trylock_loop_retry env _ _ 2 (hfail 2 (by omega)) (by omega) (hcnt 2 (by omega)),
    exp_trylock_loop_retry env _ _ 3 (hfail 3 (by omega)) (by omega) (hcnt 3 (by omega)),
    exp_trylock_loop_retry env _ _ 4 (hfail 4 (by omega)) (by omega) (hcnt 4 (by omega)),
    exp_trylock_loop_retry env _ _ 5 (hfail 5 (by omega)) (by omega) (hcnt 5 (by omega)),
    exp_trylock_loop_retry env _ _ 6 (hfail 6 (by omega)) (by omega) (hcnt 6 (by omega)),
    exp_trylock_loop_retry env _ _ 7 (hfail 7 (by omega)) (by omega) (hcnt 7 (by omega)),
    exp_trylock_loop_retry env _ _ 8 (hfail 8 (by omega)) (by omega) (hcnt 8 (by omega)),
    exp_trylock_loop_retry env _ _ 9 (hfail 9 (by omega)) (by omega) (hcnt 9 (by omega)),
    exp_trylock_loop_fallback env _ _ 10 (hfail 10 (by omega)) (by omega)]
  simp [log]

/-- C17 as stated fails on `tree4` (4 CPUs online) with `env_contended`: the delays of the
call are 4, 8, 12, ..., 40 microseconds, so it is not the case that every delay is at least
twice the one before it: the delay after the third failed attempt, 12, is less than twice the
delay after the second, 8. -/
theorem synchronize_rcu_expedited_backoff_counterexample :
    (synchronize_rcu_expedited env_contended tree4).map (fun s' => delays s'.trace) =
      some [4, 8, 12, 16, 20, 24, 28, 32, 36, 40] ∧
    ¬ (∀ s', synchronize_rcu_expedited env_contended tree4 = some s' →
        ∀ i d d', (delays s'.trace)[i]? = some d → (delays s'.trace)[i + 1]? = some d' →
          2 * d ≤ d') := by
  have h : (synchronize_rcu_expedited env_contended tree4).map (fun s' => delays s'.trace) =
      some [4, 8, 12, 16, 20, 24, 28, 32, 36, 40] := by
    simp only [synchronize_rcu_expedited]
    rw [exp_trylock_loop_contended env_contended
      (wrap_long (tree4.sync_rcu_preempt_exp_count + 1)) tree4 (fun _ _ => rfl)
      (fun _ _ => (by decide : wrap_long ((0 : Int) - wrap_long (0 + 1)) ≤ 0))]
    decide
  refine ⟨h, ?_⟩
  intro hall
  obtain ⟨s', hs', hd⟩ := Option.map_eq_some'.mp h
  have hd' : delays s'.trace = [4, 8, 12, 16, 20, 24, 28, 32, 36, 40] := hd
  have h12 := hall s' hs' 1 8 12 (by rw [hd']; rfl) (by rw [hd']; rfl)
  omega

/-! ### Parent chains -/

theorem lnot_testBit (m i : Nat) (hi : i < 32) : (lnot m).testBit i = !m.testBit i := by
  have h : ULONG_MAX = 2 ^ 32 - 1 := rfl
  unfold lnot
  rw [h, Nat.testBit_xor, Nat.testBit_two_pow_sub_one]
  simp [hi]

theorem and_lnot_and_self (e m : Nat) : (e &&& lnot m) &&& e = e &&& lnot m := by
  rw [Nat.and_comm (e &&& lnot m) e, ← Nat.and_assoc, Nat.and_self]

theorem ancestors_congr (s s' : State) (h : ∀ n, (s'.node n).parent = (s.node n).parent) :
    ∀ (fuel rnp : Nat), ancestors s' fuel rnp = ancestors s fuel rnp := by
  intro fuel
  induction fuel with
  | zero => intro rnp; rfl
  | succ fuel ih =>
    intro rnp
    simp only [ancestors, h rnp]
    cases (s.node rnp).parent with
    | none => rfl
    | some p => simp only [ih p]

/-- More fuel changes neither the verdict nor the chain once the root is reached. -/
theorem reaches_root_succ (s : State) :
    ∀ (fuel rnp : Nat), reaches_root s fuel rnp = true →
      reaches_root s (fuel + 1) rnp = true ∧ ancestors s (fuel + 1) rnp = ancestors s fuel rnp := by
  intro fuel
  induction fuel with
  | zero => intro rnp h; simp [reaches_root] at h
  | succ fuel ih =>
    intro rnp h
    cases hp : (s.node rnp).parent with
    | none =>
      constructor
      · simp [reaches_root, hp]
      · simp [ancestors, hp]
    | some p =>
      have hp' : reaches_root s fuel p = true := by
        simpa [reaches_root, hp] using h
      obtain ⟨h1, h2⟩ := ih p hp'
      constructor
      · rw [reaches_root, hp]; exact h1
      · rw [ancestors, hp]
        simp only
        rw [h2]
        simp [ancestors, hp]

/-- Every node of a chain that ends at the root has a chain that ends at the root and is no
longer. -/
theorem ancestors_mem (s : State) :
    ∀ (fuel rnp : Nat), reaches_root s fuel rnp = true → ∀ x ∈ ancestors s fuel rnp,
      reaches_root s fuel x = true ∧
        (ancestors s fuel x).length ≤ (ancestors s fuel rnp).length := by
  intro fuel
  induction fuel with
  | zero => intro rnp h; simp [reaches_root] at h
  | succ fuel ih =>
    intro rnp h x hx
    cases hp : (s.node rnp).parent with
    | none =>
      simp only [ancestors, hp, List.mem_singleton] at hx
      subst hx
      exact ⟨h, le_refl _⟩
    | some p =>
      have hp' : reaches_root s fuel p = true := by
        simpa [reaches_root, hp] using h
      simp only [ancestors, hp, List.mem_cons] at hx
      rcases hx with hx | hx
      · subst hx
        exact ⟨h, le_refl _⟩
      · obtain ⟨h1, h2⟩ := ih p hp' x hx
        obtain ⟨h3, h4⟩ := reaches_root_succ s fuel x h1
        refine ⟨h3, ?_⟩
        rw [h4]
        simp only [ancestors, hp, List.length_cons]
        omega

/-- On a chain that ends at the root, the chain of the parent is shorter. -/
theorem ancestors_parent (s : State) (fuel c q : Nat) (h : reaches_root s fuel c = true)
    (hq : (s.node c).parent = some q) :
    (ancestors s fuel q).length < (ancestors s fuel c).length := by
  cases fuel with
  | zero => simp [reaches_root] at h
  | succ fuel =>
    have hq' : reaches_root s fuel q = true := by
      simpa [reaches_root, hq] using h
    obtain ⟨-, h2⟩ := reaches_root_succ s fuel q hq'
    rw [h2]
    simp [ancestors, hq]

/-- On a chain that ends at the root, no node has the start of the chain as its parent. -/
theorem ancestors_parent_ne (s : State) (fuel rnp c : Nat)
    (h : reaches_root s fuel rnp = true) (hc : c ∈ ancestors s fuel rnp) :
    (s.node c).parent ≠ some rnp := by
  intro hq
  obtain ⟨h1, h2⟩ := ancestors_mem s fuel rnp h c hc
  have := ancestors_parent s fuel c rnp h1 hq
  omega

/-! ### The walk of `rcu_report_exp_rnp` -/

theorem exp_cleared_intro (s s' : State) (c p : Nat)
    (h : (s'.node p).expmask = (s.node p).expmask &&& lnot (s.node c).grpmask) :
    exp_cleared s s' c p :=
  ⟨h, fun i hi => by rw [h, Nat.testBit_and, lnot_testBit _ _ hi]⟩

theorem rcu_report_exp_loop_expmask :
    ∀ (fuel : Nat) (s : State) (rnp : Nat) (r : State × Nat),
      rcu_report_exp_loop fuel s rnp = some r →
      ∀ n, (r.1.node n).expmask &&& (s.node n).expmask = (r.1.node n).expmask := by
  intro fuel
  induction fuel with
  | zero => intro s rnp r h; simp [rcu_report_exp_loop] at h
  | succ fuel ih =>
    intro s rnp r h n
    unfold rcu_report_exp_loop at h
    split at h
    · cases h; exact Nat.and_self _
    · split at h
      · cases h; exact Nat.and_self _
      · rename_i rnp_p _
        have h1 := ih _ _ _ h n
        by_cases hn : n = rnp_p
        · subst hn
          simp only [set_node, log, Function.update_same] at h1
          rw [← h1, Nat.and_assoc, and_lnot_and_self]
        · simp only [set_node, log, Function.update_noteq hn] at h1
          exact h1

theorem sync_rcu_preempt_exp_done_mono {s s' : State} (hx : exp_only s s')
    (hle : ∀ n, (s'.node n).expmask &&& (s.node n).expmask = (s'.node n).expmask) (n : Nat)
    (hd : sync_rcu_preempt_exp_done s n = true) : sync_rcu_preempt_exp_done s' n = true := by
  simp only [sync_rcu_preempt_exp_done, Bool.and_eq_true, Bool.not_eq_true',
    decide_eq_true_eq] at hd ⊢
  obtain ⟨h1, h2⟩ := hd
  constructor
  · rw [rcu_preempted_readers_exp_congr s s' n (by rw [hx.2.1 n])]
    exact h1
  · have := hle n
    rw [h2] at this
    rw [← this]
    simp

theorem rcu_report_exp_loop_stop (fuel : Nat) (s : State) (rnp : Nat)
    (h : sync_rcu_preempt_exp_done s rnp = false) :
    rcu_report_exp_loop (fuel + 1) s rnp = some (s, rnp) := by
  simp [rcu_report_exp_loop, h]

theorem rcu_report_exp_loop_root (fuel : Nat) (s : State) (rnp : Nat)
    (h : sync_rcu_preempt_exp_done s rnp = true) (hp : (s.node rnp).parent = none) :
    rcu_report_exp_loop (fuel + 1) s rnp = some (log s [Event.wake_up], rnp) := by
  simp [rcu_report_exp_loop, h, hp]

theorem rcu_report_exp_loop_up (fuel : Nat) (s : State) (rnp p : Nat)
    (h : sync_rcu_preempt_exp_done s rnp = true) (hp : (s.node rnp).parent = some p) :
    rcu_report_exp_loop (fuel + 1) s rnp =
      rcu_report_exp_loop fuel
        (set_node (log (log s [Event.spin_unlock rnp]) [Event.spin_lock p]) p
          (fun n => { n with expmask := n.expmask &&& lnot (s.node rnp).grpmask })) p := by
  simp [rcu_report_exp_loop, h, hp]

theorem rcu_report_exp_loop_walk :
    ∀ (fuel : Nat) (s : State) (rnp : Nat), reaches_root s fuel rnp = true →
      ∃ s' es passed stop above,
        rcu_report_exp_loop fuel s rnp = some (s', stop) ∧
        s'.trace = s.trace ++ es ∧
        ancestors s fuel rnp = passed ++ stop :: above ∧
        (∀ c ∈ passed, sync_rcu_preempt_exp_done s' c = true) ∧
        (above ≠ [] → sync_rcu_preempt_exp_done s' stop = false) ∧
        (∀ c ∈ passed, ∀ p, (s.node c).parent = some p → exp_cleared s s' c p) ∧
        (∀ n, (∀ c ∈ passed, (s.node c).parent ≠ some n) →
          (s'.node n).expmask = (s.node n).expmask) ∧
        (Event.wake_up ∈ es ↔ (above = [] ∧ sync_rcu_preempt_exp_done s' stop = true)) ∧
        (∀ e ∈ es, e ≠ Event.local_irq_save ∧ e ≠ Event.local_irq_restore) ∧
        (sync_rcu_preempt_exp_done s rnp = false → passed = [] ∧ stop = rnp ∧ s' = s) := by
  intro fuel
  induction fuel with
  | zero => intro s rnp h; simp [reaches_root] at h
  | succ fuel ih =>
    intro s rnp hreach
    cases hd : sync_rcu_preempt_exp_done s rnp with
    | false =>
      refine ⟨s, [], [], rnp,
        (match (s.node rnp).parent with
          | none => []
          | some rnp_p => ancestors s fuel rnp_p),
        rcu_report_exp_loop_stop fuel s rnp hd, by simp, ?_, ?_, ?_, ?_, ?_, ?_, ?_, ?_⟩
      · simp only [ancestors, List.nil_append]
      · intro c hc; simp at hc
      · intro _; exact hd
      · intro c hc; simp at hc
      · intro n _; rfl
      · simp [hd]
      · intro e he; simp at he
      · intro _; exact ⟨rfl, rfl, rfl⟩
    | true =>
      cases hp : (s.node rnp).parent with
      | none =>
        have hd' : sync_rcu_preempt_exp_done (log s [Event.wake_up]) rnp = true := hd
        refine ⟨log s [Event.wake_up], [Event.wake_up], [], rnp, [],
          rcu_report_exp_loop_root fuel s rnp hd hp, rfl, ?_, ?_, ?_, ?_, ?_, ?_, ?_, ?_⟩
        · simp [ancestors, hp]
        · intro c hc; simp at hc
        · intro h; exact absurd rfl h
        · intro c hc; simp at hc
        · intro n _; rfl
        · simp [hd']
        · intro e he
          simp only [List.mem_singleton] at he
          subst he
          exact ⟨by simp, by simp⟩
        · intro h; cases h
      | some p =>
        have hreach_p : reaches_root s fuel p = true := by
          simpa [reaches_root, hp] using hreach
        have hup := rcu_report_exp_loop_up fuel s rnp p hd hp
        generalize hs₁ : set_node (log (log s [Event.spin_unlock rnp]) [Event.spin_lock p]) p
          (fun n => { n with expmask := n.expmask &&& lnot (s.node rnp).grpmask }) = s₁ at hup
        have hnode_p : (s₁.node p).expmask =
            (s.node p).expmask &&& lnot (s.node rnp).grpmask := by
          rw [← hs₁]; simp [set_node, log]
        have hnode_ne : ∀ n, n ≠ p → s₁.node n = s.node n := by
          intro n hn
          rw [← hs₁]; simp [set_node, log, Function.update_noteq hn]
        have hgrp : ∀ n, (s₁.node n).grpmask = (s.node n).grpmask := by
          intro n
          by_cases hn : n = p
          · subst hn; rw [← hs₁]; simp [set_node, log]
          · rw [hnode_ne n hn]
        have hpar : ∀ n, (s₁.node n).parent = (s.node n).parent := by
          intro n
          by_cases hn : n = p
          · subst hn; rw [← hs₁]; simp [set_node, log]
          · rw [hnode_ne n hn]
        have htrace₁ : s₁.trace = s.trace ++ [Event.spin_unlock rnp, Event.spin_lock p] := by
          rw [← hs₁]; simp [set_node, log]
        have hreach₁ : reaches_root s₁ fuel p = true := by
          rw [reaches_root_congr s s₁ hpar]; exact hreach_p
        obtain ⟨s', es, passed, stop, above, hloop, htr, hanc, hpassed, hstop, hclr, hframe,
          hwake, hev, -⟩ := ih s₁ p hreach₁
        rw [ancestors_congr s s₁ hpar] at hanc
        have hloop' : rcu_report_exp_loop (fuel + 1) s rnp = some (s', stop) := by
          rw [hup]; exact hloop
        have hx := rcu_report_exp_loop_exp_only _ _ _ _ hloop'
        have hle := rcu_report_exp_loop_expmask _ _ _ _ hloop'
        have hmem : ∀ c ∈ passed, c ∈ ancestors s fuel p := by
          intro c hc
          rw [hanc]
          exact List.mem_append_left _ hc
        have hne_p : ∀ c ∈ passed, (s.node c).parent ≠ some p :=
          fun c hc => ancestors_parent_ne s fuel p c hreach_p (hmem c hc)
        refine ⟨s', [Event.spin_unlock rnp, Event.spin_lock p] ++ es, rnp :: passed, stop, above,
          hloop', ?_, ?_, ?_, hstop, ?_, ?_, ?_, ?_, ?_⟩
        · rw [htr, htrace₁, List.append_assoc]
        · simp only [ancestors, hp, hanc, List.cons_append]
        · intro c hc
          rcases List.mem_cons.mp hc with h | h
          · subst h
            exact sync_rcu_preempt_exp_done_mono hx hle c hd
          · exact hpassed c h
        · intro c hc q hq
          apply exp_cleared_intro
          by_cases hcp : c ∈ passed
          · have hq₁ : (s₁.node c).parent = some q := by rw [hpar]; exact hq
            have hqp : q ≠ p := by
              intro h
              subst h
              exact hne_p c hcp hq
            rw [(hclr c hcp q hq₁).1, hgrp, hnode_ne q hqp]
          · have hc' : c = rnp := by
              rcases List.mem_cons.mp hc with h | h
              · exact h
              · exact absurd h hcp
            subst hc'
            have hqp : q = p := by
              rw [hp] at hq
              cases hq; rfl
            subst hqp
            rw [hframe q (fun c' hc' => by rw [hpar]; exact hne_p c' hc'), hnode_p]
        · intro n hn
          have hnp : n ≠ p := by
            intro h
            subst h
            exact hn rnp (by simp) hp
          rw [hframe n (fun c hc => by
            rw [hpar]; exact hn c (List.mem_cons_of_mem _ hc)), hnode_ne n hnp]
        · rw [← hwake]
          simp
        · intro e he
          rcases List.mem_append.mp he with h | h
          · simp only [List.mem_cons, List.mem_singleton, List.not_mem_nil, or_false] at h
            rcases h with h | h <;> subst h <;> exact ⟨by simp, by simp⟩
          · exact hev e h
        · intro h; cases h

/-- On a chain that ends at the root, the root is the last node of the chain. -/
theorem ancestors_root (s : State) :
    ∀ (fuel rnp : Nat), reaches_root s fuel rnp = true →
      ∀ (passed : List Nat) (stop : Nat) (above : List Nat),
        ancestors s fuel rnp = passed ++ stop :: above →
        ((s.node stop).parent = none ↔ above = []) := by
  intro fuel
  induction fuel with
  | zero => intro rnp h; simp [reaches_root] at h
  | succ fuel ih =>
    intro rnp h passed stop above hanc
    cases hp : (s.node rnp).parent with
    | none =>
      simp only [ancestors, hp] at hanc
      cases passed with
      | nil =>
        simp only [List.nil_append, List.cons.injEq] at hanc
        obtain ⟨h1, h2⟩ := hanc
        subst h1
        simp [hp, ← h2]
      | cons a l => simp at hanc
    | some p =>
      have hp' : reaches_root s fuel p = true := by
        simpa [reaches_root, hp] using h
      simp only [ancestors, hp] at hanc
      cases passed with
      | nil =>
        simp only [List.nil_append, List.cons.injEq] at hanc
        obtain ⟨h1, h2⟩ := hanc
        subst h1
        have hne : above ≠ [] := by
          rw [← h2]
          cases fuel with
          | zero => simp [reaches_root] at hp'
          | succ f => simp [ancestors]
        simp [hp, hne]
      | cons a l =>
        simp only [List.cons_append, List.cons.injEq] at hanc
        exact ih p hp' l stop above hanc.2

theorem sync_rcu_preempt_exp_done_eq_true_iff (s : State) (rnp : Nat) :
    sync_rcu_preempt_exp_done s rnp = true ↔
      (blocked s rnp 2 = [] ∧ blocked s rnp 3 = [] ∧ (s.node rnp).expmask = 0) := by
  simp only [sync_rcu_preempt_exp_done, Bool.and_eq_true, Bool.not_eq_true',
    rcu_preempted_readers_exp_eq_false_iff, decide_eq_true_eq, and_assoc]

/-- C15: started at a node whose parent chain reaches the root within `NUM_RCU_NODES` nodes,
`rcu_report_exp_rnp` returns.  The chain from the start node to the root splits into the nodes
the walk passed, the node `stop` where it stopped, and the nodes above it.  Every passed node
is done, and the bit `grpmask` of each passed node is cleared in the `expmask` of its parent;
no other `expmask` changes.  The walk stops below the root only at a node that is not done.
The wake-up is issued exactly when `stop` is the root and the root has both expedited lists
empty and `expmask` zero.  If the start node is not done (list 2 or list 3 non-empty, or
`expmask` non-zero) the state changes only by the lock and unlock calls on the start node.  No
`expmask` bit is ever set, no other field of a node changes, and no blocked list changes. -/
theorem rcu_report_exp_rnp_walk (s : State) (rnp : Nat)
    (htree : reaches_root s s.NUM_RCU_NODES rnp = true) :
    ∃ s' es passed stop above,
      rcu_report_exp_rnp s rnp = some s' ∧
      s' = { s with node := s'.node, trace := s.trace ++ es } ∧
      ancestors s s.NUM_RCU_NODES rnp = passed ++ stop :: above ∧
      ((s.node stop).parent = none ↔ above = []) ∧
      (∀ c ∈ passed, sync_rcu_preempt_exp_done s' c = true) ∧
      ((s.node stop).parent ≠ none → sync_rcu_preempt_exp_done s' stop = false) ∧
      (∀ c ∈ passed, ∀ p, (s.node c).parent = some p → exp_cleared s s' c p) ∧
      (∀ n, (∀ c ∈ passed, (s.node c).parent ≠ some n) →
        (s'.node n).expmask = (s.node n).expmask) ∧
      (Event.wake_up ∈ es ↔
        ((s.node stop).parent = none ∧ blocked s' stop 2 = [] ∧ blocked s' stop 3 = [] ∧
          (s'.node stop).expmask = 0)) ∧
      ((blocked s rnp 2 ≠ [] ∨ blocked s rnp 3 ≠ [] ∨ (s.node rnp).expmask ≠ 0) →
        passed = [] ∧ stop = rnp ∧
        s' = log s [Event.local_irq_save, Event.spin_lock rnp, Event.spin_unlock rnp,
          Event.local_irq_restore]) ∧
      (∀ n i, (s'.node n).expmask.testBit i = true → (s.node n).expmask.testBit i = true) ∧
      (∀ n, s'.node n = { s.node n with expmask := (s'.node n).expmask }) ∧
      (∀ n i, blocked s' n i = blocked s n i) := by
  have hpar : ∀ n, ((spin_lock_irqsave s rnp).node n).parent = (s.node n).parent :=
    fun _ => rfl
  have hreach : reaches_root (spin_lock_irqsave s rnp) s.NUM_RCU_NODES rnp = true := by
    rw [reaches_root_congr s _ hpar]; exact htree
  obtain ⟨s₁, es, passed, stop, above, hloop, htr, hanc, hpassed, hstop, hclr, hframe, hwake,
    -, hnot⟩ := rcu_report_exp_loop_walk _ _ _ hreach
  rw [ancestors_congr s _ hpar] at hanc
  have hx := rcu_report_exp_loop_exp_only _ _ _ _ hloop
  have hle := rcu_report_exp_loop_expmask _ _ _ _ hloop
  have hroot := ancestors_root s _ _ htree passed stop above hanc
  refine ⟨spin_unlock_irqrestore s₁ stop,
    Event.local_irq_save :: Event.spin_lock rnp :: es ++
      [Event.spin_unlock stop, Event.local_irq_restore],
    passed, stop, above, ?_, ?_, hanc, hroot, hpassed, ?_, hclr, hframe, ?_, ?_, ?_, ?_, ?_⟩
  · have hloop' : rcu_report_exp_loop (spin_lock_irqsave s rnp).NUM_RCU_NODES
        (spin_lock_irqsave s rnp) rnp = some (s₁, stop) := hloop
    simp only [rcu_report_exp_rnp, hloop']
  · have h1 := hx.1
    simp only [spin_unlock_irqrestore, log, htr, spin_lock_irqsave] at h1 ⊢
    rw [h1]
    simp
  · intro h
    exact hstop (fun h' => h (hroot.mpr h'))
  · have hmem : Event.wake_up ∈ Event.local_irq_save :: Event.spin_lock rnp :: es ++
        [Event.spin_unlock stop, Event.local_irq_restore] ↔ Event.wake_up ∈ es := by
      simp
    rw [hmem, hwake, hroot]
    have hdone := sync_rcu_preempt_exp_done_eq_true_iff s₁ stop
    exact and_congr_right (fun _ => hdone)
  · intro h
    have hd : sync_rcu_preempt_exp_done (spin_lock_irqsave s rnp) rnp = false := by
      cases hd : sync_rcu_preempt_exp_done (spin_lock_irqsave s rnp) rnp with
      | false => rfl
      | true =>
        obtain ⟨h2, h3, h0⟩ := (sync_rcu_preempt_exp_done_eq_true_iff _ _).mp hd
        rcases h with h | h | h
        · exact absurd h2 h
        · exact absurd h3 h
        · exact absurd h0 h
    obtain ⟨h1, h2, h3⟩ := hnot hd
    refine ⟨h1, h2, ?_⟩
    rw [h2, h3]
    simp [spin_unlock_irqrestore, spin_lock_irqsave, log]
  · intro n i hi
    have h := hle n
    have h' : ((s₁.node n).expmask &&& (s.node n).expmask).testBit i = true := by
      rw [show (s.node n).expmask = ((spin_lock_irqsave s rnp).node n).expmask from rfl, h]
      exact hi
    rw [Nat.testBit_and, Bool.and_eq_true] at h'
    exact h'.2
  · intro n
    exact hx.2.1 n
  · intro n i
    exact exp_only_blocked hx n i

/-- C15 on `tree4`, leaf 1: the leaf and the root are done, the walk clears the leaf's bit in
the root and issues the wake-up. -/
theorem rcu_report_exp_rnp_walk_witness :
    reaches_root tree4 tree4.NUM_RCU_NODES 1 = true ∧
    ∃ s' es passed stop above,
      rcu_report_exp_rnp tree4 1 = some s' ∧
      s' = { tree4 with node := s'.node, trace := tree4.trace ++ es } ∧
      ancestors tree4 tree4.NUM_RCU_NODES 1 = passed ++ stop :: above ∧
      ((tree4.node stop).parent = none ↔ above = []) ∧
      (∀ c ∈ passed, sync_rcu_preempt_exp_done s' c = true) ∧
      ((tree4.node stop).parent ≠ none → sync_rcu_preempt_exp_done s' stop = false) ∧
      (∀ c ∈ passed, ∀ p, (tree4.node c).parent = some p → exp_cleared tree4 s' c p) ∧
      (∀ n, (∀ c ∈ passed, (tree4.node c).parent ≠ some n) →
        (s'.node n).expmask = (tree4.node n).expmask) ∧
      (Event.wake_up ∈ es ↔
        ((tree4.node stop).parent = none ∧ blocked s' stop 2 = [] ∧ blocked s' stop 3 = [] ∧
          (s'.node stop).expmask = 0)) ∧
      ((blocked tree4 1 2 ≠ [] ∨ blocked tree4 1 3 ≠ [] ∨ (tree4.node 1).expmask ≠ 0) →
        passed = [] ∧ stop = 1 ∧
        s' = log tree4 [Event.local_irq_save, Event.spin_lock 1, Event.spin_unlock 1,
          Event.local_irq_restore]) ∧
      (∀ n i, (s'.node n).expmask.testBit i = true → (tree4.node n).expmask.testBit i = true) ∧
      (∀ n, s'.node n = { tree4.node n with expmask := (s'.node n).expmask }) ∧
      (∀ n i, blocked s' n i = blocked tree4 n i) :=
  ⟨by decide, rcu_report_exp_rnp_walk tree4 1 (by decide)⟩

/-! ### C13 -/

/-- The events of `report_unblock` on a node whose bit in the parent's `qsmask` is clear. -/
theorem report_unblock_cleared (s : State) (rnp p : Nat) (hfuel : 0 < s.NUM_RCU_NODES)
    (hp : (s.node rnp).parent = some p)
    (hclr : (s.node p).qsmask &&& (s.node rnp).grpmask = 0) :
    report_unblock s rnp = some (log s
      (if (s.node rnp).qsmask ≠ 0 ∨ rcu_preempted_readers s rnp = true then
        [Event.spin_unlock rnp, Event.local_irq_restore]
      else
        [Event.spin_unlock rnp, Event.spin_lock p,
          Event.rcu_report_qs_rnp (s.node rnp).grpmask p,
          Event.spin_unlock p, Event.local_irq_restore])) := by
  obtain ⟨k, hk⟩ := Nat.exists_eq_succ_of_ne_zero (Nat.pos_iff_ne_zero.mp hfuel)
  by_cases hg : (s.node rnp).qsmask ≠ 0 ∨ rcu_preempted_readers s rnp = true
  · simp [report_unblock, rcu_report_unblock_qs_rnp, hg, spin_unlock_irqrestore, log]
  · simp [report_unblock, rcu_report_unblock_qs_rnp, hg, hp, spin_unlock_irqrestore, log, hk,
      rcu_report_qs_rnp, hclr]

/-- The modelled callee does report where the contribution is still outstanding: on
`tree4_leaf_outstanding`, leaf 1 clears its bit in the root and the root declares the grace
period complete. -/
theorem report_unblock_leaf_outstanding :
    (report_unblock tree4_leaf_outstanding 1).map
        (fun s => ((s.node 0).qsmask, s.trace)) =
      some (0, [Event.spin_unlock 1, Event.spin_lock 0, Event.rcu_report_qs_rnp 1 0,
        Event.rcu_report_qs_rsp]) := by
  decide

/-- C13 (against the callee modelled from the spec): on a node `rnp` with parent `p` whose bit
`grpmask` is already clear in the parent's `qsmask`, `report_unblock` returns, the state
changes only by lock and unlock calls appended to the trace (no mask, counter, list or task
field changes), and the grace period is not declared complete.  A second call right after
the first makes the same calls again and likewise changes nothing. -/
theorem report_unblock_idempotent (s : State) (rnp p : Nat) (hfuel : 0 < s.NUM_RCU_NODES)
    (hp : (s.node rnp).parent = some p)
    (hclr : (s.node p).qsmask &&& (s.node rnp).grpmask = 0) :
    ∃ s₁ es,
      report_unblock s rnp = some s₁ ∧
      s₁ = { s with trace := s.trace ++ es } ∧
      Event.rcu_report_qs_rsp ∉ es ∧
      ∃ s₂,
        (report_unblock s rnp).bind (fun s => report_unblock s rnp) = some s₂ ∧
        s₂ = { s₁ with trace := s₁.trace ++ es } ∧
        s₂.node = s.node ∧ s₂.task = s.task ∧ s₂.rda = s.rda ∧
        s₂.sync_rcu_preempt_exp_count = s.sync_rcu_preempt_exp_count := by
  have h1 := report_unblock_cleared s rnp p hfuel hp hclr
  generalize hes : (if (s.node rnp).qsmask ≠ 0 ∨ rcu_preempted_readers s rnp = true then
        [Event.spin_unlock rnp, Event.local_irq_restore]
      else
        [Event.spin_unlock rnp, Event.spin_lock p,
          Event.rcu_report_qs_rnp (s.node rnp).grpmask p,
          Event.spin_unlock p, Event.local_irq_restore]) = es at h1
  have h2 := report_unblock_cleared (log s es) rnp p hfuel hp hclr
  have hes' : (if ((log s es).node rnp).qsmask ≠ 0 ∨
        rcu_preempted_readers (log s es) rnp = true then
        [Event.spin_unlock rnp, Event.local_irq_restore]
      else
        [Event.spin_unlock rnp, Event.spin_lock p,
          Event.rcu_report_qs_rnp ((log s es).node rnp).grpmask p,
          Event.spin_unlock p, Event.local_irq_restore]) = es := hes
  rw [hes'] at h2
  refine ⟨log s es, es, h1, rfl, ?_, log (log s es) es, ?_, rfl, rfl, rfl, rfl, rfl⟩
  · rw [← hes]
    split <;> simp
  · rw [h1]
    exact h2

/-- C13 on `tree4`, leaf 1: the root waits for nothing, so the leaf's bit is clear there. -/
theorem report_unblock_idempotent_witness :
    0 < tree4.NUM_RCU_NODES ∧ (tree4.node 1).parent = some 0 ∧
    (tree4.node 0).qsmask &&& (tree4.node 1).grpmask = 0 ∧
    ∃ s₁ es,
      report_unblock tree4 1 = some s₁ ∧
      s₁ = { tree4 with trace := tree4.trace ++ es } ∧
      Event.rcu_report_qs_rsp ∉ es ∧
      ∃ s₂,
        (report_unblock tree4 1).bind (fun s => report_unblock s 1) = some s₂ ∧
        s₂ = { s₁ with trace := s₁.trace ++ es } ∧
        s₂.node = tree4.node ∧ s₂.task = tree4.task ∧ s₂.rda = tree4.rda ∧
        s₂.sync_rcu_preempt_exp_count = tree4.sync_rcu_preempt_exp_count :=
  ⟨by decide, by decide, by decide,
    report_unblock_idempotent tree4 1 0 (by decide) (by decide) (by decide)⟩

end RcuTree
